import Mathlib

/-!
# Vet Clinic: appointment lifecycle, assignment workflow and access filter

A shallow embedding of the appointment, account and record code of the repository:

* `backend/server.js`: `GET /api/appointments`, `PUT /api/appointments/:id/assign`,
  `POST /api/appointments`, the account routes (`POST /api/auth/register`,
  `POST /api/auth/login`, `PUT /api/auth/profile`, `PUT /api/auth/password`,
  `POST /api/auth/2fa/enable`, `POST /api/auth/2fa/disable`, `POST /api/admin/users`) and the
  records routes (`GET /api/records`, `POST /api/records`);
* `backend/middleware/auth.js`: `authorizeRole`;
* `backend/utils/encryption.js`: `encrypt`, `decrypt`;
* `src/pages/StaffDashboard.jsx`: `fetchData`, `openApptDetails`, `handleAssignToMe`,
  `handleMarkAsDone`, `handleBookAppointmentForClient`, the two workflow buttons and the client
  and pet selectors of the booking form;
* `src/pages/ClientPortal.jsx`: `fetchClientData`;
* `src/pages/ForgotPassword.jsx`: `handleSubmit`;
* `src/context/AuthContext.jsx`: `register`.

The functions of the libraries the code calls (`bcrypt`, `otplib`, `jsonwebtoken`,
`express-validator`, Node's `crypto` and `Buffer`) are parameters (`Libs`, `NodeCrypto`); what a
statement assumes of them is a hypothesis of that statement.

Firestore collections are lists of documents in the order the store returns them.  A JavaScript
value that may be `null` or `undefined` is an `Option`; truthiness of such a value is `truthy`.
Every awaited call of a handler may reject: `Env.rejects n` says whether the `n`-th awaited call
(in program order, from 0) rejects, so that the `try`/`catch` paths of the source are part of the
embedding.
-/

namespace VetClinic

/-! ## Data model -/

/-- Appointment status: the three string literals the code writes and compares against. -/
inductive Status
  | Pending
  | Confirmed
  | Done
  deriving DecidableEq, Repr

/-- Position of a status in the lifecycle order `Pending < Confirmed < Done`. -/
def Status.rank : Status → Nat
  | .Pending => 0
  | .Confirmed => 1
  | .Done => 2

/-- A document of the `appointments` collection, `id` being the document id
(`{ id: d.id, ...d.data() }`). -/
structure Appointment where
  id : String
  pet_id : String
  owner_id : String
  date : String
  time : String
  reason : Option String
  status : Status
  assigned_to : Option String
  created_by : Option String
  created_at : Option String
  deriving DecidableEq, Repr

/-- A document of the `pets` collection. -/
structure Pet where
  id : String
  owner_id : String
  name : String
  type : String
  breed : String
  age : String
  weight : String
  deriving DecidableEq, Repr

/-- A document of the `users` collection. -/
structure User where
  id : String
  name : String
  email : String
  phone : String
  role : Option String
  password : String
  two_factor_enabled : Bool
  two_factor_secret : Option String
  deriving DecidableEq, Repr

/-- A document of the `medical_records` collection.  The backend stores `notes_encrypted` and
`iv`, the dashboard stores `notes` and `created_by`. -/
structure MedicalRecord where
  id : String
  pet_id : String
  date : String
  diagnosis : String
  treatment : String
  notes : Option String
  notes_encrypted : Option String
  iv : Option String
  created_by : Option String
  deriving DecidableEq, Repr

/-- A document of the `audit_logs` collection. -/
structure AuditLog where
  user_email : String
  action : String
  details : String
  timestamp : String
  deriving DecidableEq, Repr

/-- The persistence store: one list of documents per collection. -/
structure Store where
  appointments : List Appointment
  pets : List Pet
  users : List User
  medical_records : List MedicalRecord
  audit_logs : List AuditLog
  deriving DecidableEq, Repr

/-- The empty store. -/
def Store.empty : Store :=
  { appointments := [], pets := [], users := [], medical_records := [], audit_logs := [] }

/-- The authenticated actor: `req.user` (the token payload) in the backend, `user` of `useAuth`
in the pages. -/
structure Actor where
  id : String
  email : String
  role : Option String
  name : String
  deriving DecidableEq, Repr

/-- What a handler gets from outside the store. -/
structure Env where
  /-- The value of `new Date().toISOString()`. -/
  now : String
  /-- The id the store generates for the document the handler adds. -/
  newId : String
  /-- Whether the `n`-th awaited call of the handler rejects. -/
  rejects : Nat → Bool
  /-- The AES-GCM serialisation `iv:ciphertext` of a non-empty plain text. -/
  cipher : String → String
  /-- The `message` of the error the `n`-th awaited call rejects with. -/
  errMessage : Nat → String
  /-- The value of `Date.now()`: milliseconds since the epoch, UTC. -/
  nowMs : Int
  /-- The value of `getTimezoneOffset()` of the clock: minutes to add to local time to get UTC. -/
  tzOffset : Int

/-- An environment in which no awaited call rejects. -/
def Env.resolves (env : Env) : Prop := ∀ n, env.rejects n = false

/-! ## JavaScript helpers -/

/-- Truthiness of a nullable string: `null`, `undefined` and `''` are falsy. -/
def truthy : Option String → Bool
  | none => false
  | some s => s != ""

/-- The string a nullable string is converted to, as a property key in `obj[key]` and inside a
template literal. -/
def jsString : Option String → String
  | none => "null"
  | some s => s

/-- The expression `x || 'Unknown'` for a name that may be missing. -/
def orUnknown (n : Option String) : String :=
  if truthy n then n.getD "Unknown" else "Unknown"

/-- The expression `x || null` for a name that may be missing. -/
def orNull (n : Option String) : Option String :=
  if truthy n then n else none

/-- The object built by `docs.forEach(d => { pets[d.id] = ... })`, read at key `k`: the last
document with that id. -/
def lookupPet (pets : List Pet) (k : String) : Option Pet :=
  pets.reverse.find? (fun p => decide (p.id = k))

/-- The object built by `docs.forEach(d => { users[d.id] = ... })`, read at key `k`. -/
def lookupUser (users : List User) (k : String) : Option User :=
  users.reverse.find? (fun u => decide (u.id = k))

/-- The part of an ISO timestamp before `T`: `iso.split('T')[0]`. -/
def isoDay (iso : String) : String :=
  (iso.splitOn "T").headD ""

/-! ## Store operations -/

/-- The call `doc(id).get()`: the document with that id, if it exists. -/
def getAppointment (s : Store) (id : String) : Option Appointment :=
  s.appointments.find? (fun a => decide (a.id = id))

/-- The call `doc(id).update(fields)`: the fields of the document with that id are rewritten by
`f`, every other document is left as it is. -/
def updateAppointment (s : Store) (id : String) (f : Appointment → Appointment) : Store :=
  { s with appointments := s.appointments.map (fun a => if a.id = id then f a else a) }

/-- The call `collection('appointments').add(doc)`, the document taking the generated id. -/
def addAppointment (s : Store) (a : Appointment) : Store :=
  { s with appointments := s.appointments ++ [a] }

/-- The call `collection('medical_records').add(doc)`. -/
def addRecord (s : Store) (r : MedicalRecord) : Store :=
  { s with medical_records := s.medical_records ++ [r] }

/-- The call `collection('audit_logs').add(entry)`. -/
def addAudit (s : Store) (e : AuditLog) : Store :=
  { s with audit_logs := s.audit_logs ++ [e] }

/-! ## Backend responses -/

/-- An element of the list answered by `GET /api/appointments`: the stored appointment
(`...a`) and the display names added to it.  The client branch adds no `owner_name`. -/
structure ApptView where
  appt : Appointment
  owner_name : Option String
  pet_name : String
  staff_name : Option String
  deriving DecidableEq, Repr

/-- An element of the list answered by `GET /api/records`: the stored record (`...r`) and the
decrypted `notes`. -/
structure RecordView where
  record : MedicalRecord
  notes : String
  deriving DecidableEq, Repr

/-- The JSON body of a response. -/
inductive Body
  | message (m : String)
  | assigned (m : String) (staff_name : String)
  | requested (m : String) (id : String)
  | appointments (l : List ApptView)
  | errors
  | require2FA
  | session (token : String) (user : Actor) (phone : String)
  | profile (m : String) (user : Actor) (phone : String)
  | created (m : String) (id : String)
  | records (l : List RecordView)
  deriving DecidableEq, Repr

/-- A response of the REST backend: `res.status(code).json(body)`. -/
structure Response where
  status : Nat
  body : Body
  deriving DecidableEq, Repr

/-- The response of every `catch` block of the backend. -/
def serverError : Response :=
  { status := 500, body := .message "Server error" }

/-- What a middleware does: call `next()` or send a response. -/
inductive Middleware
  | next
  | respond (r : Response)
  deriving DecidableEq, Repr

/-- The middleware `authorizeRole(roles)` of `backend/middleware/auth.js`. -/
def authorizeRole (roles : List String) (user : Actor) : Middleware :=
  if (match user.role with
      | some r => roles.contains r
      | none => false) then
    .next
  else
    .respond { status := 403, body := .message "Access Denied: Insufficient Permissions" }

/-! ## `PUT /api/appointments/:id/assign` -/

/-- The guard of the claim: the actor is exactly `staff` and `assigned_to` is set to another id. -/
def assignedToOther (user : Actor) (data : Appointment) : Bool :=
  decide (user.role = some "staff") && truthy data.assigned_to
    && decide (data.assigned_to ≠ some user.id)

/-- The update written by a claim: `{ status: 'Confirmed', assigned_to: user.id }`. -/
def claimFields (user : Actor) (a : Appointment) : Appointment :=
  { a with status := .Confirmed, assigned_to := some user.id }

/-- The audit entry of a claim. -/
def assignAudit (env : Env) (user : Actor) (id : String) : AuditLog :=
  { user_email := user.email, action := "APPT_ASSIGN",
    details := "Staff assigned self to appt #" ++ id, timestamp := env.now }

/-- The route `PUT /api/appointments/:id/assign` behind `authorizeRole(['staff', 'admin'])`.
Awaited calls: 0 `apptRef.get()`, 1 `apptRef.update(...)`, 2 `audit_logs.add(...)`. -/
def assignAppointment (env : Env) (user : Actor) (id : String) (s : Store) : Response × Store :=
  match authorizeRole ["staff", "admin"] user with
  | .respond r => (r, s)
  | .next =>
    if env.rejects 0 then (serverError, s)
    else
      match getAppointment s id with
      | none => ({ status := 404, body := .message "Appointment not found" }, s)
      | some data =>
        if assignedToOther user data then
          ({ status := 403, body := .message "Already assigned to another staff member." }, s)
        else if env.rejects 1 then (serverError, s)
        else
          let s1 := updateAppointment s id (claimFields user)
          if env.rejects 2 then (serverError, s1)
          else
            ({ status := 200, body := .assigned "Assigned successfully" user.name },
              addAudit s1 (assignAudit env user id))

/-! ## `GET /api/appointments` -/

/-- The enrichment of the client branch. -/
def enrichForClient (pets : List Pet) (users : List User) (a : Appointment) : ApptView :=
  { appt := a
    owner_name := none
    pet_name := orUnknown ((lookupPet pets a.pet_id).map (fun p => p.name))
    staff_name := orNull ((lookupUser users (jsString a.assigned_to)).map (fun u => u.name)) }

/-- The enrichment of the staff branch and of the last branch. -/
def enrichForStaff (pets : List Pet) (users : List User) (a : Appointment) : ApptView :=
  { appt := a
    owner_name := some (orUnknown ((lookupUser users a.owner_id).map (fun u => u.name)))
    pet_name := orUnknown ((lookupPet pets a.pet_id).map (fun p => p.name))
    staff_name := orNull ((lookupUser users (jsString a.assigned_to)).map (fun u => u.name)) }

/-- The predicate of the staff filter: `!a.assigned_to || a.assigned_to === user.id`. -/
def visibleToStaff (user : Actor) (a : Appointment) : Bool :=
  !truthy a.assigned_to || decide (a.assigned_to = some user.id)

/-- The value of `filtered` in `GET /api/appointments`. -/
def filterAppointments (user : Actor) (apptsRaw : List Appointment) (pets : List Pet)
    (users : List User) : List ApptView :=
  if user.role = some "client" then
    (apptsRaw.filter (fun a => decide (a.owner_id = user.id))).map (enrichForClient pets users)
  else if user.role = some "staff" then
    (apptsRaw.filter (visibleToStaff user)).map (enrichForStaff pets users)
  else
    apptsRaw.map (enrichForStaff pets users)

/-- The route `GET /api/appointments`.  Awaited calls: 0, 1 and 2 are the reads of the
`appointments`, `pets` and `users` collections. -/
def getAppointments (env : Env) (user : Actor) (s : Store) : Response :=
  if env.rejects 0 then serverError
  else if env.rejects 1 then serverError
  else if env.rejects 2 then serverError
  else
    { status := 200, body := .appointments (filterAppointments user s.appointments s.pets s.users) }

/-! ## `POST /api/appointments` -/

/-- The body of an appointment request. -/
structure AppointmentRequest where
  pet_id : String
  date : String
  time : String
  reason : Option String
  deriving DecidableEq, Repr

/-- The document a client request adds. -/
def requestedAppointment (env : Env) (user : Actor) (body : AppointmentRequest) : Appointment :=
  { id := env.newId, pet_id := body.pet_id, owner_id := user.id, date := body.date,
    time := body.time, reason := body.reason, status := .Pending, assigned_to := none,
    created_by := none, created_at := none }

/-- The route `POST /api/appointments`.  Awaited calls: 0 `petRef.get()`, 1
`appointments.add(...)`, 2 `apptRef.update({ id })`. -/
def createAppointment (env : Env) (user : Actor) (body : AppointmentRequest) (s : Store) :
    Response × Store :=
  if env.rejects 0 then (serverError, s)
  else
    match s.pets.find? (fun p => decide (p.id = body.pet_id)) with
    | none => ({ status := 403, body := .message "Invalid Pet" }, s)
    | some pet =>
      if pet.owner_id ≠ user.id then ({ status := 403, body := .message "Invalid Pet" }, s)
      else if env.rejects 1 then (serverError, s)
      else
        let s1 := addAppointment s (requestedAppointment env user body)
        if env.rejects 2 then (serverError, s1)
        else ({ status := 200, body := .requested "Requested" env.newId }, s1)

/-! ## `ClientPortal.jsx`: the appointment query of `fetchClientData` -/

/-- The documents of the query `where('owner_id', '==', user.id)` on `appointments`. -/
def clientAppointmentQuery (user : Actor) (s : Store) : List Appointment :=
  s.appointments.filter (fun a => decide (a.owner_id = user.id))

/-! ## `StaffDashboard.jsx`: component state -/

/-- An element of `appointments` in the dashboard: the document (`...a`) and the display fields
`pet`, `owner`, `staff` and `type` added by `fetchData`. -/
structure ApptUI where
  appt : Appointment
  pet : String
  owner : String
  staff : Option String
  type : String
  deriving DecidableEq, Repr

/-- An element of `records` in the dashboard.  `stored` is the document behind it (`...r`), absent
for the row `handleMarkAsDone` puts in front of the list. -/
structure RecordUI where
  stored : Option MedicalRecord
  pet : String
  owner : String
  diagnosis : String
  date : String
  treatment : String
  deriving DecidableEq, Repr

/-- The booking form `newApptData`. -/
structure NewApptData where
  clientId : String
  petId : String
  date : String
  time : String
  reason : String
  deriving DecidableEq, Repr

/-- The state of one mounted `StaffDashboard`: the `useState` cells the handlers read and write,
the actor of `useAuth`, and the messages shown by `alert`, oldest first. -/
structure Dashboard where
  user : Option Actor
  appointments : List ApptUI
  records : List RecordUI
  allPets : List Pet
  allClients : List User
  loading : Bool
  selectedAppointment : Option ApptUI
  isApptModalOpen : Bool
  isNewApptModalOpen : Bool
  newApptData : NewApptData
  apptError : String
  alerts : List String
  deriving DecidableEq, Repr

/-- The initial state of the component for an actor. -/
def Dashboard.init (user : Option Actor) : Dashboard :=
  { user := user, appointments := [], records := [], allPets := [], allClients := [],
    loading := true, selectedAppointment := none, isApptModalOpen := false,
    isNewApptModalOpen := false,
    newApptData := { clientId := "", petId := "", date := "", time := "", reason := "" },
    apptError := "", alerts := [] }

/-- The call `alert(m)`. -/
def Dashboard.alert (d : Dashboard) (m : String) : Dashboard :=
  { d with alerts := d.alerts ++ [m] }

/-- The expression `err.message || fallback` in a `catch` block. -/
def errorText (m : String) (fallback : String) : String :=
  if m = "" then fallback else m

/-! ## `fetchData` -/

/-- The element of `mappedAppts` built from a document. -/
def mapAppt (pets : List Pet) (users : List User) (a : Appointment) : ApptUI :=
  { appt := a
    pet := orUnknown ((lookupPet pets a.pet_id).map (fun p => p.name))
    owner := orUnknown ((lookupUser users a.owner_id).map (fun u => u.name))
    staff := if truthy a.assigned_to then
        (lookupUser users (jsString a.assigned_to)).map (fun u => u.name)
      else none
    type := if truthy a.reason then jsString a.reason else "Checkup" }

/-- The element of `mappedRecords` built from a document. -/
def mapRecord (pets : List Pet) (users : List User) (r : MedicalRecord) : RecordUI :=
  let pet := lookupPet pets r.pet_id
  let ownerUser := match pet with
    | some p => if p.owner_id = "" then none else lookupUser users p.owner_id
    | none => none
  { stored := some r
    pet := match pet with
      | some p => if p.name = "" then "Pet #" ++ r.pet_id else p.name
      | none => "Pet #" ++ r.pet_id
    owner := match ownerUser with
      | some u => u.name
      | none => "Unknown"
    diagnosis := r.diagnosis
    date := r.date
    treatment := r.treatment }

/-- The appointments `fetchData` keeps: all of them, unless the actor is `staff` with a truthy
id, who keeps the unassigned ones and their own. -/
def dashboardFilter (user : Actor) (appts : List Appointment) : List Appointment :=
  if user.role = some "staff" ∧ user.id ≠ "" then
    appts.filter (fun a => !truthy a.assigned_to || decide (a.assigned_to = some user.id))
  else appts

/-- The effect `fetchData`, run when `user` is set.  Awaited call 0 is the `Promise.all` of the
four collection reads.  Document ids being unique, `Object.values(petsMap)` lists the pets; they
are kept in store order, the order `Object.values` gives integer-like keys being left out. -/
def fetchData (env : Env) (d : Dashboard) (s : Store) : Dashboard :=
  match d.user with
  | none => d
  | some user =>
    if env.rejects 0 then { d with loading := false }
    else
      { d with
        allPets := s.pets
        allClients := s.users.filter (fun u => decide (u.role = some "client"))
        appointments := (dashboardFilter user s.appointments).map (mapAppt s.pets s.users)
        records := s.medical_records.map (mapRecord s.pets s.users)
        loading := false }

/-- The handler `openApptDetails`. -/
def openApptDetails (d : Dashboard) (appt : ApptUI) : Dashboard :=
  { d with selectedAppointment := some appt, isApptModalOpen := true }

/-! ## `handleAssignToMe` -/

/-- The guard of `handleAssignToMe`:
`data.assigned_to && data.assigned_to !== user.id && user.role === 'staff'`. -/
def assignedToOtherUI (user : Actor) (data : Appointment) : Bool :=
  truthy data.assigned_to && decide (data.assigned_to ≠ some user.id)
    && decide (user.role = some "staff")

/-- The row update `{ ...a, status: 'Confirmed', staff: user.name }`. -/
def confirmUI (user : Actor) (a : ApptUI) : ApptUI :=
  { a with appt := { a.appt with status := .Confirmed }, staff := some user.name }

/-- The component state after `setAppointments(updatedAppts)` and `setSelectedAppointment(...)`
of `handleAssignToMe`. -/
def assignedDashboard (user : Actor) (sel : ApptUI) (d : Dashboard) : Dashboard :=
  { d with
    appointments := d.appointments.map
      (fun (a : ApptUI) => if a.appt.id = sel.appt.id then confirmUI user a else a)
    selectedAppointment := d.selectedAppointment.map (confirmUI user) }

/-- The handler `handleAssignToMe`.  Awaited calls: 0 `getDoc`, 1 `updateDoc`, 2 `addDoc` of the
audit entry. -/
def handleAssignToMe (env : Env) (d : Dashboard) (s : Store) : Dashboard × Store :=
  match d.selectedAppointment, d.user with
  | none, _ => (d, s)
  | some _, none => (d, s)
  | some sel, some user =>
    if env.rejects 0 then
      (d.alert (errorText (env.errMessage 0) "Failed to assign appointment"), s)
    else
      match getAppointment s sel.appt.id with
      | none => (d.alert "Appointment not found.", s)
      | some data =>
        if assignedToOtherUI user data then
          (d.alert "Already assigned to another staff member.", s)
        else if env.rejects 1 then
          (d.alert (errorText (env.errMessage 1) "Failed to assign appointment"), s)
        else
          let s1 := updateAppointment s sel.appt.id (claimFields user)
          let d1 := assignedDashboard user sel d
          if env.rejects 2 then
            (d1.alert (errorText (env.errMessage 2) "Failed to assign appointment"), s1)
          else
            (d1.alert "Appointment Approved & Assigned to you.",
              addAudit s1 (assignAudit env user sel.appt.id))

/-! ## `handleMarkAsDone` -/

/-- The function `encryptText` of `src/utils/fieldEncryption.js` when it does not throw. -/
def encryptText (env : Env) (plainText : String) : String :=
  if plainText = "" then "" else env.cipher plainText

/-- The record `recordPayload` after its notes are encrypted.  In the notes a missing reason is
rendered by `jsString`, as `null`; the template literal renders a field that is absent, rather
than null, as `undefined`. -/
def recordPayload (env : Env) (user : Actor) (sel : ApptUI) : MedicalRecord :=
  { id := env.newId
    pet_id := sel.appt.pet_id
    date := isoDay env.now
    diagnosis := "Routine Visit"
    treatment := sel.type
    notes := some (encryptText env
      ("Completed appointment for " ++ jsString sel.appt.reason ++ "."))
    notes_encrypted := none
    iv := none
    created_by := some user.id }

/-- The audit entry of `handleMarkAsDone`. -/
def recordAudit (env : Env) (user : Actor) (id : String) : AuditLog :=
  { user_email := user.email, action := "RECORD_CREATE_AUTO",
    details := "Auto medical record for appt #" ++ id, timestamp := env.now }

/-- The message of the success `alert` of `handleMarkAsDone`. -/
def markDoneSuccess : String := "Appointment completed and record saved."

/-- The update written by `handleMarkAsDone`: `{ status: 'Done' }`. -/
def doneFields (a : Appointment) : Appointment :=
  { a with status := .Done }

/-- The row update `{ ...a, status: 'Done' }`. -/
def doneUI (a : ApptUI) : ApptUI :=
  { a with appt := { a.appt with status := .Done } }

/-- The component state after `setAppointments(updatedAppts)`, `setRecords([newRecordUI,
...records])` and `setIsApptModalOpen(false)` of `handleMarkAsDone`. -/
def doneDashboard (r : MedicalRecord) (sel : ApptUI) (d : Dashboard) : Dashboard :=
  { d with
    appointments := d.appointments.map
      (fun (a : ApptUI) => if a.appt.id = sel.appt.id then doneUI a else a)
    records :=
      { stored := none, pet := sel.pet, owner := sel.owner, diagnosis := r.diagnosis,
        date := r.date, treatment := r.treatment } :: d.records
    isApptModalOpen := false }

/-- The handler `handleMarkAsDone`.  Awaited calls: 0 `encryptText`, 1 `addDoc` of the record,
2 `updateDoc` of the appointment (it rejects when the document does not exist), 3 `addDoc` of the
audit entry, inside its own `try`. -/
def handleMarkAsDone (env : Env) (d : Dashboard) (s : Store) : Dashboard × Store :=
  match d.selectedAppointment, d.user with
  | none, _ => (d, s)
  | some _, none => (d, s)
  | some sel, some user =>
    if env.rejects 0 then
      (d.alert ("Failed: " ++ errorText (env.errMessage 0) "Unable to save record"), s)
    else if env.rejects 1 then
      (d.alert ("Failed: " ++ errorText (env.errMessage 1) "Unable to save record"), s)
    else
      let rec_ := recordPayload env user sel
      let s1 := addRecord s rec_
      if env.rejects 2 ∨ getAppointment s1 sel.appt.id = none then
        (d.alert ("Failed: " ++ errorText (env.errMessage 2) "Unable to save record"), s1)
      else
        let s2 := updateAppointment s1 sel.appt.id doneFields
        let s3 := if env.rejects 3 then s2 else addAudit s2 (recordAudit env user sel.appt.id)
        ((doneDashboard rec_ sel d).alert markDoneSuccess, s3)

/-! ## `handleBookAppointmentForClient` -/

/-- Days from 1970-01-01 to the day `d` of month `m` of year `y` in the Gregorian calendar. -/
def daysFromCivil (y m d : Int) : Int :=
  let y1 := if m ≤ 2 then y - 1 else y
  let era := y1 / 400
  let yoe := y1 - era * 400
  let mp := if m > 2 then m - 3 else m + 9
  let doy := (153 * mp + 2) / 5 + d - 1
  let doe := yoe * 365 + yoe / 4 - yoe / 100 + doy
  era * 146097 + doe - 719468

/-- Number of days of month `m` of year `y`. -/
def daysInMonth (y m : Nat) : Nat :=
  if m = 2 then
    if (y % 4 = 0 ∧ y % 100 ≠ 0) ∨ y % 400 = 0 then 29 else 28
  else if m = 4 ∨ m = 6 ∨ m = 9 ∨ m = 11 then 30
  else 31

/-- Milliseconds in a day. -/
def msPerDay : Int := 86400000

/-- The value of a decimal digit, `none` for any other character. -/
def digitValue (c : Char) : Option Nat :=
  if c.isDigit then some (c.toNat - 48) else none

/-- The time value of `new Date(value)` for the value of the date input: a calendar date
`YYYY-MM-DD` is read as midnight UTC of that day; any other value of the input (the empty string)
gives an invalid date, which is `none`. -/
def parseDate (value : String) : Option Int :=
  match value.data with
  | [y1, y2, y3, y4, s1, m1, m2, s2, d1, d2] =>
    if s1 = '-' ∧ s2 = '-' then do
      let a ← digitValue y1
      let b ← digitValue y2
      let c ← digitValue y3
      let e ← digitValue y4
      let f ← digitValue m1
      let g ← digitValue m2
      let h ← digitValue d1
      let i ← digitValue d2
      let y := 1000 * a + 100 * b + 10 * c + e
      let m := 10 * f + g
      let d := 10 * h + i
      if 1 ≤ m ∧ m ≤ 12 ∧ 1 ≤ d ∧ d ≤ daysInMonth y m then
        some (daysFromCivil y m d * msPerDay)
      else none
    else none
  | _ => none

/-- The time value of `today` after `today.setHours(0, 0, 0, 0)`: midnight of the current day on
the local clock.  The offset of the clock is taken to be the same at midnight as now, so a day on
which the offset changes is outside the embedding. -/
def localMidnight (env : Env) : Int :=
  ((env.nowMs - env.tzOffset * 60000) / msPerDay) * msPerDay + env.tzOffset * 60000

/-- The current calendar day on the local clock, as a number of days since 1970-01-01. -/
def localDay (env : Env) : Int :=
  (env.nowMs - env.tzOffset * 60000) / msPerDay

/-- The clock is in one of the world's time zones: `getTimezoneOffset()` is between -840
(UTC+14) and 720 (UTC-12) minutes. -/
def Env.validZone (env : Env) : Prop :=
  -840 ≤ env.tzOffset ∧ env.tzOffset ≤ 720

/-- The test `selectedDate < today`; a comparison with an invalid date is false. -/
def isPastDate (env : Env) (value : String) : Bool :=
  match parseDate value with
  | some t => decide (t < localMidnight env)
  | none => false

/-- The document `appointmentData`, stored under the generated id. -/
def bookedAppointment (env : Env) (user : Actor) (form : NewApptData) : Appointment :=
  { id := env.newId, pet_id := form.petId, owner_id := form.clientId, date := form.date,
    time := form.time, reason := some form.reason, status := .Confirmed,
    assigned_to := some user.id, created_by := some user.id, created_at := some env.now }

/-- The audit entry of `handleBookAppointmentForClient`. -/
def bookAudit (env : Env) (user : Actor) : AuditLog :=
  { user_email := user.email, action := "APPT_CREATE_AUTO",
    details := "Staff booked & auto-approved appointment #" ++ env.newId ++ " for client",
    timestamp := env.now }

/-- The row `newApptUI`. -/
def bookedUI (env : Env) (user : Actor) (d : Dashboard) : ApptUI :=
  { appt := bookedAppointment env user d.newApptData
    pet := orUnknown ((d.allPets.find? (fun p => decide (p.id = d.newApptData.petId))).map
      (fun p => p.name))
    owner := orUnknown ((d.allClients.find? (fun c => decide (c.id = d.newApptData.clientId))).map
      (fun c => c.name))
    staff := some user.name
    type := d.newApptData.reason }

/-- The component state after a booking is stored: the error is cleared, the row is appended,
the modal is closed and the form is reset. -/
def bookedDashboard (env : Env) (user : Actor) (d : Dashboard) : Dashboard :=
  { d with
    apptError := ""
    appointments := d.appointments ++ [bookedUI env user d]
    isNewApptModalOpen := false
    newApptData := { clientId := "", petId := "", date := "", time := "", reason := "" } }

/-- The handler `handleBookAppointmentForClient`.  Awaited calls: 0 `addDoc` of the appointment,
1 `addDoc` of the audit entry.  Without an actor, reading `user.id` throws inside the `try`. -/
def handleBookAppointmentForClient (env : Env) (d : Dashboard) (s : Store) : Dashboard × Store :=
  let d0 := { d with apptError := "" }
  if isPastDate env d.newApptData.date then
    ({ d0 with
      apptError := "Cannot book appointments for past dates. Please select a future date." }, s)
  else if (d.allPets.filter (fun p => decide (p.owner_id = d.newApptData.clientId))).length = 0 then
    ({ d0 with
      apptError := "This client has no pets registered. Please add a pet first." }, s)
  else
    match d.user with
    | none => ({ d0 with apptError := "Failed to book appointment: " ++ env.errMessage 0 }, s)
    | some user =>
      if env.rejects 0 then
        ({ d0 with apptError := "Failed to book appointment: " ++ env.errMessage 0 }, s)
      else
        let s1 := addAppointment s (bookedAppointment env user d.newApptData)
        if env.rejects 1 then
          ({ d0 with apptError := "Failed to book appointment: " ++ env.errMessage 1 }, s1)
        else
          ((bookedDashboard env user d).alert "Appointment booked and confirmed successfully!",
            addAudit s1 (bookAudit env user))

/-! ## The workflow buttons -/

/-- The button `Approve & Assign to Me` is on screen: the page is loaded, the details modal is
open and the selected row is `Pending`. -/
def showsAssignButton (d : Dashboard) : Bool :=
  !d.loading && d.isApptModalOpen &&
    match d.selectedAppointment with
    | some sel => decide (sel.appt.status = .Pending)
    | none => false

/-- The button `Mark as Done & Save Record` is on screen: the page is loaded, the details modal is
open and the selected row is `Confirmed`. -/
def showsDoneButton (d : Dashboard) : Bool :=
  !d.loading && d.isApptModalOpen &&
    match d.selectedAppointment with
    | some sel => decide (sel.appt.status = .Confirmed)
    | none => false

/-! ## The system: one store, any number of mounted dashboards -/

/-- The store and the dashboards mounted on it. -/
structure System where
  store : Store
  dashboards : List Dashboard

/-- The ids of the stored appointments. -/
def Store.appointmentIds (s : Store) : List String :=
  s.appointments.map (fun a => a.id)

/-- One operation of the system.  The store generates an id that no stored appointment has; a
handler of a dashboard runs when its button is on screen. -/
inductive Step : System → System → Prop
  /-- The route `POST /api/appointments`. -/
  | request (sys : System) (env : Env) (user : Actor) (body : AppointmentRequest)
      (fresh : env.newId ∉ sys.store.appointmentIds) :
      Step sys { sys with store := (createAppointment env user body sys.store).2 }
  /-- The route `PUT /api/appointments/:id/assign`. -/
  | assign (sys : System) (env : Env) (user : Actor) (id : String) :
      Step sys { sys with store := (assignAppointment env user id sys.store).2 }
  /-- Any operation that leaves the `appointments` collection as it is. -/
  | other (sys : System) (s1 : Store) (same : s1.appointments = sys.store.appointments) :
      Step sys { sys with store := s1 }
  /-- A dashboard is mounted. -/
  | mount (sys : System) (user : Option Actor) :
      Step sys { sys with dashboards := Dashboard.init user :: sys.dashboards }
  /-- The actor of a dashboard changes. -/
  | setUser (sys : System) (pre post : List Dashboard) (d : Dashboard) (user : Option Actor)
      (at_ : sys.dashboards = pre ++ d :: post) :
      Step sys { sys with dashboards := pre ++ { d with user := user } :: post }
  /-- The effect `fetchData`. -/
  | fetch (sys : System) (pre post : List Dashboard) (d : Dashboard) (env : Env)
      (at_ : sys.dashboards = pre ++ d :: post) :
      Step sys { sys with dashboards := pre ++ fetchData env d sys.store :: post }
  /-- A row of the schedule is clicked. -/
  | openDetails (sys : System) (pre post : List Dashboard) (d : Dashboard) (appt : ApptUI)
      (at_ : sys.dashboards = pre ++ d :: post) (row : appt ∈ d.appointments) :
      Step sys { sys with dashboards := pre ++ openApptDetails d appt :: post }
  /-- The details modal is closed. -/
  | closeDetails (sys : System) (pre post : List Dashboard) (d : Dashboard)
      (at_ : sys.dashboards = pre ++ d :: post) :
      Step sys { sys with dashboards := pre ++ { d with isApptModalOpen := false } :: post }
  /-- The booking form is edited. -/
  | editForm (sys : System) (pre post : List Dashboard) (d : Dashboard) (form : NewApptData)
      (at_ : sys.dashboards = pre ++ d :: post) :
      Step sys { sys with dashboards := pre ++ { d with newApptData := form } :: post }
  /-- The button `Approve & Assign to Me` is clicked. -/
  | assignToMe (sys : System) (pre post : List Dashboard) (d : Dashboard) (env : Env)
      (at_ : sys.dashboards = pre ++ d :: post) (button : showsAssignButton d = true) :
      Step sys
        { store := (handleAssignToMe env d sys.store).2
          dashboards := pre ++ (handleAssignToMe env d sys.store).1 :: post }
  /-- The button `Mark as Done & Save Record` is clicked. -/
  | markDone (sys : System) (pre post : List Dashboard) (d : Dashboard) (env : Env)
      (at_ : sys.dashboards = pre ++ d :: post) (button : showsDoneButton d = true) :
      Step sys
        { store := (handleMarkAsDone env d sys.store).2
          dashboards := pre ++ (handleMarkAsDone env d sys.store).1 :: post }
  /-- The booking form is submitted. -/
  | book (sys : System) (pre post : List Dashboard) (d : Dashboard) (env : Env)
      (at_ : sys.dashboards = pre ++ d :: post)
      (fresh : env.newId ∉ sys.store.appointmentIds) :
      Step sys
        { store := (handleBookAppointmentForClient env d sys.store).2
          dashboards := pre ++ (handleBookAppointmentForClient env d sys.store).1 :: post }

/-- The states reachable from a store without appointments and no dashboard. -/
inductive Reachable : System → Prop
  | init (s : Store) (empty : s.appointments = []) : Reachable { store := s, dashboards := [] }
  | step (sys sys1 : System) (before : Reachable sys) (op : Step sys sys1) : Reachable sys1

/-- A claim is refused when it is answered 403 or 404. -/
def Response.refused (r : Response) : Prop :=
  r.status = 403 ∨ r.status = 404

instance Response.decidableRefused (r : Response) : Decidable r.refused :=
  inferInstanceAs (Decidable (r.status = 403 ∨ r.status = 404))

/-- The claim handler of the dashboard is refused: it shows one of its two refusal messages. -/
def claimRefusedUI (d d1 : Dashboard) : Prop :=
  d1.alerts = d.alerts ++ ["Appointment not found."] ∨
    d1.alerts = d.alerts ++ ["Already assigned to another staff member."]

/-! ## Invariants of the system -/

/-- The invariant of the data model: `assigned_to` is null exactly on `Pending` appointments. -/
def AssignedIffNotPending (l : List Appointment) : Prop :=
  ∀ a ∈ l, (a.assigned_to = none ↔ a.status = Status.Pending)

/-- A row of a dashboard follows the stored collection `l`: a document with its id is stored;
every stored document with its id has the pet and the reason of the row and, if the row is not
`Pending`, is not `Pending` either. -/
def Tracks (l : List Appointment) (ui : ApptUI) : Prop :=
  (∃ a ∈ l, a.id = ui.appt.id) ∧
    ∀ a ∈ l, a.id = ui.appt.id →
      a.pet_id = ui.appt.pet_id ∧ a.reason = ui.appt.reason ∧
        (ui.appt.status ≠ Status.Pending → a.status ≠ Status.Pending)

/-- Every row of the dashboard, the selected one included, follows the stored collection. -/
def DashboardOK (l : List Appointment) (d : Dashboard) : Prop :=
  ∀ ui, (ui ∈ d.appointments ∨ d.selectedAppointment = some ui) → Tracks l ui

/-- The invariant kept by every operation: the data-model invariant, distinct document ids, and
dashboards that follow the store. -/
def Inv (sys : System) : Prop :=
  AssignedIffNotPending sys.store.appointments ∧ sys.store.appointmentIds.Nodup ∧
    ∀ d ∈ sys.dashboards, DashboardOK sys.store.appointments d

/-! ## The selectors of the booking form -/

/-- The `onChange` of the client selector: the client is set and the pet is cleared. -/
def selectClient (d : Dashboard) (value : String) : Dashboard :=
  { d with newApptData := { d.newApptData with clientId := value, petId := "" } }

/-- The pets offered by the pet selector: those of `allPets` owned by the chosen client. -/
def petOptions (d : Dashboard) : List Pet :=
  d.allPets.filter (fun p => decide (p.owner_id = d.newApptData.clientId))

/-- The `onChange` of the pet selector. -/
def selectPet (d : Dashboard) (value : String) : Dashboard :=
  { d with newApptData := { d.newApptData with petId := value } }

/-- A row shows as `type` the reason of its document, or `Checkup` in place of a falsy reason
(rows built by `fetchData`), or the reason typed in the booking form (rows built by
`handleBookAppointmentForClient`). -/
def RowTyped (ui : ApptUI) : Prop :=
  ui.type = (if truthy ui.appt.reason then jsString ui.appt.reason else "Checkup") ∨
    ui.appt.reason = some ui.type

/-- Every row of the dashboard, the selected one included, is typed as above. -/
def DashboardTyped (d : Dashboard) : Prop :=
  ∀ ui, (ui ∈ d.appointments ∨ d.selectedAppointment = some ui) → RowTyped ui

/-! ## `ClientPortal.jsx`: `fetchClientData` -/

/-- An element of `records` in the client portal: the document (`...r`) and `pet_name`. -/
structure ClientRecordView where
  record : MedicalRecord
  pet_name : String
  deriving DecidableEq, Repr

/-- The state of one mounted `ClientPortal`. -/
structure ClientPortal where
  pets : List Pet
  appointments : List ApptView
  records : List ClientRecordView
  loading : Bool
  deriving DecidableEq, Repr

/-- The initial state of the client portal. -/
def ClientPortal.init : ClientPortal :=
  { pets := [], appointments := [], records := [], loading := true }

/-- The row of the client portal built from an appointment document. -/
def clientApptView (petsData : List Pet) (users : List User) (raw : Appointment) : ApptView :=
  { appt := raw
    owner_name := none
    pet_name := orUnknown ((lookupPet petsData raw.pet_id).map (fun p => p.name))
    staff_name := if truthy raw.assigned_to then
        (lookupUser users (jsString raw.assigned_to)).map (fun u => u.name)
      else none }

/-- The test of the record filter: `pet && pet.owner_id === user.id` for `pet = petsMap[r.pet_id]`,
the map being built from the pets of the actor. -/
def recordVisible (user : Actor) (petsData : List Pet) (r : MedicalRecord) : Bool :=
  match lookupPet petsData r.pet_id with
  | some pet => decide (pet.owner_id = user.id)
  | none => false

/-- The row of the client portal built from a record document. -/
def clientRecordView (petsData : List Pet) (r : MedicalRecord) : ClientRecordView :=
  { record := r
    pet_name := match lookupPet petsData r.pet_id with
      | some pet => if pet.name = "" then "Pet #" ++ r.pet_id else pet.name
      | none => "Pet #" ++ r.pet_id }

/-- The effect `fetchClientData`.  Awaited calls: 0 the query of the actor's pets, 1 the read of
`users`, 2 the query of the actor's appointments, 3 the read of `medical_records`.  A rejection
leaves the cells not yet set as they were; `loading` is cleared in every case. -/
def fetchClientData (env : Env) (user : Actor) (s : Store) (p : ClientPortal) : ClientPortal :=
  if env.rejects 0 then { p with loading := false }
  else
    let petsData := s.pets.filter (fun x => decide (x.owner_id = user.id))
    let p1 := { p with pets := petsData }
    if env.rejects 1 then { p1 with loading := false }
    else if env.rejects 2 then { p1 with loading := false }
    else
      let p2 := { p1 with
        appointments := (clientAppointmentQuery user s).map (clientApptView petsData s.users) }
      if env.rejects 3 then { p2 with loading := false }
      else
        { p2 with
          records := (s.medical_records.filter (recordVisible user petsData)).map
            (clientRecordView petsData)
          loading := false }

/-! ## `authorizeRole`, statement by statement -/

/-- What a middleware can do to the request: call `next()` or send a response. -/
inductive Effect
  | callNext
  | send (r : Response)
  deriving DecidableEq, Repr

/-- The calls made by one run of the function returned by `authorizeRole(roles)`, in order. -/
def authorizeRoleRun (roles : List String) (user : Actor) : List Effect :=
  if !(match user.role with
      | some r => roles.contains r
      | none => false) then
    [.send { status := 403, body := .message "Access Denied: Insufficient Permissions" }]
  else
    [.callNext]

/-! ## `ForgotPassword.jsx`: `handleSubmit` -/

/-- A document of the `password_requests` collection as `ForgotPassword.jsx` writes it. -/
structure PasswordRequest where
  email : String
  request_date : String
  status : String
  approved_by : String
  approved_at : String
  deriving DecidableEq, Repr

/-- The state of the `ForgotPassword` page. -/
structure ForgotPassword where
  submitted : Bool
  email : String
  loading : Bool
  deriving DecidableEq, Repr

/-- What one run of `handleSubmit` leaves: the state of the page, the `password_requests`
collection, and whether the identity provider accepted to send the reset email. -/
structure ForgotOutcome where
  page : ForgotPassword
  requests : List PasswordRequest
  emailSent : Bool
  deriving DecidableEq, Repr

/-- The document `handleSubmit` adds to `password_requests`. -/
def resetRequest (env : Env) (email : String) : PasswordRequest :=
  { email := email, request_date := env.now, status := "Auto-Approved",
    approved_by := "System", approved_at := env.now }

/-- The handler `handleSubmit` of the forgot-password page.  Awaited calls: 0
`sendPasswordResetEmail` (it rejects, among others, for an email without an account), 1 `addDoc`
of the request; each sits in its own `try` whose `catch` only logs. -/
def handleSubmit (env : Env) (p : ForgotPassword) (requests : List PasswordRequest) :
    ForgotOutcome :=
  let p1 := { p with loading := true }
  let sent := !env.rejects 0
  let requests1 :=
    if env.rejects 1 then requests
    else requests ++ [resetRequest env p.email]
  { page := { p1 with loading := false, submitted := true }, requests := requests1,
    emailSent := sent }

/-! ## Two runs of the claim route, interleaved -/

/-- Where a run of the claim route stands between two store calls: not started, past the guard
with the update pending, past the update with the audit write pending, or answered. -/
inductive ClaimPc
  | start
  | checked
  | updated
  | done (r : Response)
  deriving DecidableEq, Repr

/-- The next store call of a run of the claim route, every call resolving, and the code that
follows it up to the next `await`: the read and the guard, then the update, then the audit
write and the answer. -/
def claimStep (env : Env) (user : Actor) (id : String) (pc : ClaimPc) (s : Store) :
    ClaimPc × Store :=
  match pc with
  | .start =>
    match authorizeRole ["staff", "admin"] user with
    | .respond r => (.done r, s)
    | .next =>
      match getAppointment s id with
      | none => (.done { status := 404, body := .message "Appointment not found" }, s)
      | some data =>
        if assignedToOther user data then
          (.done { status := 403, body := .message "Already assigned to another staff member." },
            s)
        else (.checked, s)
  | .checked => (.updated, updateAppointment s id (claimFields user))
  | .updated =>
    (.done { status := 200, body := .assigned "Assigned successfully" user.name },
      addAudit s (assignAudit env user id))
  | .done r => (.done r, s)

/-- Two runs of the claim route on the same appointment, by the actors A and B, and the store
they share. -/
structure Race where
  pcA : ClaimPc
  pcB : ClaimPc
  store : Store
  deriving DecidableEq, Repr

/-- One step of the interleaving: the next store call of the run of A, or of the run of B. -/
def raceStep (envA envB : Env) (A B : Actor) (id : String) (r : Race) (turnA : Bool) : Race :=
  if turnA then
    { r with pcA := (claimStep envA A id r.pcA r.store).1,
             store := (claimStep envA A id r.pcA r.store).2 }
  else
    { r with pcB := (claimStep envB B id r.pcB r.store).1,
             store := (claimStep envB B id r.pcB r.store).2 }

/-- The interleaving given by a schedule, from both runs not started. -/
def race (envA envB : Env) (A B : Actor) (id : String) (schedule : List Bool) (s : Store) :
    Race :=
  schedule.foldl (raceStep envA envB A B id) { pcA := .start, pcB := .start, store := s }

/-- The stored appointment `id` is held by A or by B. -/
def HeldByOneOf (A B : Actor) (id : String) (s : Store) : Prop :=
  ∃ cur, getAppointment s id = some cur ∧
    (cur.assigned_to = some A.id ∨ cur.assigned_to = some B.id)

/-- The stored appointment `id` is held by nobody. -/
def Unheld (id : String) (s : Store) : Prop :=
  ∃ cur, getAppointment s id = some cur ∧ cur.assigned_to = none

/-- The invariant of the interleaving: the appointment is unheld or held by A or B, and it is
held as soon as one of the runs is past its update or answered. -/
def RaceInv (A B : Actor) (id : String) (r : Race) : Prop :=
  (Unheld id r.store ∨ HeldByOneOf A B id r.store) ∧
    (r.pcA = .updated ∨ (∃ x, r.pcA = .done x) → HeldByOneOf A B id r.store) ∧
    (r.pcB = .updated ∨ (∃ x, r.pcB = .done x) → HeldByOneOf A B id r.store)

/-- The stored appointment `id` is held by exactly one of A and B. -/
def HeldByExactlyOne (A B : Actor) (id : String) (s : Store) : Prop :=
  ∃ cur, getAppointment s id = some cur ∧
    ((cur.assigned_to = some A.id ∧ cur.assigned_to ≠ some B.id) ∨
      (cur.assigned_to = some B.id ∧ cur.assigned_to ≠ some A.id))

/-! ## Libraries of the backend -/

/-- The functions of `bcrypt`, `otplib`, `jsonwebtoken` and `express-validator` the routes call. -/
structure Libs where
  /-- The value `bcrypt.hash(password, 10)` resolves to. -/
  hash : String → String
  /-- The value `bcrypt.compare(plain, hashed)` resolves to. -/
  compare : String → String → Bool
  /-- The call `otplib.authenticator.verify({ token, secret })`. -/
  verifyOtp : String → Option String → Bool
  /-- The call `jwt.sign(payload, JWT_SECRET, { expiresIn: '2h' })`. -/
  sign : Actor → String
  /-- The validator `isEmail()`. -/
  isEmail : String → Bool
  /-- The sanitizer `normalizeEmail()`. -/
  normalizeEmail : String → String
  /-- The sanitizers `trim().escape()`. -/
  trimEscape : String → String

/-! ## Account creation: `POST /api/auth/register`, `POST /api/admin/users`, `register` -/

/-- The fields a request to create an account may carry.  The registration handlers do not read
`role`. -/
structure UserBody where
  name : String
  email : String
  phone : Option String
  password : String
  role : Option String
  deriving DecidableEq, Repr

/-- The expression `phone || ''`. -/
def orEmpty (p : Option String) : String :=
  if truthy p then p.getD "" else ""

/-- The test `!existing.empty` on `usersRef.where('email', '==', email).limit(1).get()`. -/
def emailTaken (s : Store) (email : String) : Bool :=
  s.users.any (fun u => decide (u.email = email))

/-- The call `collection('users').add(doc)`, the document taking the generated id. -/
def addUser (s : Store) (u : User) : Store :=
  { s with users := s.users ++ [u] }

/-- The call `doc(id).get()` on the `users` collection. -/
def getUser (s : Store) (id : String) : Option User :=
  s.users.find? (fun u => decide (u.id = id))

/-- The call `doc(id).update(fields)` on the `users` collection. -/
def updateUser (s : Store) (id : String) (f : User → User) : Store :=
  { s with users := s.users.map (fun u => if u.id = id then f u else u) }

/-- The call `setDoc(doc(db, 'users', uid), data)`: the document with that id is replaced, or
created when there is none. -/
def setUser (s : Store) (u : User) : Store :=
  if s.users.any (fun v => decide (v.id = u.id)) then
    { s with users := s.users.map (fun v => if v.id = u.id then u else v) }
  else
    { s with users := s.users ++ [u] }

/-- The document both account-creating routes of the backend add. -/
def newUser (env : Env) (lib : Libs) (name email : String) (body : UserBody)
    (role : Option String) : User :=
  { id := env.newId, name := name, email := email, phone := orEmpty body.phone, role := role,
    password := lib.hash body.password, two_factor_enabled := false, two_factor_secret := none }

/-- The route `POST /api/auth/register` behind its validation chain
`body('email').isEmail().normalizeEmail()`, `body('password').isLength({ min: 8 })`,
`body('name').trim().escape()`; the handler reads the sanitized `name` and `email`.  The length
of the password is counted in code points.
Awaited calls: 0 the query by email, 1 `bcrypt.hash`, 2 `usersRef.add(...)`,
3 `newUserRef.update({ id })`. -/
def registerAccount (env : Env) (lib : Libs) (body : UserBody) (s : Store) : Response × Store :=
  let name := lib.trimEscape body.name
  let email := lib.normalizeEmail body.email
  if !(lib.isEmail body.email) || decide (body.password.length < 8) then
    ({ status := 400, body := .errors }, s)
  else if env.rejects 0 then (serverError, s)
  else if emailTaken s email then
    ({ status := 400, body := .message "Email already exists." }, s)
  else if env.rejects 1 then (serverError, s)
  else if env.rejects 2 then (serverError, s)
  else
    let s1 := addUser s (newUser env lib name email body (some "client"))
    if env.rejects 3 then (serverError, s1)
    else ({ status := 200, body := .message "Registration successful" }, s1)

/-- The route `POST /api/admin/users` behind `authorizeRole(['admin'])`.
Awaited calls: 0 the query by email, 1 `bcrypt.hash`, 2 `usersRef.add(...)`,
3 `newUserRef.update({ id })`. -/
def adminCreateUser (env : Env) (lib : Libs) (user : Actor) (body : UserBody) (s : Store) :
    Response × Store :=
  match authorizeRole ["admin"] user with
  | .respond r => (r, s)
  | .next =>
    if env.rejects 0 then (serverError, s)
    else if emailTaken s body.email then
      ({ status := 400, body := .message "Email already exists." }, s)
    else if env.rejects 1 then (serverError, s)
    else if env.rejects 2 then (serverError, s)
    else
      let s1 := addUser s (newUser env lib body.name body.email body body.role)
      if env.rejects 3 then (serverError, s1)
      else ({ status := 200, body := .created "User created" env.newId }, s1)

/-- The profile document `register` of `AuthContext.jsx` writes; `env.newId` is the `uid` of the
account Firebase Auth created, which keeps the password. -/
def registeredProfile (env : Env) (form : UserBody) : User :=
  { id := env.newId, name := form.name, email := form.email, phone := form.phone.getD "",
    role := some "client", password := "", two_factor_enabled := false,
    two_factor_secret := none }

/-- The function `register` of `AuthContext.jsx`, called with the form object; the result is the
message of the error it throws, if it throws.
Awaited calls: 0 `createUserWithEmailAndPassword(...)`, 1 `setDoc(...)`. -/
def register (env : Env) (form : UserBody) (s : Store) : Option String × Store :=
  if env.rejects 0 then (some (errorText (env.errMessage 0) "Registration failed"), s)
  else if env.rejects 1 then (some (errorText (env.errMessage 1) "Registration failed"), s)
  else (none, setUser s (registeredProfile env form))

/-! ## Settings and login routes -/

/-- The route `PUT /api/auth/profile`.  Awaited calls: 0 `userRef.update({ name, phone })`. -/
def updateProfile (env : Env) (user : Actor) (name phone : String) (s : Store) :
    Response × Store :=
  if env.rejects 0 then ({ status := 500, body := .message "Update failed" }, s)
  else
    ({ status := 200, body := .profile "Profile updated" { user with name := name } phone },
      updateUser s user.id (fun u => { u with name := name, phone := phone }))

/-- The audit entry of a password change. -/
def passwordAudit (env : Env) (user : Actor) : AuditLog :=
  { user_email := user.email, action := "PASSWORD_CHANGE", details := "User changed password",
    timestamp := env.now }

/-- The route `PUT /api/auth/password`.  Awaited calls: 0 `userRef.get()`, 1 `bcrypt.compare`,
2 `bcrypt.hash`, 3 `userRef.update(...)`, 4 `audit_logs.add(...)`. -/
def changePassword (env : Env) (lib : Libs) (user : Actor) (currentPassword newPassword : String)
    (s : Store) : Response × Store :=
  if env.rejects 0 then ({ status := 500, body := .message "Error" }, s)
  else
    match getUser s user.id with
    | none => ({ status := 400, body := .message "User not found" }, s)
    | some data =>
      if env.rejects 1 then ({ status := 500, body := .message "Error" }, s)
      else if !(lib.compare currentPassword data.password) then
        ({ status := 400, body := .message "Incorrect password" }, s)
      else if env.rejects 2 then ({ status := 500, body := .message "Error" }, s)
      else if env.rejects 3 then ({ status := 500, body := .message "Error" }, s)
      else
        let s1 := updateUser s user.id (fun u => { u with password := lib.hash newPassword })
        if env.rejects 4 then ({ status := 500, body := .message "Error" }, s1)
        else
          ({ status := 200, body := .message "Password updated" },
            addAudit s1 (passwordAudit env user))

/-- The route `POST /api/auth/2fa/enable`.  Awaited calls: 0 `userRef.update(...)`. -/
def enable2fa (env : Env) (lib : Libs) (user : Actor) (token secret : String) (s : Store) :
    Response × Store :=
  if !(lib.verifyOtp token (some secret)) then
    ({ status := 400, body := .message "Invalid Token" }, s)
  else if env.rejects 0 then (serverError, s)
  else
    ({ status := 200, body := .message "2FA Enabled" },
      updateUser s user.id
        (fun u => { u with two_factor_enabled := true, two_factor_secret := some secret }))

/-- The route `POST /api/auth/2fa/disable`.  Awaited calls: 0 `userRef.update(...)`. -/
def disable2fa (env : Env) (user : Actor) (s : Store) : Response × Store :=
  if env.rejects 0 then (serverError, s)
  else
    ({ status := 200, body := .message "Disabled" },
      updateUser s user.id
        (fun u => { u with two_factor_enabled := false, two_factor_secret := none }))

/-- The audit entry of a login. -/
def loginAudit (env : Env) (email : String) : AuditLog :=
  { user_email := email, action := "LOGIN", details := "Successful Login", timestamp := env.now }

/-- The payload of the token and the `user` of the response of a login. -/
def User.actor (u : User) : Actor :=
  { id := u.id, email := u.email, role := u.role, name := u.name }

/-- The route `POST /api/auth/login`.  Awaited calls: 0 the query by email, 1 `bcrypt.compare`,
2 `audit_logs.add(...)`. -/
def login (env : Env) (lib : Libs) (email password : String) (code : Option String)
    (s : Store) : Response × Store :=
  if env.rejects 0 then (serverError, s)
  else
    match s.users.find? (fun u => decide (u.email = email)) with
    | none => ({ status := 400, body := .message "Invalid credentials" }, s)
    | some user =>
      if env.rejects 1 then (serverError, s)
      else if !(lib.compare password user.password) then
        ({ status := 400, body := .message "Invalid credentials" }, s)
      else if user.two_factor_enabled && !(truthy code) then
        ({ status := 200, body := .require2FA }, s)
      else if user.two_factor_enabled
          && !(lib.verifyOtp (jsString code) user.two_factor_secret) then
        ({ status := 400, body := .message "Invalid 2FA Code" }, s)
      else if env.rejects 2 then (serverError, s)
      else
        ({ status := 200, body := .session (lib.sign user.actor) user.actor user.phone },
          addAudit s (loginAudit env email))

/-- Whether a response of the login route carries a token. -/
def Response.issuesToken (r : Response) : Bool :=
  match r.body with
  | .session _ _ _ => true
  | _ => false

/-! ## `backend/utils/encryption.js` and the records routes -/

/-- The functions of Node's `crypto` and `Buffer` the cipher wrappers call, over a type `β` of
byte buffers, together with the key read from the environment. -/
structure NodeCrypto (β : Type) where
  /-- The buffer `Buffer.from(process.env.ENCRYPTION_KEY)`. -/
  key : β
  /-- The conversion `buf.toString('hex')`. -/
  toHex : β → String
  /-- The conversion `Buffer.from(str, 'hex')`. -/
  fromHex : String → β
  /-- The bytes `cipher.update(text)` reads from a string. -/
  fromText : String → β
  /-- The conversion `buf.toString()`. -/
  toText : β → String
  /-- The output of `createCipheriv('aes-256-cbc', key, iv)` for an input, `update` and `final`
  concatenated; `none` when one of the calls throws. -/
  cipher : β → β → β → Option β
  /-- The output of `createDecipheriv('aes-256-cbc', key, iv)` for an input, `update` and `final`
  concatenated; `none` when one of the calls throws. -/
  decipher : β → β → β → Option β

/-- What is assumed of Node where a statement says so: a buffer survives the conversion to hex
and back, a string survives the conversion to bytes and back, and deciphering with the key and
`iv` of a cipher gives back its input. -/
structure NodeCrypto.Sound {β : Type} (node : NodeCrypto β) : Prop where
  hex : ∀ b, node.fromHex (node.toHex b) = b
  text : ∀ t, node.toText (node.fromText t) = t
  aes : ∀ iv p c, node.cipher node.key iv p = some c → node.decipher node.key iv c = some p

/-- The object `{ iv, content }` passed to `decrypt`; a field read from a stored record may be
missing. -/
structure Hash where
  iv : Option String
  content : Option String
  deriving DecidableEq, Repr

/-- The function `encrypt` of `encryption.js`, `iv` being the value of `crypto.randomBytes(16)`;
`none` when it throws. -/
def encrypt {β : Type} (node : NodeCrypto β) (iv : β) (text : String) : Option Hash :=
  match node.cipher node.key iv (node.fromText text) with
  | none => none
  | some encrypted => some { iv := some (node.toHex iv), content := some (node.toHex encrypted) }

/-- The function `decrypt` of `encryption.js`; `none` when it throws, as `Buffer.from` does on a
missing field. -/
def decrypt {β : Type} (node : NodeCrypto β) (hash : Hash) : Option String :=
  match hash.iv, hash.content with
  | some iv, some content =>
    match node.decipher node.key (node.fromHex iv) (node.fromHex content) with
    | none => none
    | some decrypted => some (node.toText decrypted)
  | _, _ => none

/-- The body of a request to `POST /api/records`. -/
structure RecordBody where
  pet_id : String
  date : String
  diagnosis : String
  treatment : String
  notes : String
  deriving DecidableEq, Repr

/-- The document `POST /api/records` adds. -/
def encryptedRecord (env : Env) (body : RecordBody) (enc : Hash) : MedicalRecord :=
  { id := env.newId, pet_id := body.pet_id, date := body.date, diagnosis := body.diagnosis,
    treatment := body.treatment, notes := none, notes_encrypted := enc.content, iv := enc.iv,
    created_by := none }

/-- The route `POST /api/records` behind `authorizeRole(['staff', 'admin'])`.
Awaited calls: 0 `medical_records.add(...)`, 1 `recRef.update({ id })`. -/
def createRecord {β : Type} (env : Env) (node : NodeCrypto β) (iv : β) (user : Actor)
    (body : RecordBody) (s : Store) : Response × Store :=
  match authorizeRole ["staff", "admin"] user with
  | .respond r => (r, s)
  | .next =>
    match encrypt node iv body.notes with
    | none => (serverError, s)
    | some enc =>
      if env.rejects 0 then (serverError, s)
      else
        let s1 := addRecord s (encryptedRecord env body enc)
        if env.rejects 1 then (serverError, s1)
        else ({ status := 200, body := .message "Saved" }, s1)

/-- The expression `records.map(r => ({ ...r, notes: decrypt({ iv: r.iv, content:
r.notes_encrypted }) }))`; `none` when a call of `decrypt` throws. -/
def decryptRecords {β : Type} (node : NodeCrypto β) : List MedicalRecord → Option (List RecordView)
  | [] => some []
  | r :: rs =>
    match decrypt node { iv := r.iv, content := r.notes_encrypted } with
    | none => none
    | some notes =>
      match decryptRecords node rs with
      | none => none
      | some vs => some ({ record := r, notes := notes } :: vs)

/-- The route `GET /api/records` behind `authorizeRole(['staff', 'admin'])`.
Awaited calls: 0 `medical_records.get()`. -/
def getRecords {β : Type} (env : Env) (node : NodeCrypto β) (user : Actor) (s : Store) :
    Response :=
  match authorizeRole ["staff", "admin"] user with
  | .respond r => r
  | .next =>
    if env.rejects 0 then serverError
    else
      match decryptRecords node s.medical_records with
      | none => serverError
      | some l => { status := 200, body := .records l }

/-! ## Example data -/

/-- An environment in which every awaited call resolves. -/
def exEnv : Env :=
  { now := "2025-03-10T09:00:00.000Z", newId := "n1", rejects := fun _ => false,
    cipher := fun t => "iv:" ++ t, errMessage := fun _ => "unavailable",
    nowMs := 1741597200000, tzOffset := 0 }

/-- Staff member S1. -/
def exStaff1 : Actor := { id := "s1", email := "s1@vet.test", role := some "staff", name := "S1" }

/-- Staff member S2. -/
def exStaff2 : Actor := { id := "s2", email := "s2@vet.test", role := some "staff", name := "S2" }

/-- An administrator. -/
def exAdmin : Actor := { id := "adm", email := "adm@vet.test", role := some "admin", name := "A" }

/-- Client C. -/
def exClient : Actor := { id := "c1", email := "c1@vet.test", role := some "client", name := "C" }

/-- The appointment of the scenario of the specification, not yet claimed. -/
def exPending : Appointment :=
  { id := "a1", pet_id := "p1", owner_id := "c1", date := "2025-03-10", time := "09:00",
    reason := some "Vaccination", status := .Pending, assigned_to := none, created_by := none,
    created_at := none }

/-- The same appointment claimed by S1. -/
def exConfirmed : Appointment :=
  { exPending with status := .Confirmed, assigned_to := some "s1" }

/-- The same appointment marked Done by S1. -/
def exDone : Appointment :=
  { exPending with status := .Done, assigned_to := some "s1" }

/-- The pet of the scenario. -/
def exPet : Pet :=
  { id := "p1", owner_id := "c1", name := "Rex", type := "Dog", breed := "", age := "3",
    weight := "20" }

/-- A store holding one appointment. -/
def exStore (a : Appointment) : Store :=
  { Store.empty with appointments := [a], pets := [exPet] }

/-- A store holding two appointments. -/
def exStore2 (a b : Appointment) : Store :=
  { Store.empty with appointments := [a, b], pets := [exPet] }

/-- An appointment of another client, claimed by S2. -/
def exOther : Appointment :=
  { id := "a2", pet_id := "p2", owner_id := "c2", date := "2025-03-11", time := "10:00",
    reason := some "Checkup", status := .Confirmed, assigned_to := some "s2", created_by := none,
    created_at := none }

/-- A loaded dashboard of an actor showing one row, built from the document `a`, with the
details modal open on that row. -/
def exDashboard (user : Actor) (a : Appointment) : Dashboard :=
  { Dashboard.init (some user) with
    appointments := [mapAppt [exPet] [] a]
    loading := false
    selectedAppointment := some (mapAppt [exPet] [] a)
    isApptModalOpen := true }

/-- The environment of the request: the store generates the id `a1`. -/
def exEnvA : Env := { exEnv with newId := "a1" }

/-- The request of client C for the pet `p1`. -/
def exRequest : AppointmentRequest :=
  { pet_id := "p1", date := "2025-03-10", time := "09:00", reason := some "Vaccination" }

/-- Scenario, state 0: a store with the pet of client C, no appointment, no dashboard. -/
def exSys0 : System :=
  { store := { Store.empty with pets := [exPet] }, dashboards := [] }

/-- Scenario, state 1: client C has requested the appointment. -/
def exSys1 : System :=
  { exSys0 with store := (createAppointment exEnvA exClient exRequest exSys0.store).2 }

/-- The dashboard a staff member sees after loading it in state 1 and clicking the row. -/
def exDashOpen (user : Actor) : Dashboard :=
  openApptDetails (fetchData exEnv (Dashboard.init (some user)) exSys1.store)
    (mapAppt exSys1.store.pets exSys1.store.users exPending)

/-- Scenario, state 2: the staff member has the details of the appointment open. -/
def exSys2 (user : Actor) : System :=
  { exSys1 with dashboards := [] ++ exDashOpen user :: [] }

/-- Scenario, state 3: the staff member has clicked `Approve & Assign to Me`. -/
def exSys3 (user : Actor) : System :=
  { store := (handleAssignToMe exEnv (exDashOpen user) (exSys2 user).store).2
    dashboards := [] ++ (handleAssignToMe exEnv (exDashOpen user) (exSys2 user).store).1 :: [] }

/-- Scenario, state 4: the staff member has clicked `Mark as Done & Save Record`. -/
def exSys4 (user : Actor) : System :=
  { store := (handleMarkAsDone exEnv
        (handleAssignToMe exEnv (exDashOpen user) (exSys2 user).store).1 (exSys3 user).store).2
    dashboards := [] ++ (handleMarkAsDone exEnv
        (handleAssignToMe exEnv (exDashOpen user) (exSys2 user).store).1
        (exSys3 user).store).1 :: [] }

/-- Scenario B, state 4: after S2 claimed the appointment from the dashboard, the administrator
claims it through the route. -/
def exSysB4 : System :=
  { exSys3 exStaff2 with
    store := (assignAppointment exEnv exAdmin "a1" (exSys3 exStaff2).store).2 }

/-- The dashboard of S2 in scenario B: it still shows the appointment as `Confirmed`. -/
def exDashB : Dashboard :=
  (handleAssignToMe exEnv (exDashOpen exStaff2) (exSys2 exStaff2).store).1

/-- The appointment as stored in scenario B, state 4: assigned to the administrator. -/
def exOverridden : Appointment :=
  { exPending with status := .Confirmed, assigned_to := some "adm" }

/-- An appointment whose `assigned_to` holds the empty string. -/
def exBlank : Appointment :=
  { id := "a3", pet_id := "p1", owner_id := "c1", date := "2025-03-12", time := "11:00",
    reason := some "Checkup", status := .Confirmed, assigned_to := some "", created_by := none,
    created_at := none }

/-- A pet of another client. -/
def exPet2 : Pet :=
  { id := "p2", owner_id := "c2", name := "Tom", type := "Cat", breed := "", age := "5",
    weight := "4" }

/-- A medical record for the pet with the given id. -/
def exRecord (id pet_id : String) : MedicalRecord :=
  { id := id, pet_id := pet_id, date := "2025-03-10", diagnosis := "Routine Visit",
    treatment := "Vaccination", notes := some "iv:ct", notes_encrypted := none, iv := none,
    created_by := some "s1" }

/-- A store with the pets of two clients and three records: one for the pet of client C, one for
the pet of the other client, one for a pet that does not exist. -/
def exStoreRecords : Store :=
  { Store.empty with
    pets := [exPet, exPet2]
    medical_records := [exRecord "r1" "p1", exRecord "r2" "p2", exRecord "r3" "zz"] }

/-- A loaded dashboard of S1 with the booking modal open on the given form; the pets of both
clients are in `allPets`. -/
def exDashForm (form : NewApptData) : Dashboard :=
  { Dashboard.init (some exStaff1) with
    allPets := [exPet, exPet2]
    loading := false
    isNewApptModalOpen := true
    newApptData := form }

/-- A booking form for client C and their pet on the given date. -/
def exForm (date : String) : NewApptData :=
  { clientId := "c1", petId := "p1", date := date, time := "15:00", reason := "Checkup" }

/-- A clock five hours behind UTC (`getTimezoneOffset()` = 300) at noon local time on
2025-03-10. -/
def exEnvNewYork : Env :=
  { exEnv with now := "2025-03-10T17:00:00.000Z", nowMs := 1741626000000, tzOffset := 300 }

/-- The appointment of the scenario, claimed by S1, with an empty reason. -/
def exEmptyReason : Appointment :=
  { exConfirmed with reason := some "" }

/-- The appointment of the scenario, claimed by S1, without a reason. -/
def exMissingReason : Appointment :=
  { exConfirmed with reason := none }

/-- An environment in which only the write of the audit entry of `handleMarkAsDone` (awaited
call 3) rejects. -/
def exEnvAuditDown : Env :=
  { exEnv with rejects := fun n => decide (n = 3) }

/-- An environment in which only awaited call 2 rejects: the write of the audit entry in a
claim, the update of the appointment in `handleMarkAsDone`. -/
def exEnvCall2Down : Env :=
  { exEnv with rejects := fun n => decide (n = 2) }

/-- Library functions for the examples: the hash of `p` is `h:p`, a one-time code is valid when it
equals the secret, an address is accepted when it has an `@`, the sanitizers change nothing. -/
def exLib : Libs :=
  { hash := fun p => "h:" ++ p, compare := fun p h => h == "h:" ++ p,
    verifyOtp := fun t s => s == some t, sign := fun a => "jwt:" ++ a.id,
    isEmail := fun e => e.data.contains '@', normalizeEmail := fun e => e,
    trimEscape := fun n => n }

/-- The stored account of client C, with password `secret123`. -/
def exUserC : User :=
  { id := "c1", name := "C", email := "c1@vet.test", phone := "", role := some "client",
    password := "h:secret123", two_factor_enabled := false, two_factor_secret := none }

/-- A store holding the account of client C only. -/
def exUsers : Store :=
  { Store.empty with users := [exUserC] }

/-- A request to create the account of D, carrying the role `r`. -/
def exBody (r : Option String) : UserBody :=
  { name := "D", email := "d@vet.test", phone := none, password := "password1", role := r }

/-- A request to create an account with the address of client C. -/
def exBodyTaken : UserBody :=
  { name := "E", email := "c1@vet.test", phone := none, password := "password1",
    role := some "client" }

/-- Stand-ins for Node's functions in the examples: buffers are strings, the conversions change
nothing, and the cipher and the decipher both reverse their input. -/
def exNode : NodeCrypto String :=
  { key := "k", toHex := fun b => b, fromHex := fun h => h, fromText := fun t => t,
    toText := fun b => b, cipher := fun _ _ p => some (String.mk p.data.reverse),
    decipher := fun _ _ c => some (String.mk c.data.reverse) }

/-- A request to store a record with the notes `limping`. -/
def exRecordBody : RecordBody :=
  { pet_id := "p1", date := "2025-03-10", diagnosis := "Sprain", treatment := "Rest",
    notes := "limping" }

/-! # Theorems -/

/-! ## The claim route -/

theorem assign_authorized (user : Actor)
    (hrole : user.role = some "staff" ∨ user.role = some "admin") :
    authorizeRole ["staff", "admin"] user = .next := by
  rcases hrole with h | h <;> simp [authorizeRole, h]

theorem authorizeRole_cases (roles : List String) (user : Actor) :
    authorizeRole roles user = .next ∨
      authorizeRole roles user =
        .respond { status := 403, body := .message "Access Denied: Insufficient Permissions" } := by
  unfold authorizeRole
  split_ifs <;> simp

/-- The four ways the claim route ends: a refusal, a failure before the update, a failure of the
audit write after the update, a success. -/
theorem assignAppointment_cases (env : Env) (user : Actor) (id : String) (s : Store) :
    ((assignAppointment env user id s).1.refused ∧ (assignAppointment env user id s).2 = s) ∨
    ((assignAppointment env user id s).1 = serverError ∧ (assignAppointment env user id s).2 = s) ∨
    ((assignAppointment env user id s).1 = serverError ∧ env.rejects 2 = true ∧
      (assignAppointment env user id s).2 = updateAppointment s id (claimFields user)) ∨
    ((assignAppointment env user id s).1.status = 200 ∧
      (∃ a, getAppointment s id = some a ∧ assignedToOther user a = false) ∧
      (assignAppointment env user id s).2 =
        addAudit (updateAppointment s id (claimFields user)) (assignAudit env user id)) := by
  unfold assignAppointment
  rcases authorizeRole_cases ["staff", "admin"] user with h | h
  · simp only [h]
    by_cases h0 : env.rejects 0 = true
    · simp [h0]
    · simp only [h0]
      cases hg : getAppointment s id with
      | none => simp [Response.refused]
      | some a =>
        by_cases hgd : assignedToOther user a = true
        · simp [hgd, Response.refused]
        · by_cases h1 : env.rejects 1 = true
          · simp [hgd, h1]
          · by_cases h2 : env.rejects 2 = true
            · simp [hgd, h1, h2]
            · simp [hgd, h1, h2]
  · simp [h, Response.refused]

theorem serverError_not_refused : ¬ serverError.refused := by
  simp [serverError, Response.refused]

theorem find_update (l : List Appointment) (id : String) (f : Appointment → Appointment)
    (hf : ∀ a, (f a).id = a.id) :
    (l.map (fun a => if a.id = id then f a else a)).find? (fun a => decide (a.id = id)) =
      (l.find? (fun a => decide (a.id = id))).map f := by
  induction l with
  | nil => rfl
  | cons b t ih =>
    by_cases hb : b.id = id
    · simp [List.find?, hb, hf]
    · simp [List.find?, hb, ih]

theorem getAppointment_update (s : Store) (id : String) (f : Appointment → Appointment)
    (hf : ∀ a, (f a).id = a.id) :
    getAppointment (updateAppointment s id f) id = (getAppointment s id).map f := by
  unfold getAppointment updateAppointment
  exact find_update s.appointments id f hf

theorem guard_ui_eq (user : Actor) (a : Appointment) :
    assignedToOtherUI user a = assignedToOther user a := by
  unfold assignedToOtherUI assignedToOther
  cases truthy a.assigned_to <;> cases decide (user.role = some "staff") <;>
    cases decide (a.assigned_to ≠ some user.id) <;> rfl

/-- The ways the claim handler of the dashboard ends. -/
theorem handleAssignToMe_cases (env : Env) (d : Dashboard) (s : Store) (sel : ApptUI)
    (user : Actor) (hsel : d.selectedAppointment = some sel) (huser : d.user = some user) :
    (env.rejects 0 = true ∧ handleAssignToMe env d s =
      (d.alert (errorText (env.errMessage 0) "Failed to assign appointment"), s)) ∨
    (env.rejects 0 = false ∧ getAppointment s sel.appt.id = none ∧
      handleAssignToMe env d s = (d.alert "Appointment not found.", s)) ∨
    (env.rejects 0 = false ∧ (∃ a, getAppointment s sel.appt.id = some a ∧
        assignedToOther user a = true) ∧
      handleAssignToMe env d s = (d.alert "Already assigned to another staff member.", s)) ∨
    (env.rejects 0 = false ∧ (∃ a, getAppointment s sel.appt.id = some a ∧
        assignedToOther user a = false) ∧ env.rejects 1 = true ∧
      handleAssignToMe env d s =
        (d.alert (errorText (env.errMessage 1) "Failed to assign appointment"), s)) ∨
    (env.rejects 0 = false ∧ (∃ a, getAppointment s sel.appt.id = some a ∧
        assignedToOther user a = false) ∧ env.rejects 1 = false ∧ env.rejects 2 = true ∧
      handleAssignToMe env d s =
        ((assignedDashboard user sel d).alert
            (errorText (env.errMessage 2) "Failed to assign appointment"),
          updateAppointment s sel.appt.id (claimFields user))) ∨
    (env.rejects 0 = false ∧ (∃ a, getAppointment s sel.appt.id = some a ∧
        assignedToOther user a = false) ∧ env.rejects 1 = false ∧ env.rejects 2 = false ∧
      handleAssignToMe env d s =
        ((assignedDashboard user sel d).alert "Appointment Approved & Assigned to you.",
          addAudit (updateAppointment s sel.appt.id (claimFields user))
            (assignAudit env user sel.appt.id))) := by
  unfold handleAssignToMe
  simp only [hsel, huser, guard_ui_eq]
  by_cases h0 : env.rejects 0 = true
  · simp [h0]
  · simp only [h0]
    cases hg : getAppointment s sel.appt.id with
    | none => simp
    | some a =>
      by_cases hgd : assignedToOther user a = true
      · simp [hgd]
      · by_cases h1 : env.rejects 1 = true
        · simp [hgd, h1]
        · by_cases h2 : env.rejects 2 = true
          · simp [hgd, h1, h2]
          · simp [hgd, h1, h2]

/-- C3: for an existing appointment and an actor with role staff or admin, the claim route
refuses (403 or 404) if and only if the actor's role is exactly `staff` and `assigned_to` is set
to an identity (a non-empty string) different from the actor's id; an admin is never refused. -/
theorem C3_claim_refused_iff_staff_and_assigned_to_other (env : Env) (s : Store) (user : Actor)
    (id : String) (a : Appointment)
    (hrole : user.role = some "staff" ∨ user.role = some "admin")
    (hget : getAppointment s id = some a)
    (hread : env.rejects 0 = false) :
    ((assignAppointment env user id s).1.refused ↔
        (user.role = some "staff" ∧ truthy a.assigned_to = true ∧
          a.assigned_to ≠ some user.id)) ∧
      (user.role = some "admin" → ¬ (assignAppointment env user id s).1.refused) := by
  have hauth := assign_authorized user hrole
  have key : (assignAppointment env user id s).1.refused ↔ assignedToOther user a = true := by
    unfold assignAppointment
    simp only [hauth, hread, hget]
    by_cases hg : assignedToOther user a = true
    · simp [hg, Response.refused]
    · by_cases h1 : env.rejects 1 = true
      · simp [hg, h1, Response.refused, serverError]
      · by_cases h2 : env.rejects 2 = true
        · simp [hg, h1, h2, Response.refused, serverError]
        · simp [hg, h1, h2, Response.refused]
  refine ⟨?_, ?_⟩
  · rw [key]
    simp [assignedToOther, and_assoc]
  · intro hadm
    rw [key]
    simp [assignedToOther, hadm]

/-- C3 (witness): S2 is refused the appointment S1 holds, the administrator is not. -/
theorem C3_witness_second_staff_refused :
    (assignAppointment exEnv exStaff2 "a1" (exStore exConfirmed)).1.refused ∧
      ¬ (assignAppointment exEnv exAdmin "a1" (exStore exConfirmed)).1.refused :=
  ⟨(C3_claim_refused_iff_staff_and_assigned_to_other exEnv (exStore exConfirmed) exStaff2 "a1"
      exConfirmed (Or.inl rfl) rfl rfl).1.2 ⟨rfl, rfl, by decide⟩,
    (C3_claim_refused_iff_staff_and_assigned_to_other exEnv (exStore exConfirmed) exAdmin "a1"
      exConfirmed (Or.inr rfl) rfl rfl).2 rfl⟩

/-- C4: when no store call rejects and a claim is not refused, the claimed appointment is stored
with status `Confirmed` and `assigned_to` equal to the actor's id, its other fields and every other
appointment are as before, and the other collections are untouched apart from the appended audit
entry; this holds for the route and for the handler of the dashboard. -/
theorem C4_claim_sets_confirmed_and_assignee (env : Env) (s : Store) (user : Actor) (id : String)
    (hres : env.resolves) :
    (¬ (assignAppointment env user id s).1.refused →
      (∃ a, getAppointment s id = some a ∧
        getAppointment (assignAppointment env user id s).2 id =
          some { a with status := .Confirmed, assigned_to := some user.id }) ∧
      (assignAppointment env user id s).2.appointments = s.appointments.map (fun b =>
        if b.id = id then { b with status := .Confirmed, assigned_to := some user.id } else b) ∧
      (assignAppointment env user id s).2.pets = s.pets ∧
      (assignAppointment env user id s).2.users = s.users ∧
      (assignAppointment env user id s).2.medical_records = s.medical_records) ∧
    (∀ (d : Dashboard) (sel : ApptUI), d.selectedAppointment = some sel → d.user = some user →
      sel.appt.id = id → ¬ claimRefusedUI d (handleAssignToMe env d s).1 →
      (∃ a, getAppointment s id = some a ∧
        getAppointment (handleAssignToMe env d s).2 id =
          some { a with status := .Confirmed, assigned_to := some user.id }) ∧
      (handleAssignToMe env d s).2.appointments = s.appointments.map (fun b =>
        if b.id = id then { b with status := .Confirmed, assigned_to := some user.id } else b) ∧
      (handleAssignToMe env d s).2.pets = s.pets ∧
      (handleAssignToMe env d s).2.users = s.users ∧
      (handleAssignToMe env d s).2.medical_records = s.medical_records) := by
  have effect : ∀ a, getAppointment s id = some a →
      (∃ a, getAppointment s id = some a ∧
        getAppointment (addAudit (updateAppointment s id (claimFields user))
            (assignAudit env user id)) id =
          some { a with status := .Confirmed, assigned_to := some user.id }) ∧
      (addAudit (updateAppointment s id (claimFields user))
          (assignAudit env user id)).appointments = s.appointments.map (fun b =>
        if b.id = id then { b with status := .Confirmed, assigned_to := some user.id } else b) ∧
      (addAudit (updateAppointment s id (claimFields user)) (assignAudit env user id)).pets
        = s.pets ∧
      (addAudit (updateAppointment s id (claimFields user)) (assignAudit env user id)).users
        = s.users ∧
      (addAudit (updateAppointment s id (claimFields user))
        (assignAudit env user id)).medical_records = s.medical_records := by
    intro a ha
    refine ⟨⟨a, ha, ?_⟩, rfl, rfl, rfl, rfl⟩
    have h := getAppointment_update s id (claimFields user) (fun _ => rfl)
    rw [ha] at h
    exact h
  refine ⟨?_, ?_⟩
  · intro hnot
    rcases assignAppointment_cases env user id s with h | h | h | h
    · exact absurd h.1 hnot
    · exfalso
      revert h
      unfold assignAppointment
      rcases authorizeRole_cases ["staff", "admin"] user with ha | ha
      · simp only [ha, hres 0, hres 1, hres 2]
        cases getAppointment s id with
        | none => simp [serverError]
        | some a => by_cases hg : assignedToOther user a = true <;> simp [hg, serverError]
      · simp [ha, serverError]
    · rw [hres 2] at h
      exact absurd h.2.1 (by simp)
    · obtain ⟨_, ⟨a, ha, _⟩, h2⟩ := h
      rw [h2]
      exact effect a ha
  · intro d sel hsel huser hid hnot
    subst hid
    rcases handleAssignToMe_cases env d s sel user hsel huser with h | h | h | h | h | h
    · rw [hres 0] at h
      exact absurd h.1 (by simp)
    · exact absurd (Or.inl (by rw [h.2.2]; rfl)) hnot
    · exact absurd (Or.inr (by rw [h.2.2]; rfl)) hnot
    · rw [hres 1] at h
      exact absurd h.2.2.1 (by simp)
    · rw [hres 2] at h
      exact absurd h.2.2.2.1 (by simp)
    · obtain ⟨_, ⟨a, ha, _⟩, _, _, h2⟩ := h
      rw [h2]
      exact effect a ha

/-- C4 (witness): S1 claims the pending appointment of the scenario; it is stored as
`Confirmed` and assigned to S1, its other fields unchanged. -/
theorem C4_witness_first_claim :
    (assignAppointment exEnv exStaff1 "a1" (exStore exPending)).2.appointments = [exConfirmed] :=
  ((C4_claim_sets_confirmed_and_assignee exEnv (exStore exPending) exStaff1 "a1"
    (fun _ => rfl)).1 (by decide)).2.1

/-- C5: whenever the claim route refuses, with 404 because the appointment does not exist or
with 403 because it is assigned to another staff member (or the role is not allowed), the store
is exactly as before: no appointment is modified and no audit entry is appended. -/
theorem C5_refused_claim_writes_nothing (env : Env) (user : Actor) (id : String) (s : Store)
    (href : (assignAppointment env user id s).1.refused) :
    (assignAppointment env user id s).2 = s ∧
      (assignAppointment env user id s).2.appointments = s.appointments ∧
      (assignAppointment env user id s).2.audit_logs = s.audit_logs := by
  have h : (assignAppointment env user id s).2 = s := by
    rcases assignAppointment_cases env user id s with h | h | h | h
    · exact h.2
    · exact h.2
    · rw [h.1] at href
      exact absurd href serverError_not_refused
    · rcases href with h3 | h4
      · rw [h.1] at h3
        exact absurd h3 (by decide)
      · rw [h.1] at h4
        exact absurd h4 (by decide)
  exact ⟨h, by rw [h], by rw [h]⟩

/-- C5 (witness): S2 is answered 403 on the appointment S1 holds and 404 on an unknown id; the
store is unchanged both times. -/
theorem C5_witness_conflict_and_missing :
    (assignAppointment exEnv exStaff2 "a1" (exStore exConfirmed)).1.status = 403 ∧
      (assignAppointment exEnv exStaff2 "a1" (exStore exConfirmed)).2 = exStore exConfirmed ∧
      (assignAppointment exEnv exStaff2 "zz" (exStore exConfirmed)).1.status = 404 ∧
      (assignAppointment exEnv exStaff2 "zz" (exStore exConfirmed)).2 = exStore exConfirmed :=
  ⟨rfl,
    (C5_refused_claim_writes_nothing exEnv exStaff2 "a1" (exStore exConfirmed)
      (Or.inl rfl)).1,
    rfl,
    (C5_refused_claim_writes_nothing exEnv exStaff2 "zz" (exStore exConfirmed)
      (Or.inr rfl)).1⟩

/-! ## The access filter -/

theorem getAppointments_ok (env : Env) (user : Actor) (s : Store)
    (h0 : env.rejects 0 = false) (h1 : env.rejects 1 = false) (h2 : env.rejects 2 = false) :
    getAppointments env user s =
      { status := 200,
        body := .appointments (filterAppointments user s.appointments s.pets s.users) } := by
  simp [getAppointments, h0, h1, h2]

theorem getAppointments_body (env : Env) (user : Actor) (s : Store) (l : List ApptView)
    (h : (getAppointments env user s).body = .appointments l) :
    l = filterAppointments user s.appointments s.pets s.users := by
  unfold getAppointments at h
  split_ifs at h <;> simp_all [serverError]

theorem map_appt_enrichForClient (pets : List Pet) (users : List User) (l : List Appointment) :
    (l.map (enrichForClient pets users)).map (fun v => v.appt) = l := by
  induction l with
  | nil => rfl
  | cons a t ih => simpa [enrichForClient] using ih

theorem map_appt_enrichForStaff (pets : List Pet) (users : List User) (l : List Appointment) :
    (l.map (enrichForStaff pets users)).map (fun v => v.appt) = l := by
  induction l with
  | nil => rfl
  | cons a t ih => simpa [enrichForStaff] using ih

/-- C6: for a client actor, when the three reads resolve the listing answers 200 with a list,
and the stored appointments carried by that list are exactly the stored appointments whose
`owner_id` is the actor's id, in store order: none owned by someone else, none of the actor's own
left out; the query of the client portal selects the same documents. -/
theorem C6_client_listing_is_exactly_own_appointments (env : Env) (user : Actor) (s : Store)
    (hrole : user.role = some "client") :
    (env.rejects 0 = false → env.rejects 1 = false → env.rejects 2 = false →
      ∃ l, getAppointments env user s = { status := 200, body := .appointments l }) ∧
    (∀ l, (getAppointments env user s).body = .appointments l →
      l.map (fun v => v.appt) = s.appointments.filter (fun a => decide (a.owner_id = user.id)) ∧
      (∀ a, a ∈ l.map (fun v => v.appt) ↔ a ∈ s.appointments ∧ a.owner_id = user.id)) ∧
    (∀ a, a ∈ clientAppointmentQuery user s ↔ a ∈ s.appointments ∧ a.owner_id = user.id) := by
  refine ⟨fun h0 h1 h2 => ⟨_, getAppointments_ok env user s h0 h1 h2⟩, ?_, ?_⟩
  · intro l hl
    have hm : l.map (fun v => v.appt) =
        s.appointments.filter (fun a => decide (a.owner_id = user.id)) := by
      rw [getAppointments_body env user s l hl]
      simp only [filterAppointments, hrole, if_true]
      exact map_appt_enrichForClient _ _ _
    refine ⟨hm, fun a => ?_⟩
    rw [hm]
    simp [List.mem_filter]
  · intro a
    simp [clientAppointmentQuery, List.mem_filter]

/-- C6 (witness): client C gets their own appointment and not the one of another client. -/
theorem C6_witness_other_owner_hidden :
    exPending ∈ clientAppointmentQuery exClient (exStore2 exPending exOther) ∧
      exOther ∉ clientAppointmentQuery exClient (exStore2 exPending exOther) :=
  ⟨((C6_client_listing_is_exactly_own_appointments exEnv exClient
      (exStore2 exPending exOther) rfl).2.2 exPending).2 ⟨by simp [exStore2], rfl⟩,
    fun h => absurd (((C6_client_listing_is_exactly_own_appointments exEnv exClient
      (exStore2 exPending exOther) rfl).2.2 exOther).1 h).2 (by decide)⟩

theorem visibleToStaff_iff (user : Actor) (a : Appointment) :
    visibleToStaff user a = true ↔
      a.assigned_to = none ∨ a.assigned_to = some "" ∨ a.assigned_to = some user.id := by
  unfold visibleToStaff
  cases h : a.assigned_to with
  | none => simp [truthy]
  | some x =>
    by_cases hx : x = ""
    · simp [truthy, hx]
    · simp [truthy, hx]

theorem fetchData_appointments (env : Env) (d : Dashboard) (s : Store) (user : Actor)
    (huser : d.user = some user) (h0 : env.rejects 0 = false) :
    (fetchData env d s).appointments.map (fun v => v.appt) =
      dashboardFilter user s.appointments := by
  simp only [fetchData, huser, h0]
  generalize dashboardFilter user s.appointments = l
  induction l with
  | nil => rfl
  | cons a t ih => simpa [mapAppt] using ih

/-- C7 (counterexample): the listing of staff member S1 returns an appointment whose
`assigned_to` is the empty string, which is neither null nor the id of S1. -/
theorem C7_counterexample_empty_string_assignee :
    exBlank ∈ (filterAppointments exStaff1 (exStore exBlank).appointments
        (exStore exBlank).pets (exStore exBlank).users).map (fun v => v.appt) ∧
      (getAppointments exEnv exStaff1 (exStore exBlank)).body =
        .appointments (filterAppointments exStaff1 (exStore exBlank).appointments
          (exStore exBlank).pets (exStore exBlank).users) ∧
      ¬ (exBlank.assigned_to = none ∨ exBlank.assigned_to = some exStaff1.id) := by
  refine ⟨?_, rfl, by decide⟩
  decide

/-- C7 (amended): for a staff actor the listing returns exactly the stored appointments whose
`assigned_to` is falsy (null or the empty string) or equals the actor's id, in store order; it
never returns an appointment whose non-empty `assigned_to` differs from the actor's id.  The
dashboard's `fetchData` keeps the same appointments when the actor's id is not empty. -/
theorem C7_staff_listing_is_unassigned_or_own (env : Env) (user : Actor) (s : Store)
    (hrole : user.role = some "staff") :
    (env.rejects 0 = false → env.rejects 1 = false → env.rejects 2 = false →
      ∃ l, getAppointments env user s = { status := 200, body := .appointments l }) ∧
    (∀ l, (getAppointments env user s).body = .appointments l →
      l.map (fun v => v.appt) = s.appointments.filter (visibleToStaff user) ∧
      (∀ a, a ∈ l.map (fun v => v.appt) ↔ a ∈ s.appointments ∧
        (a.assigned_to = none ∨ a.assigned_to = some "" ∨ a.assigned_to = some user.id)) ∧
      (∀ a, a ∈ l.map (fun v => v.appt) → ∀ x, a.assigned_to = some x → x ≠ "" →
        x = user.id)) ∧
    (∀ d : Dashboard, d.user = some user → user.id ≠ "" → env.rejects 0 = false →
      (fetchData env d s).appointments.map (fun v => v.appt) =
        s.appointments.filter (visibleToStaff user)) := by
  refine ⟨fun h0 h1 h2 => ⟨_, getAppointments_ok env user s h0 h1 h2⟩, ?_, ?_⟩
  · intro l hl
    have hm : l.map (fun v => v.appt) = s.appointments.filter (visibleToStaff user) := by
      rw [getAppointments_body env user s l hl]
      have hc : user.role ≠ some "client" := by rw [hrole]; decide
      simp only [filterAppointments, hrole, hc, if_true, if_false]
      exact map_appt_enrichForStaff _ _ _
    have hiff : ∀ a, a ∈ l.map (fun v => v.appt) ↔ a ∈ s.appointments ∧
        (a.assigned_to = none ∨ a.assigned_to = some "" ∨ a.assigned_to = some user.id) := by
      intro a
      rw [hm, List.mem_filter, visibleToStaff_iff]
    refine ⟨hm, hiff, ?_⟩
    intro a ha x hx hne
    rcases ((hiff a).1 ha).2 with h | h | h
    · rw [hx] at h
      exact absurd h (by simp)
    · rw [hx] at h
      exact absurd (Option.some.inj h) hne
    · rw [hx] at h
      exact Option.some.inj h
  · intro d huser hid h0
    rw [fetchData_appointments env d s user huser h0]
    have hc : user.role = some "staff" ∧ user.id ≠ "" := ⟨hrole, hid⟩
    unfold dashboardFilter
    rw [if_pos hc]
    rfl


/-- C7 (witness): S1 gets the unassigned appointment and not the one assigned to S2. -/
theorem C7_witness_other_staff_hidden :
    exPending ∈ (filterAppointments exStaff1 (exStore2 exPending exOther).appointments
        (exStore2 exPending exOther).pets (exStore2 exPending exOther).users).map
          (fun v => v.appt) ∧
      exOther ∉ (filterAppointments exStaff1 (exStore2 exPending exOther).appointments
        (exStore2 exPending exOther).pets (exStore2 exPending exOther).users).map
          (fun v => v.appt) :=
  ⟨(((C7_staff_listing_is_unassigned_or_own exEnv exStaff1 (exStore2 exPending exOther)
      rfl).2.1 _ rfl).2.1 exPending).2 ⟨by simp [exStore2], Or.inl rfl⟩,
    fun h => absurd ((((C7_staff_listing_is_unassigned_or_own exEnv exStaff1
      (exStore2 exPending exOther) rfl).2.1 _ rfl).2.1 exOther).1 h).2 (by decide)⟩

/-- C8: for an admin actor, when the three reads resolve the listing answers 200 with a list;
that list has one record per stored appointment, in store order, none filtered out, and each
record carries its stored appointment with every field as stored. -/
theorem C8_admin_listing_is_whole_collection (env : Env) (user : Actor) (s : Store)
    (hrole : user.role = some "admin") :
    (env.rejects 0 = false → env.rejects 1 = false → env.rejects 2 = false →
      ∃ l, getAppointments env user s = { status := 200, body := .appointments l }) ∧
    (∀ l, (getAppointments env user s).body = .appointments l →
      l.map (fun v => v.appt) = s.appointments ∧ l.length = s.appointments.length ∧
      l = s.appointments.map (enrichForStaff s.pets s.users)) := by
  refine ⟨fun h0 h1 h2 => ⟨_, getAppointments_ok env user s h0 h1 h2⟩, ?_⟩
  intro l hl
  have hc : user.role ≠ some "client" := by rw [hrole]; decide
  have hs : user.role ≠ some "staff" := by rw [hrole]; decide
  have hl2 : l = s.appointments.map (enrichForStaff s.pets s.users) := by
    rw [getAppointments_body env user s l hl]
    simp only [filterAppointments, hc, hs, if_false]
  refine ⟨?_, ?_, hl2⟩
  · rw [hl2]
    exact map_appt_enrichForStaff _ _ _
  · rw [hl2, List.length_map]

/-- C8 (witness): the administrator gets both stored appointments, as stored. -/
theorem C8_witness_admin_sees_both :
    (filterAppointments exAdmin (exStore2 exPending exOther).appointments
        (exStore2 exPending exOther).pets (exStore2 exPending exOther).users).map
          (fun v => v.appt) = [exPending, exOther] :=
  ((C8_admin_listing_is_whole_collection exEnv exAdmin (exStore2 exPending exOther) rfl).2
    _ rfl).1

/-! ## The other handlers -/

/-- The ways `handleMarkAsDone` ends when a row is selected and an actor is signed in. -/
theorem handleMarkAsDone_cases (env : Env) (d : Dashboard) (s : Store) (sel : ApptUI)
    (user : Actor) (hsel : d.selectedAppointment = some sel) (huser : d.user = some user) :
    (env.rejects 0 = true ∧ handleMarkAsDone env d s =
      (d.alert ("Failed: " ++ errorText (env.errMessage 0) "Unable to save record"), s)) ∨
    (env.rejects 0 = false ∧ env.rejects 1 = true ∧ handleMarkAsDone env d s =
      (d.alert ("Failed: " ++ errorText (env.errMessage 1) "Unable to save record"), s)) ∨
    (env.rejects 0 = false ∧ env.rejects 1 = false ∧
      (env.rejects 2 = true ∨ getAppointment s sel.appt.id = none) ∧
      handleMarkAsDone env d s =
        (d.alert ("Failed: " ++ errorText (env.errMessage 2) "Unable to save record"),
          addRecord s (recordPayload env user sel))) ∨
    (env.rejects 0 = false ∧ env.rejects 1 = false ∧ env.rejects 2 = false ∧
      (∃ a, getAppointment s sel.appt.id = some a) ∧
      handleMarkAsDone env d s =
        ((doneDashboard (recordPayload env user sel) sel d).alert markDoneSuccess,
          if env.rejects 3 then
            updateAppointment (addRecord s (recordPayload env user sel)) sel.appt.id doneFields
          else
            addAudit
              (updateAppointment (addRecord s (recordPayload env user sel)) sel.appt.id doneFields)
              (recordAudit env user sel.appt.id))) := by
  unfold handleMarkAsDone
  simp only [hsel, huser]
  have hg : getAppointment (addRecord s (recordPayload env user sel)) sel.appt.id =
      getAppointment s sel.appt.id := rfl
  rw [hg]
  by_cases h0 : env.rejects 0 = true
  · simp [h0]
  · by_cases h1 : env.rejects 1 = true
    · simp [h0, h1]
    · by_cases h2 : env.rejects 2 = true
      · simp [h0, h1, h2]
      · cases hget : getAppointment s sel.appt.id with
        | none => simp [h0, h1, h2]
        | some a => simp [h0, h1, h2]

/-- Without a selected row or without an actor `handleMarkAsDone` returns at once. -/
theorem handleMarkAsDone_idle (env : Env) (d : Dashboard) (s : Store)
    (h : d.selectedAppointment = none ∨ d.user = none) : handleMarkAsDone env d s = (d, s) := by
  unfold handleMarkAsDone
  rcases h with h | h
  · simp [h]
  · cases hs : d.selectedAppointment <;> simp [h]

/-- Without a selected row or without an actor `handleAssignToMe` returns at once. -/
theorem handleAssignToMe_idle (env : Env) (d : Dashboard) (s : Store)
    (h : d.selectedAppointment = none ∨ d.user = none) : handleAssignToMe env d s = (d, s) := by
  unfold handleAssignToMe
  rcases h with h | h
  · simp [h]
  · cases hs : d.selectedAppointment <;> simp [h]

/-- The ways `POST /api/appointments` leaves the store. -/
theorem createAppointment_store (env : Env) (user : Actor) (body : AppointmentRequest)
    (s : Store) :
    (createAppointment env user body s).2 = s ∨
      (createAppointment env user body s).2 =
        addAppointment s (requestedAppointment env user body) := by
  unfold createAppointment
  by_cases h0 : env.rejects 0 = true
  · simp [h0]
  · cases hp : s.pets.find? (fun p => decide (p.id = body.pet_id)) with
    | none => simp [h0]
    | some pet =>
      by_cases ho : pet.owner_id = user.id
      · by_cases h1 : env.rejects 1 = true
        · simp [h0, ho, h1]
        · by_cases h2 : env.rejects 2 = true
          · simp [h0, ho, h1, h2]
          · simp [h0, ho, h1, h2]
      · simp [h0, ho]

/-- The ways `handleBookAppointmentForClient` ends. -/
theorem handleBook_cases (env : Env) (d : Dashboard) (s : Store) :
    ((handleBookAppointmentForClient env d s).2 = s ∧
      (handleBookAppointmentForClient env d s).1.appointments = d.appointments ∧
      (handleBookAppointmentForClient env d s).1.selectedAppointment = d.selectedAppointment) ∨
    (∃ user, d.user = some user ∧
      (handleBookAppointmentForClient env d s).2 =
        addAppointment s (bookedAppointment env user d.newApptData) ∧
      (handleBookAppointmentForClient env d s).1.appointments = d.appointments ∧
      (handleBookAppointmentForClient env d s).1.selectedAppointment = d.selectedAppointment) ∨
    (∃ user, d.user = some user ∧
      handleBookAppointmentForClient env d s =
        ((bookedDashboard env user d).alert "Appointment booked and confirmed successfully!",
          addAudit (addAppointment s (bookedAppointment env user d.newApptData))
            (bookAudit env user))) := by
  unfold handleBookAppointmentForClient
  by_cases hp : isPastDate env d.newApptData.date = true
  · simp [hp]
  · by_cases hn : (d.allPets.filter
        (fun p => decide (p.owner_id = d.newApptData.clientId))).length = 0
    · simp only [hp, hn]
      simp
    · cases hu : d.user with
      | none => simp [hp, hn]
      | some user =>
        by_cases h0 : env.rejects 0 = true
        · simp [hp, hn, h0]
        · by_cases h1 : env.rejects 1 = true
          · simp [hp, hn, h0, h1]
          · simp [hp, hn, h0, h1]

/-! ## Status order -/

theorem forall₂_update (R : Appointment → Appointment → Prop) (l : List Appointment)
    (id : String) (f : Appointment → Appointment) (hrefl : ∀ a, R a a) (hf : ∀ a, R a (f a)) :
    List.Forall₂ R l (l.map (fun a => if a.id = id then f a else a)) := by
  induction l with
  | nil => exact List.Forall₂.nil
  | cons b t ih =>
    refine List.Forall₂.cons ?_ ih
    by_cases hb : b.id = id
    · simp only [hb, if_true]
      exact hf b
    · simp only [hb, if_false]
      exact hrefl b

theorem forall₂_refl (R : Appointment → Appointment → Prop) (l : List Appointment)
    (hrefl : ∀ a, R a a) : List.Forall₂ R l l := by
  induction l with
  | nil => exact List.Forall₂.nil
  | cons b t ih => exact List.Forall₂.cons (hrefl b) ih

/-- C2 (counterexample): S1 claims again the appointment S1 has marked Done; the route answers
200 and the stored status goes from `Done` back to `Confirmed`.  An admin whose dashboard still
shows the appointment as `Pending` does the same through `handleAssignToMe`. -/
theorem C2_counterexample_claim_reverts_done :
    (exStore exDone).appointments.map (fun a => a.status) = [Status.Done] ∧
      (assignAppointment exEnv exStaff1 "a1" (exStore exDone)).1.status = 200 ∧
      (assignAppointment exEnv exStaff1 "a1" (exStore exDone)).2.appointments.map
        (fun a => a.status) = [Status.Confirmed] ∧
      showsAssignButton (exDashboard exAdmin exPending) = true ∧
      (handleAssignToMe exEnv (exDashboard exAdmin exPending) (exStore exDone)).2.appointments.map
        (fun a => a.status) = [Status.Confirmed] ∧
      Status.Confirmed.rank < Status.Done.rank := by
  refine ⟨rfl, rfl, rfl, rfl, rfl, by decide⟩

/-- C2 (amended): a client request and a booking for a client only append to the collection;
`handleMarkAsDone` keeps every stored appointment's id and never lowers its status; a claim, by
the route or by `handleAssignToMe`, leaves each stored appointment as it is or stores it with
status `Confirmed` under the same id, so it never moves a status to `Pending` but does move a
`Done` appointment back to `Confirmed`. -/
theorem C2_status_lowered_only_by_claim_to_confirmed :
    (∀ (env : Env) (user : Actor) (body : AppointmentRequest) (s : Store),
      ∃ extra, (createAppointment env user body s).2.appointments = s.appointments ++ extra) ∧
    (∀ (env : Env) (d : Dashboard) (s : Store),
      ∃ extra, (handleBookAppointmentForClient env d s).2.appointments =
        s.appointments ++ extra) ∧
    (∀ (env : Env) (d : Dashboard) (s : Store),
      List.Forall₂ (fun a a1 => a1.id = a.id ∧ a.status.rank ≤ a1.status.rank)
        s.appointments (handleMarkAsDone env d s).2.appointments) ∧
    (∀ (env : Env) (user : Actor) (id : String) (s : Store),
      List.Forall₂ (fun a a1 => a1 = a ∨ (a1.id = a.id ∧ a1.status = Status.Confirmed))
        s.appointments (assignAppointment env user id s).2.appointments) ∧
    (∀ (env : Env) (d : Dashboard) (s : Store),
      List.Forall₂ (fun a a1 => a1 = a ∨ (a1.id = a.id ∧ a1.status = Status.Confirmed))
        s.appointments (handleAssignToMe env d s).2.appointments) := by
  have hclaim : ∀ (user : Actor) (id : String) (s : Store),
      List.Forall₂ (fun a a1 => a1 = a ∨ (a1.id = a.id ∧ a1.status = Status.Confirmed))
        s.appointments (updateAppointment s id (claimFields user)).appointments := fun user id s =>
    forall₂_update _ s.appointments id (claimFields user) (fun _ => Or.inl rfl)
      (fun _ => Or.inr ⟨rfl, rfl⟩)
  have hsame : ∀ (s : Store),
      List.Forall₂ (fun a a1 => a1 = a ∨ (a1.id = a.id ∧ a1.status = Status.Confirmed))
        s.appointments s.appointments := fun s =>
    forall₂_refl _ s.appointments (fun _ => Or.inl rfl)
  refine ⟨?_, ?_, ?_, ?_, ?_⟩
  · intro env user body s
    rcases createAppointment_store env user body s with h | h
    · exact ⟨[], by rw [h, List.append_nil]⟩
    · exact ⟨[requestedAppointment env user body], by rw [h]; rfl⟩
  · intro env d s
    rcases handleBook_cases env d s with h | ⟨user, _, h, _⟩ | ⟨user, _, h⟩
    · exact ⟨[], by rw [h.1, List.append_nil]⟩
    · exact ⟨[bookedAppointment env user d.newApptData], by rw [h]; rfl⟩
    · exact ⟨[bookedAppointment env user d.newApptData], by rw [h]; rfl⟩
  · intro env d s
    have hsame2 : List.Forall₂ (fun a a1 => a1.id = a.id ∧ a.status.rank ≤ a1.status.rank)
        s.appointments s.appointments :=
      forall₂_refl _ s.appointments (fun _ => ⟨rfl, le_refl _⟩)
    have hdone : ∀ (r : MedicalRecord) (id : String),
        List.Forall₂ (fun a a1 => a1.id = a.id ∧ a.status.rank ≤ a1.status.rank)
          s.appointments (updateAppointment (addRecord s r) id doneFields).appointments :=
      fun r id => forall₂_update _ s.appointments id doneFields (fun _ => ⟨rfl, le_refl _⟩)
        (fun a => ⟨rfl, by cases h : a.status <;> simp [doneFields, Status.rank]⟩)
    cases hsel : d.selectedAppointment with
    | none => rw [handleMarkAsDone_idle env d s (Or.inl hsel)]; exact hsame2
    | some sel =>
      cases huser : d.user with
      | none => rw [handleMarkAsDone_idle env d s (Or.inr huser)]; exact hsame2
      | some user =>
        rcases handleMarkAsDone_cases env d s sel user hsel huser with h | h | h | h
        · rw [h.2]; exact hsame2
        · rw [h.2.2]; exact hsame2
        · rw [h.2.2.2]; exact hsame2
        · rw [h.2.2.2.2]
          by_cases h3 : env.rejects 3 = true
          · simp only [h3, if_true]; exact hdone _ _
          · simp only [h3]; exact hdone _ _
  · intro env user id s
    rcases assignAppointment_cases env user id s with h | h | h | h
    · rw [h.2]; exact hsame s
    · rw [h.2]; exact hsame s
    · rw [h.2.2]; exact hclaim user id s
    · rw [h.2.2]; exact hclaim user id s
  · intro env d s
    cases hsel : d.selectedAppointment with
    | none => rw [handleAssignToMe_idle env d s (Or.inl hsel)]; exact hsame s
    | some sel =>
      cases huser : d.user with
      | none => rw [handleAssignToMe_idle env d s (Or.inr huser)]; exact hsame s
      | some user =>
        rcases handleAssignToMe_cases env d s sel user hsel huser with h | h | h | h | h | h
        · rw [h.2]; exact hsame s
        · rw [h.2.2]; exact hsame s
        · rw [h.2.2]; exact hsame s
        · rw [h.2.2.2]; exact hsame s
        · rw [h.2.2.2.2]; exact hclaim user _ s
        · rw [h.2.2.2.2]; exact hclaim user _ s

/-! ## Invariant lemmas -/

theorem tracks_update (l : List Appointment) (id : String) (f : Appointment → Appointment)
    (hid : ∀ a, (f a).id = a.id) (hpet : ∀ a, (f a).pet_id = a.pet_id)
    (hrs : ∀ a, (f a).reason = a.reason)
    (hst : ∀ a, (f a).status ≠ Status.Pending) (ui : ApptUI)
    (h : Tracks l ui) : Tracks (l.map (fun a => if a.id = id then f a else a)) ui := by
  obtain ⟨⟨a, ha, hai⟩, hnp⟩ := h
  refine ⟨⟨if a.id = id then f a else a, List.mem_map.2 ⟨a, ha, rfl⟩, ?_⟩, ?_⟩
  · by_cases h : a.id = id
    · simp only [h, if_true]; rw [hid]; rw [← hai, h]
    · simp only [h, if_false]; exact hai
  · intro b hb hbi
    obtain ⟨c, hc, rfl⟩ := List.mem_map.1 hb
    by_cases h : c.id = id
    · simp only [h, if_true] at hbi ⊢
      rw [hid] at hbi
      exact ⟨by rw [hpet]; exact (hnp c hc hbi).1, by rw [hrs]; exact (hnp c hc hbi).2.1,
        fun _ => hst c⟩
    · simp only [h, if_false] at hbi ⊢
      exact hnp c hc hbi

theorem tracks_add (l : List Appointment) (n : Appointment)
    (fresh : n.id ∉ l.map (fun a => a.id)) (ui : ApptUI) (h : Tracks l ui) :
    Tracks (l ++ [n]) ui := by
  obtain ⟨⟨a, ha, hai⟩, hnp⟩ := h
  refine ⟨⟨a, List.mem_append_left _ ha, hai⟩, ?_⟩
  intro b hb hbi
  rcases List.mem_append.1 hb with hb | hb
  · exact hnp b hb hbi
  · rw [List.mem_singleton] at hb
    subst hb
    exact absurd (List.mem_map.2 ⟨a, ha, by rw [hai, hbi]⟩) fresh

theorem tracks_of_mem (l : List Appointment) (nd : (l.map (fun a => a.id)).Nodup)
    (a : Appointment) (ha : a ∈ l) (ui : ApptUI) (hui : ui.appt = a) : Tracks l ui := by
  refine ⟨⟨a, ha, by rw [hui]⟩, ?_⟩
  intro b hb hbi
  have : b = a := List.inj_on_of_nodup_map nd hb ha (by rw [hbi, hui])
  rw [this, ← hui]
  exact ⟨rfl, rfl, fun h => h⟩

theorem nodup_update (l : List Appointment) (id : String) (f : Appointment → Appointment)
    (hid : ∀ a, (f a).id = a.id) (nd : (l.map (fun a => a.id)).Nodup) :
    ((l.map (fun a => if a.id = id then f a else a)).map (fun a => a.id)).Nodup := by
  have : (l.map (fun a => if a.id = id then f a else a)).map (fun a => a.id) =
      l.map (fun a => a.id) := by
    rw [List.map_map]
    apply List.map_congr_left
    intro a _
    by_cases h : a.id = id
    · simp [h, hid]
    · simp [h]
  rw [this]
  exact nd

theorem nodup_add (l : List Appointment) (n : Appointment)
    (fresh : n.id ∉ l.map (fun a => a.id)) (nd : (l.map (fun a => a.id)).Nodup) :
    ((l ++ [n]).map (fun a => a.id)).Nodup := by
  rw [List.map_append, List.map_singleton]
  refine List.Nodup.append nd (List.nodup_singleton _) ?_
  intro x hx hx2
  rw [List.mem_singleton] at hx2
  subst hx2
  exact fresh hx

theorem assigned_update (l : List Appointment) (id : String) (f : Appointment → Appointment)
    (hf : ∀ a ∈ l, a.id = id → ((f a).assigned_to = none ↔ (f a).status = Status.Pending))
    (h : AssignedIffNotPending l) :
    AssignedIffNotPending (l.map (fun a => if a.id = id then f a else a)) := by
  intro b hb
  obtain ⟨c, hc, rfl⟩ := List.mem_map.1 hb
  by_cases hci : c.id = id
  · simp only [hci, if_true]; exact hf c hc hci
  · simp only [hci, if_false]; exact h c hc

theorem assigned_add (l : List Appointment) (n : Appointment)
    (hn : n.assigned_to = none ↔ n.status = Status.Pending) (h : AssignedIffNotPending l) :
    AssignedIffNotPending (l ++ [n]) := by
  intro b hb
  rcases List.mem_append.1 hb with hb | hb
  · exact h b hb
  · rw [List.mem_singleton] at hb
    subst hb
    exact hn

theorem dashboards_replace (pre post : List Dashboard) (d d1 : Dashboard)
    (l l1 : List Appointment)
    (h : ∀ x ∈ pre ++ d :: post, DashboardOK l x)
    (hmono : ∀ ui, Tracks l ui → Tracks l1 ui)
    (hd : (∀ ui, Tracks l ui → Tracks l1 ui) → DashboardOK l d → DashboardOK l1 d1) :
    ∀ x ∈ pre ++ d1 :: post, DashboardOK l1 x := by
  intro x hx
  rcases List.mem_append.1 hx with hx | hx
  · exact fun ui hui => hmono ui (h x (List.mem_append_left _ hx) ui hui)
  · rcases List.mem_cons.1 hx with hx | hx
    · subst hx
      exact hd hmono (h d (List.mem_append_right _ (List.mem_cons_self _ _)))
    · exact fun ui hui => hmono ui
        (h x (List.mem_append_right _ (List.mem_cons_of_mem _ hx)) ui hui)

theorem inv_store (sys : System) (s1 : Store) (hI : Inv sys)
    (hA : AssignedIffNotPending s1.appointments) (hN : s1.appointmentIds.Nodup)
    (hmono : ∀ ui, Tracks sys.store.appointments ui → Tracks s1.appointments ui) :
    Inv { sys with store := s1 } :=
  ⟨hA, hN, fun d hd ui hui => hmono ui (hI.2.2 d hd ui hui)⟩

theorem inv_change (sys : System) (s1 : Store) (pre post : List Dashboard) (d d1 : Dashboard)
    (hat : sys.dashboards = pre ++ d :: post) (hI : Inv sys)
    (hA : AssignedIffNotPending s1.appointments) (hN : s1.appointmentIds.Nodup)
    (hmono : ∀ ui, Tracks sys.store.appointments ui → Tracks s1.appointments ui)
    (hd : DashboardOK s1.appointments d1) :
    Inv { store := s1, dashboards := pre ++ d1 :: post } := by
  refine ⟨hA, hN, ?_⟩
  have h3 := hI.2.2
  rw [hat] at h3
  exact dashboards_replace pre post d d1 sys.store.appointments s1.appointments h3 hmono
    (fun _ _ => hd)

theorem inv_dashboard (sys : System) (pre post : List Dashboard) (d d1 : Dashboard)
    (hat : sys.dashboards = pre ++ d :: post) (hI : Inv sys)
    (hd : DashboardOK sys.store.appointments d → DashboardOK sys.store.appointments d1) :
    Inv { sys with dashboards := pre ++ d1 :: post } := by
  have hdo : DashboardOK sys.store.appointments d :=
    hI.2.2 d (by rw [hat]; exact List.mem_append_right _ (List.mem_cons_self _ _))
  exact inv_change sys sys.store pre post d d1 hat hI hI.1 hI.2.1 (fun _ h => h) (hd hdo)

/-- The three facts a claim update keeps or establishes. -/
theorem inv_claim_update (sys : System) (hI : Inv sys) (id : String) (user : Actor) :
    AssignedIffNotPending (updateAppointment sys.store id (claimFields user)).appointments ∧
      (updateAppointment sys.store id (claimFields user)).appointmentIds.Nodup ∧
      ∀ ui, Tracks sys.store.appointments ui →
        Tracks (updateAppointment sys.store id (claimFields user)).appointments ui :=
  ⟨assigned_update _ id (claimFields user) (fun _ _ _ => by simp [claimFields]) hI.1,
    nodup_update _ id (claimFields user) (fun _ => rfl) hI.2.1,
    fun ui h => tracks_update _ id (claimFields user) (fun _ => rfl) (fun _ => rfl) (fun _ => rfl)
      (fun _ => by simp [claimFields]) ui h⟩

/-- The three facts a fresh document keeps or establishes. -/
theorem inv_add (sys : System) (hI : Inv sys) (n : Appointment)
    (fresh : n.id ∉ sys.store.appointmentIds)
    (hn : n.assigned_to = none ↔ n.status = Status.Pending) :
    AssignedIffNotPending (addAppointment sys.store n).appointments ∧
      (addAppointment sys.store n).appointmentIds.Nodup ∧
      ∀ ui, Tracks sys.store.appointments ui →
        Tracks (addAppointment sys.store n).appointments ui :=
  ⟨assigned_add _ n hn hI.1, nodup_add _ n fresh hI.2.1, fun ui h => tracks_add _ n fresh ui h⟩

theorem dashboardOK_rows (l : List Appointment) (d d1 : Dashboard)
    (h1 : d1.appointments = d.appointments) (h2 : d1.selectedAppointment = d.selectedAppointment)
    (h : DashboardOK l d) : DashboardOK l d1 := by
  intro ui hui
  rw [h1, h2] at hui
  exact h ui hui

theorem dashboardOK_fetch (l : List Appointment) (nd : (l.map (fun a => a.id)).Nodup)
    (env : Env) (d : Dashboard) (s : Store) (hs : s.appointments = l)
    (h : DashboardOK l d) : DashboardOK l (fetchData env d s) := by
  unfold fetchData
  cases hu : d.user with
  | none => exact h
  | some user =>
    by_cases h0 : env.rejects 0 = true
    · simp only [h0, if_true]
      exact dashboardOK_rows l d _ rfl rfl h
    · simp only [h0]
      intro ui hui
      rcases hui with hui | hui
      · obtain ⟨a, ha, rfl⟩ := List.mem_map.1 hui
        have hal : a ∈ l := by
          rw [← hs]
          unfold dashboardFilter at ha
          split_ifs at ha
          · exact (List.mem_filter.1 ha).1
          · exact ha
        exact tracks_of_mem l nd a hal _ rfl
      · exact h ui (Or.inr hui)

theorem tracks_target (l : List Appointment) (id : String) (f : Appointment → Appointment)
    (hid : ∀ a, (f a).id = a.id) (hpet : ∀ a, (f a).pet_id = a.pet_id)
    (hrs : ∀ a, (f a).reason = a.reason)
    (hst : ∀ a, (f a).status ≠ Status.Pending) (u u1 : ApptUI)
    (h : Tracks l u) (hu : u.appt.id = id) (hu1 : u1.appt.id = u.appt.id)
    (hp1 : u1.appt.pet_id = u.appt.pet_id) (hr1 : u1.appt.reason = u.appt.reason) :
    Tracks (l.map (fun a => if a.id = id then f a else a)) u1 := by
  obtain ⟨⟨a, ha, hai⟩, hnp⟩ := h
  refine ⟨⟨f a, List.mem_map.2 ⟨a, ha, ?_⟩, ?_⟩, ?_⟩
  · have : a.id = id := by rw [hai, hu]
    simp only [this, if_true]
  · rw [hid, hai, hu1]
  · intro b hb hbi
    obtain ⟨c, hc, rfl⟩ := List.mem_map.1 hb
    by_cases h : c.id = id
    · simp only [h, if_true]
      exact ⟨by rw [hpet, hp1]; exact (hnp c hc (by rw [h, hu])).1,
        by rw [hrs, hr1]; exact (hnp c hc (by rw [h, hu])).2.1, fun _ => hst c⟩
    · simp only [h, if_false] at hbi
      exact absurd (by rw [hbi, hu1, hu]) h

theorem dashboardOK_assigned (l : List Appointment) (d : Dashboard) (sel : ApptUI)
    (user : Actor) (m : String) (hsel : d.selectedAppointment = some sel)
    (h : DashboardOK l d) :
    DashboardOK (l.map (fun a => if a.id = sel.appt.id then claimFields user a else a))
      ((assignedDashboard user sel d).alert m) := by
  intro ui hui
  rcases hui with hui | hui
  · obtain ⟨u, hu, rfl⟩ := List.mem_map.1 hui
    by_cases hid : u.appt.id = sel.appt.id
    · simp only [hid, if_true]
      exact tracks_target l _ (claimFields user) (fun _ => rfl) (fun _ => rfl) (fun _ => rfl)
        (fun _ => by simp [claimFields]) u _ (h u (Or.inl hu)) hid rfl rfl rfl
    · simp only [hid, if_false]
      exact tracks_update l _ (claimFields user) (fun _ => rfl) (fun _ => rfl) (fun _ => rfl)
        (fun _ => by simp [claimFields]) u (h u (Or.inl hu))
  · have : ui = confirmUI user sel := by
      simp only [Dashboard.alert, assignedDashboard, hsel, Option.map_some',
        Option.some.injEq] at hui
      exact hui.symm
    subst this
    exact tracks_target l _ (claimFields user) (fun _ => rfl) (fun _ => rfl) (fun _ => rfl)
      (fun _ => by simp [claimFields]) sel _ (h sel (Or.inr hsel)) rfl rfl rfl rfl

theorem dashboardOK_done (l : List Appointment) (d : Dashboard) (sel : ApptUI)
    (r : MedicalRecord) (m : String) (h : DashboardOK l d) :
    DashboardOK (l.map (fun a => if a.id = sel.appt.id then doneFields a else a))
      ((doneDashboard r sel d).alert m) := by
  intro ui hui
  rcases hui with hui | hui
  · obtain ⟨u, hu, rfl⟩ := List.mem_map.1 hui
    by_cases hid : u.appt.id = sel.appt.id
    · simp only [hid, if_true]
      exact tracks_target l _ doneFields (fun _ => rfl) (fun _ => rfl) (fun _ => rfl)
        (fun _ => by simp [doneFields]) u _ (h u (Or.inl hu)) hid rfl rfl rfl
    · simp only [hid, if_false]
      exact tracks_update l _ doneFields (fun _ => rfl) (fun _ => rfl) (fun _ => rfl)
        (fun _ => by simp [doneFields]) u (h u (Or.inl hu))
  · have : d.selectedAppointment = some ui := hui
    exact tracks_update l _ doneFields (fun _ => rfl) (fun _ => rfl) (fun _ => rfl)
      (fun _ => by simp [doneFields]) ui (h ui (Or.inr this))

theorem dashboardOK_booked (l : List Appointment) (d : Dashboard) (env : Env) (user : Actor)
    (m : String) (fresh : env.newId ∉ l.map (fun a => a.id)) (h : DashboardOK l d) :
    DashboardOK (l ++ [bookedAppointment env user d.newApptData])
      ((bookedDashboard env user d).alert m) := by
  intro ui hui
  rcases hui with hui | hui
  · rcases List.mem_append.1 hui with hu | hu
    · exact tracks_add l _ fresh ui (h ui (Or.inl hu))
    · rw [List.mem_singleton] at hu
      subst hu
      refine ⟨⟨_, List.mem_append_right _ (List.mem_singleton_self _), rfl⟩, ?_⟩
      intro b hb hbi
      rcases List.mem_append.1 hb with hb | hb
      · exact absurd (List.mem_map.2 ⟨b, hb, hbi⟩) fresh
      · rw [List.mem_singleton] at hb
        subst hb
        exact ⟨rfl, rfl, fun h => h⟩
  · have : d.selectedAppointment = some ui := hui
    exact tracks_add l _ fresh ui (h ui (Or.inr this))

theorem showsDoneButton_selected (d : Dashboard) (h : showsDoneButton d = true) :
    ∃ sel, d.selectedAppointment = some sel ∧ sel.appt.status = Status.Confirmed := by
  unfold showsDoneButton at h
  cases hs : d.selectedAppointment with
  | none => simp [hs] at h
  | some sel =>
    simp only [hs, Bool.and_eq_true, decide_eq_true_eq] at h
    exact ⟨sel, rfl, h.2⟩

/-- Every operation of the system keeps the invariant. -/
theorem inv_step (sys sys1 : System) (hI : Inv sys) (st : Step sys sys1) : Inv sys1 := by
  cases st with
  | request env user body fresh =>
    rcases createAppointment_store env user body sys.store with h | h
    · rw [h]; exact hI
    · rw [h]
      obtain ⟨a, b, c⟩ := inv_add sys hI (requestedAppointment env user body) fresh
        (by simp [requestedAppointment])
      exact inv_store sys _ hI a b c
  | assign env user id =>
    obtain ⟨a, b, c⟩ := inv_claim_update sys hI id user
    rcases assignAppointment_cases env user id sys.store with h | h | h | h
    · rw [h.2]; exact hI
    · rw [h.2]; exact hI
    · rw [h.2.2]; exact inv_store sys _ hI a b c
    · rw [h.2.2]; exact inv_store sys _ hI a b c
  | other s1 same =>
    exact inv_store sys s1 hI (by rw [same]; exact hI.1)
      (by unfold Store.appointmentIds; rw [same]; exact hI.2.1)
      (fun ui h => by rw [same]; exact h)
  | mount user =>
    refine ⟨hI.1, hI.2.1, ?_⟩
    intro d hd
    rcases List.mem_cons.1 hd with hd | hd
    · subst hd
      intro ui hui
      rcases hui with h | h
      · simp [Dashboard.init] at h
      · simp [Dashboard.init] at h
    · exact hI.2.2 d hd
  | setUser pre post d user at_ =>
    exact inv_dashboard sys pre post d _ at_ hI (dashboardOK_rows _ d _ rfl rfl)
  | fetch pre post d env at_ =>
    exact inv_dashboard sys pre post d _ at_ hI
      (dashboardOK_fetch _ hI.2.1 env d sys.store rfl)
  | openDetails pre post d appt at_ row =>
    refine inv_dashboard sys pre post d _ at_ hI (fun h ui hui => ?_)
    rcases hui with hui | hui
    · exact h ui (Or.inl hui)
    · simp only [openApptDetails, Option.some.injEq] at hui
      subst hui
      exact h appt (Or.inl row)
  | closeDetails pre post d at_ =>
    exact inv_dashboard sys pre post d _ at_ hI (dashboardOK_rows _ d _ rfl rfl)
  | editForm pre post d form at_ =>
    exact inv_dashboard sys pre post d _ at_ hI (dashboardOK_rows _ d _ rfl rfl)
  | assignToMe pre post d env at_ button =>
    have hdo : DashboardOK sys.store.appointments d :=
      hI.2.2 d (by rw [at_]; exact List.mem_append_right _ (List.mem_cons_self _ _))
    have same : ∀ m, Inv { store := sys.store, dashboards := pre ++ d.alert m :: post } :=
      fun m => inv_dashboard sys pre post d _ at_ hI (dashboardOK_rows _ d _ rfl rfl)
    cases hsel : d.selectedAppointment with
    | none =>
      rw [handleAssignToMe_idle env d sys.store (Or.inl hsel)]
      exact inv_dashboard sys pre post d _ at_ hI (fun h => h)
    | some sel =>
      cases huser : d.user with
      | none =>
        rw [handleAssignToMe_idle env d sys.store (Or.inr huser)]
        exact inv_dashboard sys pre post d _ at_ hI (fun h => h)
      | some user =>
        obtain ⟨a, b, c⟩ := inv_claim_update sys hI sel.appt.id user
        rcases handleAssignToMe_cases env d sys.store sel user hsel huser
          with h | h | h | h | h | h
        · rw [h.2]; exact same _
        · rw [h.2.2]; exact same _
        · rw [h.2.2]; exact same _
        · rw [h.2.2.2]; exact same _
        · rw [h.2.2.2.2]
          exact inv_change sys _ pre post d _ at_ hI a b c
            (dashboardOK_assigned _ d sel user _ hsel hdo)
        · rw [h.2.2.2.2]
          exact inv_change sys _ pre post d _ at_ hI a b c
            (dashboardOK_assigned _ d sel user _ hsel hdo)
  | markDone pre post d env at_ button =>
    have hdo : DashboardOK sys.store.appointments d :=
      hI.2.2 d (by rw [at_]; exact List.mem_append_right _ (List.mem_cons_self _ _))
    have same : ∀ m, Inv { store := sys.store, dashboards := pre ++ d.alert m :: post } :=
      fun m => inv_dashboard sys pre post d _ at_ hI (dashboardOK_rows _ d _ rfl rfl)
    obtain ⟨sel, hsel, hconf⟩ := showsDoneButton_selected d button
    cases huser : d.user with
    | none =>
      rw [handleMarkAsDone_idle env d sys.store (Or.inr huser)]
      exact inv_dashboard sys pre post d _ at_ hI (fun h => h)
    | some user =>
      have hnp : sel.appt.status ≠ Status.Pending := by rw [hconf]; decide
      have htr := hdo sel (Or.inr hsel)
      have hA : AssignedIffNotPending
          (sys.store.appointments.map
            (fun a => if a.id = sel.appt.id then doneFields a else a)) :=
        assigned_update _ _ doneFields (fun a ha hai => by
          have h1 : a.status ≠ Status.Pending := (htr.2 a ha hai).2.2 hnp
          have h2 : a.assigned_to ≠ none := fun h => h1 ((hI.1 a ha).1 h)
          simp [doneFields, h2]) hI.1
      have hN := nodup_update sys.store.appointments sel.appt.id doneFields (fun _ => rfl)
        hI.2.1
      have hM : ∀ ui, Tracks sys.store.appointments ui →
          Tracks (sys.store.appointments.map
            (fun a => if a.id = sel.appt.id then doneFields a else a)) ui :=
        fun ui h => tracks_update _ _ doneFields (fun _ => rfl) (fun _ => rfl) (fun _ => rfl)
          (fun _ => by simp [doneFields]) ui h
      rcases handleMarkAsDone_cases env d sys.store sel user hsel huser with h | h | h | h
      · rw [h.2]; exact same _
      · rw [h.2.2]; exact same _
      · rw [h.2.2.2]
        exact inv_change sys _ pre post d _ at_ hI hI.1 hI.2.1 (fun _ h => h)
          (dashboardOK_rows _ d _ rfl rfl hdo)
      · rw [h.2.2.2.2]
        by_cases h3 : env.rejects 3 = true
        · simp only [h3, if_true]
          exact inv_change sys _ pre post d _ at_ hI hA hN hM
            (dashboardOK_done _ d sel _ _ hdo)
        · simp only [h3]
          exact inv_change sys _ pre post d _ at_ hI hA hN hM
            (dashboardOK_done _ d sel _ _ hdo)
  | book pre post d env at_ fresh =>
    have hdo : DashboardOK sys.store.appointments d :=
      hI.2.2 d (by rw [at_]; exact List.mem_append_right _ (List.mem_cons_self _ _))
    rcases handleBook_cases env d sys.store with h | ⟨user, _, h⟩ | ⟨user, _, h⟩
    · rw [h.1]
      exact inv_change sys _ pre post d _ at_ hI hI.1 hI.2.1 (fun _ h => h)
        (dashboardOK_rows _ d _ h.2.1 h.2.2 hdo)
    · obtain ⟨a, b, c⟩ := inv_add sys hI (bookedAppointment env user d.newApptData) fresh
        (by simp [bookedAppointment])
      rw [h.1]
      exact inv_change sys _ pre post d _ at_ hI a b c
        (dashboardOK_rows _ d _ h.2.1 h.2.2
          (fun ui hui => tracks_add _ _ fresh ui (hdo ui hui)))
    · obtain ⟨a, b, c⟩ := inv_add sys hI (bookedAppointment env user d.newApptData) fresh
        (by simp [bookedAppointment])
      rw [h]
      exact inv_change sys _ pre post d _ at_ hI a b c
        (dashboardOK_booked _ d env user _ fresh hdo)

/-- The invariant holds in every reachable state. -/
theorem inv_reachable (sys : System) (h : Reachable sys) : Inv sys := by
  induction h with
  | init s empty =>
    refine ⟨?_, ?_, ?_⟩
    · intro a ha
      rw [empty] at ha
      exact absurd ha (List.not_mem_nil a)
    · simp [Store.appointmentIds, empty]
    · intro d hd
      exact absurd hd (List.not_mem_nil d)
  | step sys sys1 _ op ih => exact inv_step sys sys1 ih op

/-! ## The scenario of the specification -/

theorem exSys1_reachable : Reachable exSys1 :=
  Reachable.step exSys0 exSys1 (Reachable.init _ rfl)
    (Step.request exSys0 exEnvA exClient exRequest (by decide))

theorem exSys2_reachable (user : Actor)
    (row : mapAppt exSys1.store.pets exSys1.store.users exPending ∈
      (fetchData exEnv (Dashboard.init (some user)) exSys1.store).appointments) :
    Reachable (exSys2 user) := by
  have h1 : Reachable
      { exSys1 with dashboards := Dashboard.init (some user) :: exSys1.dashboards } :=
    Reachable.step _ _ exSys1_reachable (Step.mount exSys1 (some user))
  have h2 := Reachable.step _ _ h1
    (Step.fetch _ [] [] (Dashboard.init (some user)) exEnv rfl)
  exact Reachable.step _ _ h2
    (Step.openDetails _ [] [] (fetchData exEnv (Dashboard.init (some user)) exSys1.store)
      (mapAppt exSys1.store.pets exSys1.store.users exPending) rfl row)

theorem exSys3_reachable (user : Actor)
    (row : mapAppt exSys1.store.pets exSys1.store.users exPending ∈
      (fetchData exEnv (Dashboard.init (some user)) exSys1.store).appointments) :
    Reachable (exSys3 user) :=
  Reachable.step _ _ (exSys2_reachable user row)
    (Step.assignToMe (exSys2 user) [] [] (exDashOpen user) exEnv rfl rfl)

theorem exSys4_reachable : Reachable (exSys4 exStaff1) :=
  Reachable.step _ _ (exSys3_reachable exStaff1 (List.mem_singleton.2 rfl))
    (Step.markDone (exSys3 exStaff1) [] []
      (handleAssignToMe exEnv (exDashOpen exStaff1) (exSys2 exStaff1).store).1 exEnv rfl rfl)

/-- C1: in every state reachable from a store without appointments through client requests,
claims by the route or by `handleAssignToMe`, bookings for a client and `handleMarkAsDone` (each
dashboard handler run from its button), every stored appointment has `assigned_to` null if and
only if its status is `Pending`. -/
theorem C1_assigned_to_null_iff_pending (sys : System) (h : Reachable sys) :
    ∀ a ∈ sys.store.appointments, (a.assigned_to = none ↔ a.status = Status.Pending) :=
  (inv_reachable sys h).1

/-- C1 (witness): after client C requested, S1 claimed and S1 marked Done, the stored
appointment is `Done` and assigned to S1. -/
theorem C1_witness_scenario :
    (exSys4 exStaff1).store.appointments = [exDone] ∧
      (exDone.assigned_to = none ↔ exDone.status = Status.Pending) :=
  ⟨rfl, C1_assigned_to_null_iff_pending (exSys4 exStaff1) exSys4_reachable exDone
    (List.mem_singleton.2 rfl)⟩

theorem failed_ne_success (m : String) : "Failed: " ++ m ≠ markDoneSuccess := by
  intro h
  have h2 := congrArg String.data h
  rw [String.data_append] at h2
  simp [markDoneSuccess] at h2

theorem alert_eq (d : Dashboard) (m k : String) (h : (d.alert m).alerts = d.alerts ++ [k]) :
    m = k := by
  simpa [Dashboard.alert] using h

/-- What a successful `handleMarkAsDone` has written. -/
theorem handleMarkAsDone_success (env : Env) (d : Dashboard) (s : Store) (sel : ApptUI)
    (user : Actor) (a : Appointment) (hsel : d.selectedAppointment = some sel)
    (huser : d.user = some user) (hget : getAppointment s sel.appt.id = some a)
    (hok : (handleMarkAsDone env d s).1.alerts = d.alerts ++ [markDoneSuccess]) :
    (handleMarkAsDone env d s).2.medical_records =
        s.medical_records ++ [recordPayload env user sel] ∧
      getAppointment (handleMarkAsDone env d s).2 sel.appt.id = some (doneFields a) ∧
      (handleMarkAsDone env d s).2.appointments =
        s.appointments.map (fun b => if b.id = sel.appt.id then doneFields b else b) := by
  have hupd : getAppointment
      (updateAppointment (addRecord s (recordPayload env user sel)) sel.appt.id doneFields)
      sel.appt.id = some (doneFields a) := by
    have h := getAppointment_update (addRecord s (recordPayload env user sel)) sel.appt.id
      doneFields (fun _ => rfl)
    rw [h]
    show (getAppointment s sel.appt.id).map doneFields = _
    rw [hget]
    rfl
  rcases handleMarkAsDone_cases env d s sel user hsel huser with h | h | h | h
  · rw [h.2] at hok
    exact absurd (alert_eq d _ _ hok) (failed_ne_success _)
  · rw [h.2.2] at hok
    exact absurd (alert_eq d _ _ hok) (failed_ne_success _)
  · rw [h.2.2.2] at hok
    exact absurd (alert_eq d _ _ hok) (failed_ne_success _)
  · rw [h.2.2.2.2]
    by_cases h3 : env.rejects 3 = true
    · simp only [h3, if_true]
      exact ⟨rfl, hupd, rfl⟩
    · simp only [h3]
      exact ⟨rfl, hupd, rfl⟩

/-- When the first three calls resolve and the document exists, `handleMarkAsDone` succeeds. -/
theorem handleMarkAsDone_succeeds (env : Env) (d : Dashboard) (s : Store) (sel : ApptUI)
    (user : Actor) (a : Appointment) (hsel : d.selectedAppointment = some sel)
    (huser : d.user = some user) (hget : getAppointment s sel.appt.id = some a)
    (h0 : env.rejects 0 = false) (h1 : env.rejects 1 = false) (h2 : env.rejects 2 = false) :
    (handleMarkAsDone env d s).1.alerts = d.alerts ++ [markDoneSuccess] := by
  rcases handleMarkAsDone_cases env d s sel user hsel huser with h | h | h | h
  · rw [h0] at h; exact absurd h.1 (by simp)
  · rw [h1] at h; exact absurd h.2.1 (by simp)
  · rcases h.2.2.1 with h' | h'
    · rw [h2] at h'; exact absurd h' (by simp)
    · rw [hget] at h'; exact absurd h' (by simp)
  · rw [h.2.2.2.2]
    rfl

/-- C10: in every reachable state, for a dashboard showing the button `Mark as Done & Save
Record` on a `Confirmed` row whose document is stored as `a`: the handler completes
successfully when its first three calls resolve, and whenever it completes successfully exactly
one medical record has been added to the store, that record's `pet_id` is the `pet_id` of `a`,
and `a` is stored with status `Done` and nothing else changed. -/
theorem C10_mark_done_adds_one_record_for_the_pet (sys : System) (hr : Reachable sys)
    (d : Dashboard) (hd : d ∈ sys.dashboards) (sel : ApptUI) (user : Actor) (a : Appointment)
    (env : Env) (hsel : d.selectedAppointment = some sel) (hrow : showsDoneButton d = true)
    (huser : d.user = some user) (hget : getAppointment sys.store sel.appt.id = some a) :
    sel.appt.status = Status.Confirmed ∧
    (env.rejects 0 = false → env.rejects 1 = false → env.rejects 2 = false →
      (handleMarkAsDone env d sys.store).1.alerts = d.alerts ++ [markDoneSuccess]) ∧
    ((handleMarkAsDone env d sys.store).1.alerts = d.alerts ++ [markDoneSuccess] →
      (handleMarkAsDone env d sys.store).2.medical_records =
          sys.store.medical_records ++ [recordPayload env user sel] ∧
        (recordPayload env user sel).pet_id = a.pet_id ∧
        getAppointment (handleMarkAsDone env d sys.store).2 sel.appt.id =
          some { a with status := Status.Done }) := by
  obtain ⟨sel1, hsel1, hconf⟩ := showsDoneButton_selected d hrow
  rw [hsel] at hsel1
  cases hsel1
  refine ⟨hconf, handleMarkAsDone_succeeds env d sys.store sel user a hsel huser hget, ?_⟩
  intro hok
  obtain ⟨h1, h2, _⟩ := handleMarkAsDone_success env d sys.store sel user a hsel huser hget hok
  refine ⟨h1, ?_, h2⟩
  have htr := (inv_reachable sys hr).2.2 d hd sel (Or.inr hsel)
  have ha : a ∈ sys.store.appointments := List.mem_of_find?_eq_some hget
  have hai : a.id = sel.appt.id := by simpa using List.find?_some hget
  exact ((htr.2 a ha hai).1).symm

/-- C10 (witness): in the scenario, S1 marks the claimed appointment Done: one record for pet
`p1` is stored and the appointment is stored as `Done`. -/
theorem C10_witness_scenario :
    (exSys4 exStaff1).store.medical_records =
        [] ++ [recordPayload exEnv exStaff1 (confirmUI exStaff1 (mapAppt [exPet] [] exPending))] ∧
      (recordPayload exEnv exStaff1 (confirmUI exStaff1 (mapAppt [exPet] [] exPending))).pet_id
        = "p1" ∧
      getAppointment (exSys4 exStaff1).store "a1" = some exDone :=
  (C10_mark_done_adds_one_record_for_the_pet (exSys3 exStaff1)
    (exSys3_reachable exStaff1 (List.mem_singleton.2 rfl))
    (handleAssignToMe exEnv (exDashOpen exStaff1) (exSys2 exStaff1).store).1
    (List.mem_singleton.2 rfl) (confirmUI exStaff1 (mapAppt [exPet] [] exPending)) exStaff1
    exConfirmed exEnv rfl rfl rfl rfl).2.2 rfl

/-- C9 (failing input): S2 claims the appointment from the dashboard, the administrator then
claims it through the route, and the dashboard of S2, which still shows the row as `Confirmed`,
offers `Mark as Done`.  The appointment is then outside the visible set of S2, yet
`handleMarkAsDone` adds a record and stores the appointment as `Done`. -/
theorem C9_mark_done_outside_visible_set_writes :
    Reachable exSysB4 ∧ exDashB ∈ exSysB4.dashboards ∧ exDashB.user = some exStaff2 ∧
      getAppointment exSysB4.store "a1" = some exOverridden ∧
      visibleToStaff exStaff2 exOverridden = false ∧
      showsDoneButton exDashB = true ∧
      (handleMarkAsDone exEnv exDashB exSysB4.store).1.alerts =
        exDashB.alerts ++ [markDoneSuccess] ∧
      (handleMarkAsDone exEnv exDashB exSysB4.store).2.medical_records.length = 1 ∧
      getAppointment (handleMarkAsDone exEnv exDashB exSysB4.store).2 "a1" =
        some { exOverridden with status := Status.Done } :=
  ⟨Reachable.step _ _ (exSys3_reachable exStaff2 (List.mem_singleton.2 rfl))
      (Step.assign (exSys3 exStaff2) exEnv exAdmin "a1"),
    List.mem_singleton.2 rfl, rfl, rfl, rfl, rfl, rfl, rfl, rfl⟩

/-! ## Creation of appointments -/

/-- The ways `POST /api/appointments` ends. -/
theorem createAppointment_cases (env : Env) (user : Actor) (body : AppointmentRequest)
    (s : Store) :
    (env.rejects 0 = true ∧ createAppointment env user body s = (serverError, s)) ∨
    (env.rejects 0 = false ∧
      (s.pets.find? (fun p => decide (p.id = body.pet_id)) = none ∨
        ∃ pet, s.pets.find? (fun p => decide (p.id = body.pet_id)) = some pet ∧
          pet.owner_id ≠ user.id) ∧
      createAppointment env user body s =
        ({ status := 403, body := .message "Invalid Pet" }, s)) ∨
    (env.rejects 0 = false ∧
      (∃ pet, s.pets.find? (fun p => decide (p.id = body.pet_id)) = some pet ∧
        pet.owner_id = user.id) ∧
      ((env.rejects 1 = true ∧ createAppointment env user body s = (serverError, s)) ∨
        (env.rejects 1 = false ∧ env.rejects 2 = true ∧
          createAppointment env user body s =
            (serverError, addAppointment s (requestedAppointment env user body))) ∨
        (env.rejects 1 = false ∧ env.rejects 2 = false ∧
          createAppointment env user body s =
            ({ status := 200, body := .requested "Requested" env.newId },
              addAppointment s (requestedAppointment env user body))))) := by
  unfold createAppointment
  by_cases h0 : env.rejects 0 = true
  · simp [h0]
  · cases hp : s.pets.find? (fun p => decide (p.id = body.pet_id)) with
    | none => simp [h0]
    | some pet =>
      by_cases ho : pet.owner_id = user.id
      · by_cases h1 : env.rejects 1 = true
        · simp [h0, ho, h1]
        · by_cases h2 : env.rejects 2 = true
          · simp [h0, ho, h1, h2]
          · simp [h0, ho, h1, h2]
      · simp [h0, ho]

/-- C12: whatever the role of the actor, a request accepted by `POST /api/appointments`
(answered 200) has added exactly one appointment, with status `Pending`, `assigned_to` null,
`owner_id` the actor's id and `pet_id` the requested pet, and has changed nothing else; the
request is accepted whenever the store calls resolve and the pet exists and is the actor's. -/
theorem C12_accepted_request_is_pending_and_unassigned (env : Env) (user : Actor)
    (body : AppointmentRequest) (s : Store) :
    (∀ pet, env.resolves → s.pets.find? (fun p => decide (p.id = body.pet_id)) = some pet →
      pet.owner_id = user.id → (createAppointment env user body s).1.status = 200) ∧
    ((createAppointment env user body s).1.status = 200 →
      (createAppointment env user body s).2 =
        addAppointment s (requestedAppointment env user body) ∧
      (createAppointment env user body s).2.appointments =
        s.appointments ++ [requestedAppointment env user body] ∧
      (requestedAppointment env user body).status = Status.Pending ∧
      (requestedAppointment env user body).assigned_to = none ∧
      (requestedAppointment env user body).owner_id = user.id ∧
      (requestedAppointment env user body).pet_id = body.pet_id) := by
  refine ⟨?_, ?_⟩
  · intro pet hres hp ho
    rcases createAppointment_cases env user body s with h | h | ⟨_, _, h | h | h⟩
    · rw [hres 0] at h; exact absurd h.1 (by simp)
    · rcases h.2.1 with h' | ⟨pet', h', hne⟩
      · rw [hp] at h'; exact absurd h' (by simp)
      · rw [hp] at h'; cases h'; exact absurd ho hne
    · rw [hres 1] at h; exact absurd h.1 (by simp)
    · rw [hres 2] at h; exact absurd h.2.1 (by simp)
    · rw [h.2.2]
  · intro hok
    rcases createAppointment_cases env user body s with h | h | ⟨_, _, h | h | h⟩
    · rw [h.2] at hok; exact absurd hok (by simp [serverError])
    · rw [h.2.2] at hok; exact absurd hok (by simp [serverError])
    · rw [h.2] at hok; exact absurd hok (by simp [serverError])
    · rw [h.2.2] at hok; exact absurd hok (by simp [serverError])
    · rw [h.2.2]
      exact ⟨rfl, rfl, rfl, rfl, rfl, rfl⟩

/-- C12 (witness): the request of client C in the scenario is accepted and stores the pending,
unassigned appointment `a1` of C for pet `p1`. -/
theorem C12_witness_scenario_request :
    (createAppointment exEnvA exClient exRequest exSys0.store).2.appointments =
      [] ++ [requestedAppointment exEnvA exClient exRequest] ∧
      requestedAppointment exEnvA exClient exRequest = exPending :=
  ⟨((C12_accepted_request_is_pending_and_unassigned exEnvA exClient exRequest
      exSys0.store).2 rfl).2.1, rfl⟩

/-- C13: when the read of the pet resolves, `POST /api/appointments` answers 403 and leaves the
store as it is if and only if the referenced pet does not exist or its `owner_id` differs from
the actor's id; a 403 never comes with a write. -/
theorem C13_request_refused_iff_pet_missing_or_foreign (env : Env) (user : Actor)
    (body : AppointmentRequest) (s : Store) (hread : env.rejects 0 = false) :
    (((createAppointment env user body s).1.status = 403 ∧
        (createAppointment env user body s).2 = s) ↔
      (s.pets.find? (fun p => decide (p.id = body.pet_id)) = none ∨
        ∃ pet, s.pets.find? (fun p => decide (p.id = body.pet_id)) = some pet ∧
          pet.owner_id ≠ user.id)) ∧
    ((createAppointment env user body s).1.status = 403 →
      (createAppointment env user body s).2 = s) := by
  rcases createAppointment_cases env user body s with h | h | ⟨_, ⟨pet, hp, ho⟩, h⟩
  · rw [hread] at h; exact absurd h.1 (by simp)
  · rw [h.2.2]
    exact ⟨⟨fun _ => h.2.1, fun _ => ⟨rfl, rfl⟩⟩, fun _ => rfl⟩
  · have hno : ¬ (s.pets.find? (fun p => decide (p.id = body.pet_id)) = none ∨
        ∃ pet, s.pets.find? (fun p => decide (p.id = body.pet_id)) = some pet ∧
          pet.owner_id ≠ user.id) := by
      rintro (h' | ⟨pet', h', hne⟩)
      · rw [hp] at h'; exact absurd h' (by simp)
      · rw [hp] at h'; cases h'; exact hne ho
    have hst : (createAppointment env user body s).1.status ≠ 403 := by
      rcases h with h | h | h
      · rw [h.2]; simp [serverError]
      · rw [h.2.2]; simp [serverError]
      · rw [h.2.2]; simp
    exact ⟨⟨fun h' => absurd h'.1 hst, fun h' => absurd h' hno⟩, fun h' => absurd h' hst⟩

/-- C13 (witness): S1 requests an appointment for the pet of client C and is answered 403, the
store unchanged; so is a request for a pet that does not exist. -/
theorem C13_witness_foreign_and_missing_pet :
    ((createAppointment exEnvA exStaff1 exRequest exSys0.store).1.status = 403 ∧
        (createAppointment exEnvA exStaff1 exRequest exSys0.store).2 = exSys0.store) ∧
      ((createAppointment exEnvA exClient { exRequest with pet_id := "zz" } exSys0.store).1.status
          = 403 ∧
        (createAppointment exEnvA exClient { exRequest with pet_id := "zz" } exSys0.store).2
          = exSys0.store) :=
  ⟨(C13_request_refused_iff_pet_missing_or_foreign exEnvA exStaff1 exRequest exSys0.store
      rfl).1.2 (Or.inr ⟨exPet, rfl, by decide⟩),
    (C13_request_refused_iff_pet_missing_or_foreign exEnvA exClient
      { exRequest with pet_id := "zz" } exSys0.store rfl).1.2 (Or.inl rfl)⟩

/-- C14: `handleBookAppointmentForClient` alters no stored appointment, and every appointment it
writes (every element of the resulting collection after the ones stored before) has status
`Confirmed`, so not `Pending`, `assigned_to` the id of the dashboard's actor, and `owner_id` and
`pet_id` the client and the pet chosen in the form.  It does write one: when the date is not
past, the chosen client has a pet, and the write of the appointment resolves, the collection is
the former one followed by exactly the document `appointmentData`. -/
theorem C14_booking_is_created_confirmed_and_assigned (env : Env) (d : Dashboard) (s : Store) :
    (handleBookAppointmentForClient env d s).2.appointments.take s.appointments.length =
        s.appointments ∧
    (∀ a, a ∈ (handleBookAppointmentForClient env d s).2.appointments.drop
        s.appointments.length →
      d.user.isSome = true ∧ a.assigned_to = d.user.map (fun u => u.id) ∧
        a.status = Status.Confirmed ∧ a.status ≠ Status.Pending ∧
        a.owner_id = d.newApptData.clientId ∧ a.pet_id = d.newApptData.petId) ∧
    (∀ user, d.user = some user → isPastDate env d.newApptData.date = false →
      (d.allPets.filter (fun p => decide (p.owner_id = d.newApptData.clientId))).length ≠ 0 →
      env.rejects 0 = false →
      (handleBookAppointmentForClient env d s).2.appointments =
          s.appointments ++ [bookedAppointment env user d.newApptData] ∧
        (handleBookAppointmentForClient env d s).2.appointments.length =
          s.appointments.length + 1) := by
  have hwritten : ∀ (user : Actor) (l : List Appointment), d.user = some user →
      l = s.appointments ++ [bookedAppointment env user d.newApptData] →
      l.take s.appointments.length = s.appointments ∧
      (∀ a, a ∈ l.drop s.appointments.length →
        d.user.isSome = true ∧ a.assigned_to = d.user.map (fun u => u.id) ∧
          a.status = Status.Confirmed ∧ a.status ≠ Status.Pending ∧
          a.owner_id = d.newApptData.clientId ∧ a.pet_id = d.newApptData.petId) := by
    intro user l hu hl
    subst hl
    refine ⟨by simp, ?_⟩
    intro a ha
    simp only [List.drop_left, List.mem_singleton] at ha
    subst ha
    rw [hu]
    exact ⟨rfl, rfl, rfl, by simp [bookedAppointment], rfl, rfl⟩
  refine ⟨?_, ?_, ?_⟩
  · rcases handleBook_cases env d s with h | ⟨user, hu, h, _⟩ | ⟨user, hu, h⟩
    · rw [h.1]; simp
    · exact (hwritten user _ hu (by rw [h]; rfl)).1
    · exact (hwritten user _ hu (by rw [h]; rfl)).1
  · rcases handleBook_cases env d s with h | ⟨user, hu, h, _⟩ | ⟨user, hu, h⟩
    · rw [h.1]; intro a ha; simp at ha
    · exact (hwritten user _ hu (by rw [h]; rfl)).2
    · exact (hwritten user _ hu (by rw [h]; rfl)).2
  · intro user hu hp hn h0
    have happ : (handleBookAppointmentForClient env d s).2.appointments =
        s.appointments ++ [bookedAppointment env user d.newApptData] := by
      unfold handleBookAppointmentForClient
      by_cases h1 : env.rejects 1 = true
      · simp [hp, hn, hu, h0, h1, addAppointment]
      · simp [hp, hn, hu, h0, h1, addAppointment, addAudit]
    exact ⟨happ, by rw [happ]; simp⟩

/-- C14 (witness): S1 books 2025-03-10 for client C and the pet `p1` while the store holds the
request of the scenario; the collection is then that request followed by one appointment with
status `Confirmed`, assigned to `s1`, owned by `c1`, for `p1`. -/
theorem C14_witness_staff_books_for_client :
    (handleBookAppointmentForClient exEnv (exDashForm (exForm "2025-03-10"))
        (exStore exPending)).2.appointments =
      [exPending,
        { id := "n1", pet_id := "p1", owner_id := "c1", date := "2025-03-10", time := "15:00",
          reason := some "Checkup", status := Status.Confirmed, assigned_to := some "s1",
          created_by := some "s1", created_at := some "2025-03-10T09:00:00.000Z" }] ∧
      (handleBookAppointmentForClient exEnv (exDashForm (exForm "2025-03-10"))
        (exStore exPending)).2.appointments.length = 2 ∧
      (bookedAppointment exEnv exStaff1 (exForm "2025-03-10")).assigned_to = some "s1" ∧
      (bookedAppointment exEnv exStaff1 (exForm "2025-03-10")).status = Status.Confirmed :=
  have h := C14_booking_is_created_confirmed_and_assigned exEnv
    (exDashForm (exForm "2025-03-10")) (exStore exPending)
  have hw := h.2.1 (bookedAppointment exEnv exStaff1 (exForm "2025-03-10")) (by decide)
  ⟨(h.2.2 exStaff1 rfl (by decide) (by decide) rfl).1,
    (h.2.2 exStaff1 rfl (by decide) (by decide) rfl).2, hw.2.1, hw.2.2.1⟩

/-! ## The role middleware -/

/-- C19: for every list of allowed roles and every authenticated actor, one run of
`authorizeRole(roles)` makes exactly one call: when the actor's role is not in the list it sends
a response with status 403 and does not call `next`; when the role is in the list it calls
`next` once and sends no response.  The outcome used by the routes agrees with the run. -/
theorem C19_authorizeRole_sends_403_or_calls_next_once (roles : List String) (user : Actor) :
    ((∀ r, user.role = some r → r ∉ roles) →
      authorizeRoleRun roles user =
        [.send { status := 403, body := .message "Access Denied: Insufficient Permissions" }] ∧
      (authorizeRoleRun roles user).count .callNext = 0 ∧
      authorizeRole roles user =
        .respond { status := 403, body := .message "Access Denied: Insufficient Permissions" }) ∧
    ((∃ r, user.role = some r ∧ r ∈ roles) →
      authorizeRoleRun roles user = [.callNext] ∧
      (authorizeRoleRun roles user).count .callNext = 1 ∧
      (∀ resp, Effect.send resp ∉ authorizeRoleRun roles user) ∧
      authorizeRole roles user = .next) := by
  refine ⟨?_, ?_⟩
  · intro h
    have hrun : authorizeRoleRun roles user =
        [.send { status := 403, body := .message "Access Denied: Insufficient Permissions" }] := by
      unfold authorizeRoleRun
      cases hr : user.role with
      | none => simp
      | some r => simp [h r hr]
    refine ⟨hrun, by rw [hrun]; decide, ?_⟩
    unfold authorizeRole
    cases hr : user.role with
    | none => simp
    | some r => simp [h r hr]
  · rintro ⟨r, hr, hmem⟩
    have hrun : authorizeRoleRun roles user = [.callNext] := by
      unfold authorizeRoleRun
      simp [hr, hmem]
    refine ⟨hrun, by rw [hrun]; decide, ?_, ?_⟩
    · intro resp
      rw [hrun]
      simp
    · unfold authorizeRole
      simp [hr, hmem]

/-- C19 (witness): with `['staff', 'admin']` allowed, client C is answered 403 and `next` is
not called; for S1 `next` is called and nothing is sent. -/
theorem C19_witness_client_denied_staff_passed :
    authorizeRoleRun ["staff", "admin"] exClient =
        [.send { status := 403, body := .message "Access Denied: Insufficient Permissions" }] ∧
      authorizeRoleRun ["staff", "admin"] exStaff1 = [.callNext] :=
  ⟨((C19_authorizeRole_sends_403_or_calls_next_once ["staff", "admin"] exClient).1
      (fun r hr => by cases hr; decide)).1,
    ((C19_authorizeRole_sends_403_or_calls_next_once ["staff", "admin"] exStaff1).2
      ⟨"staff", rfl, by decide⟩).1⟩

/-! ## The client portal -/

theorem recordVisible_iff (user : Actor) (pets : List Pet) (r : MedicalRecord) :
    recordVisible user (pets.filter (fun x => decide (x.owner_id = user.id))) r = true ↔
      ∃ pet ∈ pets, pet.id = r.pet_id ∧ pet.owner_id = user.id := by
  unfold recordVisible lookupPet
  cases hf : (pets.filter (fun x => decide (x.owner_id = user.id))).reverse.find?
      (fun p => decide (p.id = r.pet_id)) with
  | none =>
    simp only [Bool.false_eq_true, false_iff]
    rintro ⟨pet, hp, hid, ho⟩
    have := List.find?_eq_none.1 hf pet
      (List.mem_reverse.2 (List.mem_filter.2 ⟨hp, by simpa using ho⟩))
    simp [hid] at this
  | some pet =>
    have hm : pet ∈ pets.filter (fun x => decide (x.owner_id = user.id)) :=
      List.mem_reverse.1 (List.mem_of_find?_eq_some hf)
    have hid : pet.id = r.pet_id := by simpa using List.find?_some hf
    have ho : pet.owner_id = user.id := by simpa using (List.mem_filter.1 hm).2
    simp only [ho, decide_True, true_iff]
    exact ⟨pet, (List.mem_filter.1 hm).1, hid, ho⟩

theorem map_record_clientRecordView (petsData : List Pet) (l : List MedicalRecord) :
    (l.map (clientRecordView petsData)).map (fun v => v.record) = l := by
  induction l with
  | nil => rfl
  | cons a t ih => simpa [clientRecordView] using ih

/-- C18: for every actor of the client portal and every collection of pets and medical
records, when the four reads of `fetchClientData` resolve the records shown are, in store order,
exactly the stored records for which a pet with the record's `pet_id` exists and has `owner_id`
equal to the actor's id; no record of a pet owned by someone else is shown. -/
theorem C18_client_records_are_those_of_own_pets (env : Env) (user : Actor) (s : Store)
    (p : ClientPortal) (h0 : env.rejects 0 = false) (h1 : env.rejects 1 = false)
    (h2 : env.rejects 2 = false) (h3 : env.rejects 3 = false) :
    (fetchClientData env user s p).records.map (fun v => v.record) =
        s.medical_records.filter
          (recordVisible user (s.pets.filter (fun x => decide (x.owner_id = user.id)))) ∧
      (∀ r, r ∈ (fetchClientData env user s p).records.map (fun v => v.record) ↔
        r ∈ s.medical_records ∧ ∃ pet ∈ s.pets, pet.id = r.pet_id ∧ pet.owner_id = user.id) ∧
      (fetchClientData env user s p).pets =
        s.pets.filter (fun x => decide (x.owner_id = user.id)) := by
  have hm : (fetchClientData env user s p).records.map (fun v => v.record) =
      s.medical_records.filter
        (recordVisible user (s.pets.filter (fun x => decide (x.owner_id = user.id)))) := by
    simp only [fetchClientData, h0, h1, h2, h3]
    exact map_record_clientRecordView _ _
  refine ⟨hm, ?_, ?_⟩
  · intro r
    rw [hm, List.mem_filter, recordVisible_iff]
  · simp [fetchClientData, h0, h1, h2, h3]

/-- C18 (witness): client C is shown the record of their pet `p1`, not the record of the pet of
another client and not the record of a pet that does not exist. -/
theorem C18_witness_only_own_pet_record :
    exRecord "r1" "p1" ∈
        (fetchClientData exEnv exClient exStoreRecords ClientPortal.init).records.map
          (fun v => v.record) ∧
      exRecord "r2" "p2" ∉
        (fetchClientData exEnv exClient exStoreRecords ClientPortal.init).records.map
          (fun v => v.record) ∧
      exRecord "r3" "zz" ∉
        (fetchClientData exEnv exClient exStoreRecords ClientPortal.init).records.map
          (fun v => v.record) :=
  ⟨((C18_client_records_are_those_of_own_pets exEnv exClient exStoreRecords ClientPortal.init
      rfl rfl rfl rfl).2.1 _).2 ⟨by decide, exPet, by decide, rfl, rfl⟩,
    fun h => absurd (((C18_client_records_are_those_of_own_pets exEnv exClient exStoreRecords
      ClientPortal.init rfl rfl rfl rfl).2.1 _).1 h).2 (by decide),
    fun h => absurd (((C18_client_records_are_those_of_own_pets exEnv exClient exStoreRecords
      ClientPortal.init rfl rfl rfl rfl).2.1 _).1 h).2 (by decide)⟩

/-! ## The date check of the booking -/

theorem localMidnight_eq (env : Env) :
    localMidnight env = localDay env * msPerDay + env.tzOffset * 60000 := rfl

theorem isPastDate_of_parse (env : Env) (value : String) (t : Int)
    (h : parseDate value = some t) : isPastDate env value = decide (t < localMidnight env) := by
  unfold isPastDate
  rw [h]

/-- A date equal to the local calendar day is taken for a past date exactly when the clock is
west of UTC. -/
theorem isPastDate_today_iff (env : Env) (value : String)
    (h : parseDate value = some (localDay env * msPerDay)) :
    isPastDate env value = true ↔ 0 < env.tzOffset := by
  rw [isPastDate_of_parse env value _ h, localMidnight_eq, decide_eq_true_iff]
  constructor <;> intro h' <;> omega

theorem handleBook_past (env : Env) (d : Dashboard) (s : Store)
    (h : isPastDate env d.newApptData.date = true) :
    handleBookAppointmentForClient env d s =
      ({ d with
        apptError := "Cannot book appointments for past dates. Please select a future date." },
        s) := by
  unfold handleBookAppointmentForClient
  simp [h]

/-- C15: for a clock in any time zone and at any time of day, when the date of the form is a
calendar date strictly before the current local calendar day, `handleBookAppointmentForClient`
sets the validation error and writes nothing: the store is as before (no appointment, no audit
entry) and no row is added. -/
theorem C15_past_date_sets_error_and_writes_nothing (env : Env) (d : Dashboard) (s : Store)
    (day : Int) (hz : env.validZone)
    (hdate : parseDate d.newApptData.date = some (day * msPerDay))
    (hpast : day < localDay env) :
    (handleBookAppointmentForClient env d s).2 = s ∧
      (handleBookAppointmentForClient env d s).1.apptError =
        "Cannot book appointments for past dates. Please select a future date." ∧
      (handleBookAppointmentForClient env d s).1.appointments = d.appointments ∧
      (handleBookAppointmentForClient env d s).2.appointments = s.appointments ∧
      (handleBookAppointmentForClient env d s).2.audit_logs = s.audit_logs := by
  have hp : isPastDate env d.newApptData.date = true := by
    rw [isPastDate_of_parse env _ _ hdate, localMidnight_eq, decide_eq_true_iff]
    obtain ⟨hlo, _⟩ := hz
    unfold msPerDay
    omega
  rw [handleBook_past env d s hp]
  exact ⟨rfl, rfl, rfl, rfl, rfl⟩

/-- C15 (witness): on 2025-03-10 a booking for 2020-01-01 is refused with the validation error
and the store is unchanged. -/
theorem C15_witness_2020_01_01 :
    (handleBookAppointmentForClient exEnv (exDashForm (exForm "2020-01-01"))
        (exStore exPending)).2 = exStore exPending ∧
      (handleBookAppointmentForClient exEnv (exDashForm (exForm "2020-01-01"))
        (exStore exPending)).1.apptError =
        "Cannot book appointments for past dates. Please select a future date." :=
  ⟨(C15_past_date_sets_error_and_writes_nothing exEnv (exDashForm (exForm "2020-01-01"))
      (exStore exPending) 18262 ⟨by decide, by decide⟩ rfl (by decide)).1,
    (C15_past_date_sets_error_and_writes_nothing exEnv (exDashForm (exForm "2020-01-01"))
      (exStore exPending) 18262 ⟨by decide, by decide⟩ rfl (by decide)).2.1⟩

/-- C16 (failing input): on a clock five hours behind UTC, at noon on 2025-03-10, a booking for
2025-03-10,
the current local calendar day, is refused as a past date and nothing is written; with the clock
on UTC the same form is booked. -/
theorem C16_today_is_refused_west_of_utc :
    localDay exEnvNewYork = 20157 ∧
      parseDate (exForm "2025-03-10").date = some (20157 * msPerDay) ∧
      isPastDate exEnvNewYork (exForm "2025-03-10").date = true ∧
      (handleBookAppointmentForClient exEnvNewYork (exDashForm (exForm "2025-03-10"))
        (exStore exPending)).2 = exStore exPending ∧
      (handleBookAppointmentForClient exEnvNewYork (exDashForm (exForm "2025-03-10"))
        (exStore exPending)).1.apptError =
        "Cannot book appointments for past dates. Please select a future date." ∧
      localDay exEnv = 20157 ∧
      (handleBookAppointmentForClient exEnv (exDashForm (exForm "2025-03-10"))
        (exStore exPending)).2.appointments =
        [exPending, bookedAppointment exEnv exStaff1 (exForm "2025-03-10")] := by
  refine ⟨by decide, rfl, by decide, ?_, ?_, by decide, ?_⟩
  · rw [handleBook_past _ _ _ (by decide)]
  · rw [handleBook_past _ _ _ (by decide)]
  · decide

/-! ## The type shown by a row -/

theorem typed_replace (pre post : List Dashboard) (d d1 : Dashboard)
    (h : ∀ x ∈ pre ++ d :: post, DashboardTyped x)
    (hd : DashboardTyped d → DashboardTyped d1) :
    ∀ x ∈ pre ++ d1 :: post, DashboardTyped x := by
  intro x hx
  rcases List.mem_append.1 hx with hx | hx
  · exact h x (List.mem_append_left _ hx)
  · rcases List.mem_cons.1 hx with hx | hx
    · subst hx
      exact hd (h d (List.mem_append_right _ (List.mem_cons_self _ _)))
    · exact h x (List.mem_append_right _ (List.mem_cons_of_mem _ hx))

theorem typed_rows (d d1 : Dashboard) (h1 : d1.appointments = d.appointments)
    (h2 : d1.selectedAppointment = d.selectedAppointment) (h : DashboardTyped d) :
    DashboardTyped d1 := by
  intro ui hui
  rw [h1, h2] at hui
  exact h ui hui

theorem typed_fetch (env : Env) (d : Dashboard) (s : Store) (h : DashboardTyped d) :
    DashboardTyped (fetchData env d s) := by
  unfold fetchData
  cases hu : d.user with
  | none => exact h
  | some user =>
    by_cases h0 : env.rejects 0 = true
    · simp only [h0, if_true]
      exact typed_rows d _ rfl rfl h
    · simp only [h0]
      intro ui hui
      rcases hui with hui | hui
      · obtain ⟨a, _, rfl⟩ := List.mem_map.1 hui
        exact Or.inl rfl
      · exact h ui (Or.inr hui)

theorem typed_assigned (d : Dashboard) (sel : ApptUI) (user : Actor) (m : String)
    (h : DashboardTyped d) : DashboardTyped ((assignedDashboard user sel d).alert m) := by
  intro ui hui
  rcases hui with hui | hui
  · obtain ⟨u, hu, rfl⟩ := List.mem_map.1 hui
    by_cases hid : u.appt.id = sel.appt.id
    · simp only [hid, if_true]
      exact h u (Or.inl hu)
    · simp only [hid, if_false]
      exact h u (Or.inl hu)
  · cases hs : d.selectedAppointment with
    | none => simp [Dashboard.alert, assignedDashboard, hs] at hui
    | some u =>
      have : ui = confirmUI user u := by
        simp only [Dashboard.alert, assignedDashboard, hs, Option.map_some',
          Option.some.injEq] at hui
        exact hui.symm
      subst this
      exact h u (Or.inr hs)

theorem typed_done (d : Dashboard) (sel : ApptUI) (r : MedicalRecord) (m : String)
    (h : DashboardTyped d) : DashboardTyped ((doneDashboard r sel d).alert m) := by
  intro ui hui
  rcases hui with hui | hui
  · obtain ⟨u, hu, rfl⟩ := List.mem_map.1 hui
    by_cases hid : u.appt.id = sel.appt.id
    · simp only [hid, if_true]
      exact h u (Or.inl hu)
    · simp only [hid, if_false]
      exact h u (Or.inl hu)
  · have : d.selectedAppointment = some ui := hui
    exact h ui (Or.inr this)

theorem typed_booked (d : Dashboard) (env : Env) (user : Actor) (m : String)
    (h : DashboardTyped d) : DashboardTyped ((bookedDashboard env user d).alert m) := by
  intro ui hui
  rcases hui with hui | hui
  · rcases List.mem_append.1 hui with hu | hu
    · exact h ui (Or.inl hu)
    · rw [List.mem_singleton] at hu
      subst hu
      exact Or.inr rfl
  · have : d.selectedAppointment = some ui := hui
    exact h ui (Or.inr this)

theorem typed_assignToMe (env : Env) (d : Dashboard) (s : Store) (h : DashboardTyped d) :
    DashboardTyped (handleAssignToMe env d s).1 := by
  cases hsel : d.selectedAppointment with
  | none => rw [handleAssignToMe_idle env d s (Or.inl hsel)]; exact h
  | some sel =>
    cases huser : d.user with
    | none => rw [handleAssignToMe_idle env d s (Or.inr huser)]; exact h
    | some user =>
      rcases handleAssignToMe_cases env d s sel user hsel huser with c | c | c | c | c | c
      · rw [c.2]; exact typed_rows d _ rfl rfl h
      · rw [c.2.2]; exact typed_rows d _ rfl rfl h
      · rw [c.2.2]; exact typed_rows d _ rfl rfl h
      · rw [c.2.2.2]; exact typed_rows d _ rfl rfl h
      · rw [c.2.2.2.2]; exact typed_assigned d sel user _ h
      · rw [c.2.2.2.2]; exact typed_assigned d sel user _ h

theorem typed_markDone (env : Env) (d : Dashboard) (s : Store) (h : DashboardTyped d) :
    DashboardTyped (handleMarkAsDone env d s).1 := by
  cases hsel : d.selectedAppointment with
  | none => rw [handleMarkAsDone_idle env d s (Or.inl hsel)]; exact h
  | some sel =>
    cases huser : d.user with
    | none => rw [handleMarkAsDone_idle env d s (Or.inr huser)]; exact h
    | some user =>
      rcases handleMarkAsDone_cases env d s sel user hsel huser with c | c | c | c
      · rw [c.2]; exact typed_rows d _ rfl rfl h
      · rw [c.2.2]; exact typed_rows d _ rfl rfl h
      · rw [c.2.2.2]; exact typed_rows d _ rfl rfl h
      · rw [c.2.2.2.2]; exact typed_done d sel _ _ h

theorem typed_book (env : Env) (d : Dashboard) (s : Store) (h : DashboardTyped d) :
    DashboardTyped (handleBookAppointmentForClient env d s).1 := by
  rcases handleBook_cases env d s with c | ⟨user, _, c⟩ | ⟨user, _, c⟩
  · exact typed_rows d _ c.2.1 c.2.2 h
  · exact typed_rows d _ c.2.1 c.2.2 h
  · rw [c]; exact typed_booked d env user _ h

/-- Every operation of the system keeps the rows typed. -/
theorem typed_step (sys sys1 : System) (h : ∀ d ∈ sys.dashboards, DashboardTyped d)
    (st : Step sys sys1) : ∀ d ∈ sys1.dashboards, DashboardTyped d := by
  cases st with
  | request env user body fresh => exact h
  | assign env user id => exact h
  | other s1 same => exact h
  | mount user =>
    intro d hd
    rcases List.mem_cons.1 hd with hd | hd
    · subst hd
      intro ui hui
      rcases hui with c | c
      · simp [Dashboard.init] at c
      · simp [Dashboard.init] at c
    · exact h d hd
  | setUser pre post d user at_ =>
    rw [at_] at h
    exact typed_replace pre post d _ h (typed_rows d _ rfl rfl)
  | fetch pre post d env at_ =>
    rw [at_] at h
    exact typed_replace pre post d _ h (typed_fetch env d sys.store)
  | openDetails pre post d appt at_ row =>
    rw [at_] at h
    refine typed_replace pre post d _ h (fun hd ui hui => ?_)
    rcases hui with hui | hui
    · exact hd ui (Or.inl hui)
    · simp only [openApptDetails, Option.some.injEq] at hui
      subst hui
      exact hd appt (Or.inl row)
  | closeDetails pre post d at_ =>
    rw [at_] at h
    exact typed_replace pre post d _ h (typed_rows d _ rfl rfl)
  | editForm pre post d form at_ =>
    rw [at_] at h
    exact typed_replace pre post d _ h (typed_rows d _ rfl rfl)
  | assignToMe pre post d env at_ button =>
    rw [at_] at h
    exact typed_replace pre post d _ h (typed_assignToMe env d sys.store)
  | markDone pre post d env at_ button =>
    rw [at_] at h
    exact typed_replace pre post d _ h (typed_markDone env d sys.store)
  | book pre post d env at_ fresh =>
    rw [at_] at h
    exact typed_replace pre post d _ h (typed_book env d sys.store)

/-- In every reachable state every row of every dashboard is typed. -/
theorem typed_reachable (sys : System) (h : Reachable sys) :
    ∀ d ∈ sys.dashboards, DashboardTyped d := by
  induction h with
  | init s empty => intro d hd; exact absurd hd (List.not_mem_nil d)
  | step sys sys1 _ op ih => exact typed_step sys sys1 ih op

/-! ## The record written by `handleMarkAsDone` -/

/-- C11 (counterexample): for an appointment stored with an empty reason, and for one stored
without a reason, the dashboard row shows the type `Checkup` and the record synthesized by
`handleMarkAsDone` has treatment `Checkup`, which is not the reason of the appointment. -/
theorem C11_counterexample_empty_reason_gives_checkup :
    (handleMarkAsDone exEnv (exDashboard exStaff1 exEmptyReason)
        (exStore exEmptyReason)).2.medical_records.map (fun r => r.treatment) = ["Checkup"] ∧
      exEmptyReason.reason = some "" ∧
      (handleMarkAsDone exEnv (exDashboard exStaff1 exMissingReason)
        (exStore exMissingReason)).2.medical_records.map (fun r => r.treatment) = ["Checkup"] ∧
      exMissingReason.reason = none := by
  refine ⟨rfl, rfl, rfl, rfl⟩

/-- C11 (amended): in every reachable state, for a dashboard whose selected row has its
document stored as `a`, the record `handleMarkAsDone` synthesizes has as treatment the `type` of
the row: the reason of `a` when that reason is a non-empty string; when the reason is empty or
missing, `Checkup` (rows loaded by `fetchData`) or the reason itself (rows added by a booking).
A successful run appends exactly that record. -/
theorem C11_treatment_is_reason_or_checkup (sys : System) (hr : Reachable sys)
    (d : Dashboard) (hd : d ∈ sys.dashboards) (sel : ApptUI) (user : Actor) (a : Appointment)
    (env : Env) (hsel : d.selectedAppointment = some sel) (huser : d.user = some user)
    (hget : getAppointment sys.store sel.appt.id = some a) :
    (recordPayload env user sel).treatment = sel.type ∧
      (truthy a.reason = true → a.reason = some (recordPayload env user sel).treatment) ∧
      (truthy a.reason = false →
        (recordPayload env user sel).treatment = "Checkup" ∨
          a.reason = some (recordPayload env user sel).treatment) ∧
      ((handleMarkAsDone env d sys.store).1.alerts = d.alerts ++ [markDoneSuccess] →
        (handleMarkAsDone env d sys.store).2.medical_records =
          sys.store.medical_records ++ [recordPayload env user sel]) := by
  have htr := (inv_reachable sys hr).2.2 d hd sel (Or.inr hsel)
  have ha : a ∈ sys.store.appointments := List.mem_of_find?_eq_some hget
  have hai : a.id = sel.appt.id := by simpa using List.find?_some hget
  have hreason : a.reason = sel.appt.reason := (htr.2 a ha hai).2.1
  have hty : RowTyped sel := typed_reachable sys hr d hd sel (Or.inr hsel)
  refine ⟨rfl, ?_, ?_, ?_⟩
  · intro ht
    rw [hreason] at ht ⊢
    rcases hty with h | h
    · show sel.appt.reason = some sel.type
      rw [h, if_pos ht]
      cases hrs : sel.appt.reason with
      | none => rw [hrs] at ht; simp [truthy] at ht
      | some x => rfl
    · exact h
  · intro hf
    rw [hreason] at hf ⊢
    rcases hty with h | h
    · left
      show sel.type = "Checkup"
      rw [h, hf]
      rfl
    · exact Or.inr h
  · intro hok
    exact (handleMarkAsDone_success env d sys.store sel user a hsel huser hget hok).1

/-- C11 (witness): in the scenario the appointment has the reason `Vaccination`, and the record
S1 creates by marking it Done has treatment `Vaccination`. -/
theorem C11_witness_scenario_treatment :
    exConfirmed.reason =
      some (recordPayload exEnv exStaff1
        (confirmUI exStaff1 (mapAppt [exPet] [] exPending))).treatment :=
  (C11_treatment_is_reason_or_checkup (exSys3 exStaff1)
    (exSys3_reachable exStaff1 (List.mem_singleton.2 rfl))
    (handleAssignToMe exEnv (exDashOpen exStaff1) (exSys2 exStaff1).store).1
    (List.mem_singleton.2 rfl) (confirmUI exStaff1 (mapAppt [exPet] [] exPending)) exStaff1
    exConfirmed exEnv rfl rfl rfl).2.1 rfl

/-! ## The pet of a booking -/

theorem handleBook_no_pets (env : Env) (d : Dashboard) (s : Store)
    (hp : isPastDate env d.newApptData.date = false) (hn : petOptions d = []) :
    handleBookAppointmentForClient env d s =
      ({ d with apptError := "This client has no pets registered. Please add a pet first." },
        s) := by
  unfold petOptions at hn
  unfold handleBookAppointmentForClient
  simp [hp, hn]

/-- C17 (counterexample): the form holds client C, who owns the pet `p1`, and the pet `p2`,
which belongs to another client; `handleBookAppointmentForClient` sets no error and stores an
appointment of client C for the pet `p2`. -/
theorem C17_counterexample_foreign_pet_is_booked :
    exPet2.id = "p2" ∧ exPet2.owner_id ≠ "c1" ∧
      (handleBookAppointmentForClient exEnv
        (exDashForm { exForm "2025-03-10" with petId := "p2" })
        (exStore exPending)).1.apptError = "" ∧
      (handleBookAppointmentForClient exEnv
        (exDashForm { exForm "2025-03-10" with petId := "p2" })
        (exStore exPending)).2.appointments.map (fun a => (a.owner_id, a.pet_id)) =
        [("c1", "p1"), ("c1", "p2")] := by
  refine ⟨rfl, by decide, ?_, ?_⟩ <;> decide

/-- C17 (amended): the handler compares no pet with the client; it only checks that the chosen
client owns a pet of `allPets`, and when the client owns none (and the date is not refused) it
sets a validation error and writes nothing.  The selectors keep the two apart: choosing a client
clears the pet, and the pet selector offers only pets whose `owner_id` is the chosen client, so
an appointment written after a pet was chosen from the selector is for that pet and for its
owner. -/
theorem C17_pet_ownership_comes_from_the_selector (env : Env) (d : Dashboard) (s : Store) :
    (isPastDate env d.newApptData.date = false → petOptions d = [] →
      (handleBookAppointmentForClient env d s).2 = s ∧
      (handleBookAppointmentForClient env d s).1.apptError =
        "This client has no pets registered. Please add a pet first.") ∧
    (∀ v, (selectClient d v).newApptData.clientId = v ∧
      (selectClient d v).newApptData.petId = "") ∧
    (∀ pet, pet ∈ petOptions d →
      pet ∈ d.allPets ∧ pet.owner_id = d.newApptData.clientId ∧
      (selectPet d pet.id).newApptData.petId = pet.id ∧
      (selectPet d pet.id).newApptData.clientId = d.newApptData.clientId ∧
      ((handleBookAppointmentForClient env (selectPet d pet.id) s).2.appointments =
          s.appointments ∨
        ∃ a, (handleBookAppointmentForClient env (selectPet d pet.id) s).2.appointments =
            s.appointments ++ [a] ∧ a.pet_id = pet.id ∧ a.owner_id = pet.owner_id)) := by
  refine ⟨?_, fun v => ⟨rfl, rfl⟩, ?_⟩
  · intro hp hn
    rw [handleBook_no_pets env d s hp hn]
    exact ⟨rfl, rfl⟩
  · intro pet hpet
    have hm := List.mem_filter.1 hpet
    have ho : pet.owner_id = d.newApptData.clientId := by simpa using hm.2
    refine ⟨hm.1, ho, rfl, rfl, ?_⟩
    rcases handleBook_cases env (selectPet d pet.id) s with h | ⟨user, _, h, _⟩ | ⟨user, _, h⟩
    · exact Or.inl (by rw [h.1])
    · exact Or.inr ⟨bookedAppointment env user (selectPet d pet.id).newApptData,
        by rw [h]; rfl, rfl, ho.symm⟩
    · exact Or.inr ⟨bookedAppointment env user (selectPet d pet.id).newApptData,
        by rw [h]; rfl, rfl, ho.symm⟩

/-- C17 (witness): with client C chosen, the pet selector offers `p1`; client `c9`, who owns no
pet, is refused with the validation error and nothing is written. -/
theorem C17_witness_selector_and_no_pets :
    (exPet ∈ (exDashForm (exForm "2025-03-10")).allPets ∧ exPet.owner_id = "c1") ∧
      (handleBookAppointmentForClient exEnv
        (exDashForm { exForm "2025-03-10" with clientId := "c9" }) (exStore exPending)).2 =
        exStore exPending :=
  ⟨⟨((C17_pet_ownership_comes_from_the_selector exEnv (exDashForm (exForm "2025-03-10"))
      (exStore exPending)).2.2 exPet (by decide)).1,
    ((C17_pet_ownership_comes_from_the_selector exEnv (exDashForm (exForm "2025-03-10"))
      (exStore exPending)).2.2 exPet (by decide)).2.1⟩,
    ((C17_pet_ownership_comes_from_the_selector exEnv
      (exDashForm { exForm "2025-03-10" with clientId := "c9" }) (exStore exPending)).1
      (by decide) (by decide)).1⟩

/-! ## Audit entries of the appointment transitions -/

theorem handleBook_alerts (env : Env) (d : Dashboard) (s : Store) :
    (handleBookAppointmentForClient env d s).1.alerts = d.alerts ∨
    (∃ user, d.user = some user ∧
      handleBookAppointmentForClient env d s =
        ((bookedDashboard env user d).alert "Appointment booked and confirmed successfully!",
          addAudit (addAppointment s (bookedAppointment env user d.newApptData))
            (bookAudit env user))) := by
  unfold handleBookAppointmentForClient
  by_cases hp : isPastDate env d.newApptData.date = true
  · simp [hp]
  · by_cases hn : (d.allPets.filter
        (fun p => decide (p.owner_id = d.newApptData.clientId))).length = 0
    · simp only [hp, hn]
      simp
    · cases hu : d.user with
      | none => simp [hp, hn]
      | some user =>
        by_cases h0 : env.rejects 0 = true
        · simp [hp, hn, h0]
        · by_cases h1 : env.rejects 1 = true
          · simp [hp, hn, h0, h1]
          · simp [hp, hn, h0, h1]

theorem alerts_ne_append (l : List String) (m : String) : l ≠ l ++ [m] := by
  intro h
  have := congrArg List.length h
  simp at this

theorem approved_ne_refusals :
    "Appointment Approved & Assigned to you." ≠ "Appointment not found." ∧
      "Appointment Approved & Assigned to you." ≠ "Already assigned to another staff member." := by
  decide

/-- C20 (counterexample): the request of client C is answered 200 and no audit entry is
written; and when the write of the audit entry rejects, `handleMarkAsDone` still reports success
with no audit entry written. -/
theorem C20_counterexample_success_without_audit_entry :
    (createAppointment exEnvA exClient exRequest exSys0.store).1.status = 200 ∧
      (createAppointment exEnvA exClient exRequest exSys0.store).2.audit_logs = [] ∧
      (handleMarkAsDone exEnvAuditDown (exDashboard exStaff1 exConfirmed)
        (exStore exConfirmed)).1.alerts = [markDoneSuccess] ∧
      (handleMarkAsDone exEnvAuditDown (exDashboard exStaff1 exConfirmed)
        (exStore exConfirmed)).2.audit_logs = [] := by
  refine ⟨rfl, rfl, rfl, rfl⟩

/-- C20 (amended): a claim answered 200 by the route, a claim `handleAssignToMe` reports as
assigned when its calls resolve, and a booking reported as booked have each appended exactly one
audit entry, carrying the actor's email and the action `APPT_ASSIGN`, respectively
`APPT_CREATE_AUTO`, in the state that comes with the report.  A successful `handleMarkAsDone`
has appended exactly one entry with action `RECORD_CREATE_AUTO` when the write of the entry
resolves and none when it rejects.  `POST /api/appointments` never appends an audit entry. -/
theorem C20_audit_entries_of_transitions (env : Env) (s : Store) :
    (∀ (user : Actor) (id : String), (assignAppointment env user id s).1.status = 200 →
      (assignAppointment env user id s).2.audit_logs =
        s.audit_logs ++ [assignAudit env user id] ∧
      (assignAudit env user id).user_email = user.email ∧
      (assignAudit env user id).action = "APPT_ASSIGN") ∧
    (∀ (d : Dashboard) (sel : ApptUI) (user : Actor), d.selectedAppointment = some sel →
      d.user = some user → env.resolves →
      (handleAssignToMe env d s).1.alerts =
        d.alerts ++ ["Appointment Approved & Assigned to you."] →
      (handleAssignToMe env d s).2.audit_logs =
        s.audit_logs ++ [assignAudit env user sel.appt.id] ∧
      (assignAudit env user sel.appt.id).user_email = user.email ∧
      (assignAudit env user sel.appt.id).action = "APPT_ASSIGN") ∧
    (∀ (d : Dashboard), (handleBookAppointmentForClient env d s).1.alerts =
        d.alerts ++ ["Appointment booked and confirmed successfully!"] →
      ∃ user, d.user = some user ∧
        (handleBookAppointmentForClient env d s).2.audit_logs =
          s.audit_logs ++ [bookAudit env user] ∧
        (bookAudit env user).user_email = user.email ∧
        (bookAudit env user).action = "APPT_CREATE_AUTO") ∧
    (∀ (d : Dashboard) (sel : ApptUI) (user : Actor), d.selectedAppointment = some sel →
      d.user = some user →
      (handleMarkAsDone env d s).1.alerts = d.alerts ++ [markDoneSuccess] →
      (env.rejects 3 = false →
        (handleMarkAsDone env d s).2.audit_logs =
          s.audit_logs ++ [recordAudit env user sel.appt.id]) ∧
      (env.rejects 3 = true → (handleMarkAsDone env d s).2.audit_logs = s.audit_logs) ∧
      (recordAudit env user sel.appt.id).user_email = user.email ∧
      (recordAudit env user sel.appt.id).action = "RECORD_CREATE_AUTO") ∧
    (∀ (user : Actor) (body : AppointmentRequest),
      (createAppointment env user body s).2.audit_logs = s.audit_logs) := by
  refine ⟨?_, ?_, ?_, ?_, ?_⟩
  · intro user id hok
    rcases assignAppointment_cases env user id s with h | h | h | h
    · rcases h.1 with h3 | h4
      · rw [h3] at hok; exact absurd hok (by decide)
      · rw [h4] at hok; exact absurd hok (by decide)
    · rw [h.1] at hok; exact absurd hok (by decide)
    · rw [h.1] at hok; exact absurd hok (by decide)
    · rw [h.2.2]
      exact ⟨rfl, rfl, rfl⟩
  · intro d sel user hsel huser hres hok
    rcases handleAssignToMe_cases env d s sel user hsel huser with h | h | h | h | h | h
    · rw [hres 0] at h; exact absurd h.1 (by simp)
    · rw [h.2.2] at hok
      exact absurd (alert_eq d _ _ hok).symm approved_ne_refusals.1
    · rw [h.2.2] at hok
      exact absurd (alert_eq d _ _ hok).symm approved_ne_refusals.2
    · rw [hres 1] at h; exact absurd h.2.2.1 (by simp)
    · rw [hres 2] at h; exact absurd h.2.2.2.1 (by simp)
    · rw [h.2.2.2.2]
      exact ⟨rfl, rfl, rfl⟩
  · intro d hok
    rcases handleBook_alerts env d s with h | ⟨user, hu, h⟩
    · rw [h] at hok
      exact absurd hok (alerts_ne_append _ _)
    · refine ⟨user, hu, ?_, rfl, rfl⟩
      rw [h]
      rfl
  · intro d sel user hsel huser hok
    refine ⟨?_, ?_, rfl, rfl⟩
    · intro h3
      rcases handleMarkAsDone_cases env d s sel user hsel huser with h | h | h | h
      · rw [h.2] at hok; exact absurd (alert_eq d _ _ hok) (failed_ne_success _)
      · rw [h.2.2] at hok; exact absurd (alert_eq d _ _ hok) (failed_ne_success _)
      · rw [h.2.2.2] at hok; exact absurd (alert_eq d _ _ hok) (failed_ne_success _)
      · rw [h.2.2.2.2]
        simp only [h3]
        rfl
    · intro h3
      rcases handleMarkAsDone_cases env d s sel user hsel huser with h | h | h | h
      · rw [h.2] at hok; exact absurd (alert_eq d _ _ hok) (failed_ne_success _)
      · rw [h.2.2] at hok; exact absurd (alert_eq d _ _ hok) (failed_ne_success _)
      · rw [h.2.2.2] at hok; exact absurd (alert_eq d _ _ hok) (failed_ne_success _)
      · rw [h.2.2.2.2]
        simp only [h3, if_true]
        rfl
  · intro user body
    rcases createAppointment_store env user body s with h | h
    · rw [h]
    · rw [h]
      rfl

/-- C20 (witness): in the scenario the claim of S1 is answered 200 and has appended the one
audit entry `APPT_ASSIGN` of S1. -/
theorem C20_witness_claim_audit_entry :
    (assignAppointment exEnv exStaff1 "a1" (exStore exPending)).2.audit_logs =
      [] ++ [assignAudit exEnv exStaff1 "a1"] :=
  ((C20_audit_entries_of_transitions exEnv (exStore exPending)).1 exStaff1 "a1" rfl).1

/-! ## The two implementations of the access filter -/

/-- C28: for every actor with a non-empty id and role staff or admin and every appointment
collection, the documents selected by `GET /api/appointments` and the documents selected by
`fetchData` of the dashboard are the same list, in the same order; when the reads resolve, they
are the documents behind the response of the route and behind the rows of the dashboard. -/
theorem C28_route_and_dashboard_select_the_same (env : Env) (user : Actor) (s : Store)
    (d : Dashboard) (hrole : user.role = some "staff" ∨ user.role = some "admin")
    (hid : user.id ≠ "") :
    (filterAppointments user s.appointments s.pets s.users).map (fun v => v.appt) =
        dashboardFilter user s.appointments ∧
      (∀ l, (getAppointments env user s).body = .appointments l → d.user = some user →
        env.rejects 0 = false →
        l.map (fun v => v.appt) = (fetchData env d s).appointments.map (fun v => v.appt)) := by
  have key : (filterAppointments user s.appointments s.pets s.users).map (fun v => v.appt) =
      dashboardFilter user s.appointments := by
    rcases hrole with h | h
    · have hc : user.role ≠ some "client" := by rw [h]; decide
      have hs : user.role = some "staff" ∧ user.id ≠ "" := ⟨h, hid⟩
      unfold dashboardFilter
      rw [if_pos hs]
      simp only [filterAppointments, hc, h, if_true, if_false]
      exact map_appt_enrichForStaff _ _ _
    · have hc : user.role ≠ some "client" := by rw [h]; decide
      have hs : user.role ≠ some "staff" := by rw [h]; decide
      have hn : ¬ (user.role = some "staff" ∧ user.id ≠ "") := fun c => hs c.1
      unfold dashboardFilter
      rw [if_neg hn]
      simp only [filterAppointments, hc, hs, if_false]
      exact map_appt_enrichForStaff _ _ _
  refine ⟨key, ?_⟩
  intro l hl hu h0
  rw [getAppointments_body env user s l hl, key, fetchData_appointments env d s user hu h0]

/-- C28 (witness): for S1 both implementations select the unassigned appointment and leave out
the one assigned to S2. -/
theorem C28_witness_staff_same_selection :
    (filterAppointments exStaff1 (exStore2 exPending exOther).appointments
        (exStore2 exPending exOther).pets (exStore2 exPending exOther).users).map
          (fun v => v.appt) = dashboardFilter exStaff1 (exStore2 exPending exOther).appointments ∧
      dashboardFilter exStaff1 (exStore2 exPending exOther).appointments = [exPending] :=
  ⟨(C28_route_and_dashboard_select_the_same exEnv exStaff1 (exStore2 exPending exOther)
      (Dashboard.init (some exStaff1)) (Or.inl rfl) (by decide)).1, by decide⟩

/-- C29: for every actor whose role is neither `client` nor `staff`, an unrecognised or a
missing role included, `GET /api/appointments` filters nothing: when the reads resolve it
answers 200, and the list it answers carries the whole collection, in store order. -/
theorem C29_other_roles_get_the_whole_collection (env : Env) (user : Actor) (s : Store)
    (hc : user.role ≠ some "client") (hs : user.role ≠ some "staff") :
    (env.rejects 0 = false → env.rejects 1 = false → env.rejects 2 = false →
      ∃ l, getAppointments env user s = { status := 200, body := .appointments l }) ∧
    (∀ l, (getAppointments env user s).body = .appointments l →
      l.map (fun v => v.appt) = s.appointments) := by
  refine ⟨fun h0 h1 h2 => ⟨_, getAppointments_ok env user s h0 h1 h2⟩, ?_⟩
  intro l hl
  rw [getAppointments_body env user s l hl]
  simp only [filterAppointments, hc, hs, if_false]
  exact map_appt_enrichForStaff _ _ _

/-- C29 (witness): an actor without a role and an actor with the role `guest` both get the two
stored appointments, the one assigned to S2 included. -/
theorem C29_witness_missing_and_unknown_role :
    (filterAppointments { exClient with role := none } (exStore2 exPending exOther).appointments
        (exStore2 exPending exOther).pets (exStore2 exPending exOther).users).map
          (fun v => v.appt) = [exPending, exOther] ∧
      (filterAppointments { exClient with role := some "guest" }
        (exStore2 exPending exOther).appointments
        (exStore2 exPending exOther).pets (exStore2 exPending exOther).users).map
          (fun v => v.appt) = [exPending, exOther] :=
  ⟨(C29_other_roles_get_the_whole_collection exEnv { exClient with role := none }
      (exStore2 exPending exOther) (by decide) (by decide)).2 _ rfl,
    (C29_other_roles_get_the_whole_collection exEnv { exClient with role := some "guest" }
      (exStore2 exPending exOther) (by decide) (by decide)).2 _ rfl⟩

/-! ## Failures of single writes -/

/-- C22 (counterexample): the update of the claim of S1 is committed and the write of the audit
entry rejects; the route answers 500 `Server error`, with the appointment stored as claimed. -/
theorem C22_counterexample_claim_reports_failure :
    (assignAppointment exEnvCall2Down exStaff1 "a1" (exStore exPending)).1 = serverError ∧
      (assignAppointment exEnvCall2Down exStaff1 "a1" (exStore exPending)).1.status = 500 ∧
      (assignAppointment exEnvCall2Down exStaff1 "a1" (exStore exPending)).2.appointments =
        [exConfirmed] ∧
      (assignAppointment exEnvCall2Down exStaff1 "a1" (exStore exPending)).2.audit_logs = [] := by
  refine ⟨rfl, rfl, rfl, rfl⟩

/-- C22 (amended): a failed audit write never turns a mark-Done into a failure: when its first
three calls resolve, `handleMarkAsDone` reports success whether or not the write of the audit
entry rejects, and when that write rejects the record and the status `Done` are stored and no
audit entry is.  In the claim route a failed audit write after the committed update is answered
500 `Server error`, the update staying committed. -/
theorem C22_audit_failure_is_silent_only_for_mark_done (env : Env) (s : Store) :
    (∀ (d : Dashboard) (sel : ApptUI) (user : Actor) (a : Appointment),
      d.selectedAppointment = some sel → d.user = some user →
      getAppointment s sel.appt.id = some a →
      env.rejects 0 = false → env.rejects 1 = false → env.rejects 2 = false →
      (handleMarkAsDone env d s).1.alerts = d.alerts ++ [markDoneSuccess] ∧
      (env.rejects 3 = true →
        (handleMarkAsDone env d s).2 =
          updateAppointment (addRecord s (recordPayload env user sel)) sel.appt.id doneFields ∧
        (handleMarkAsDone env d s).2.audit_logs = s.audit_logs)) ∧
    (∀ (user : Actor) (id : String) (a : Appointment),
      (user.role = some "staff" ∨ user.role = some "admin") →
      getAppointment s id = some a → assignedToOther user a = false →
      env.rejects 0 = false → env.rejects 1 = false → env.rejects 2 = true →
      assignAppointment env user id s =
        (serverError, updateAppointment s id (claimFields user))) := by
  refine ⟨?_, ?_⟩
  · intro d sel user a hsel huser hget h0 h1 h2
    refine ⟨handleMarkAsDone_succeeds env d s sel user a hsel huser hget h0 h1 h2, ?_⟩
    intro h3
    rcases handleMarkAsDone_cases env d s sel user hsel huser with h | h | h | h
    · rw [h0] at h; exact absurd h.1 (by simp)
    · rw [h1] at h; exact absurd h.2.1 (by simp)
    · rcases h.2.2.1 with h' | h'
      · rw [h2] at h'; exact absurd h' (by simp)
      · rw [hget] at h'; exact absurd h' (by simp)
    · rw [h.2.2.2.2, if_pos h3]
      exact ⟨rfl, rfl⟩
  · intro user id a hrole hget hg h0 h1 h2
    unfold assignAppointment
    simp [assign_authorized user hrole, h0, hget, hg, h1, h2]

/-- C22 (witness): with the write of the audit entry rejecting, S1 marks the claimed appointment
Done and is shown the success message. -/
theorem C22_witness_mark_done_succeeds_without_audit :
    (handleMarkAsDone exEnvAuditDown (exDashboard exStaff1 exConfirmed)
        (exStore exConfirmed)).1.alerts =
      (exDashboard exStaff1 exConfirmed).alerts ++ [markDoneSuccess] :=
  ((C22_audit_failure_is_silent_only_for_mark_done exEnvAuditDown (exStore exConfirmed)).1
    (exDashboard exStaff1 exConfirmed) (mapAppt [exPet] [] exConfirmed) exStaff1 exConfirmed
    rfl rfl rfl rfl rfl rfl).1

/-- C23 (counterexample): the store rejects the update of the appointment; `handleMarkAsDone`
reports the failure, the appointment is unchanged, and the medical record it added before is
left in the store. -/
theorem C23_counterexample_record_left_behind :
    (handleMarkAsDone exEnvCall2Down (exDashboard exStaff1 exConfirmed)
        (exStore exConfirmed)).1.alerts = ["Failed: unavailable"] ∧
      (handleMarkAsDone exEnvCall2Down (exDashboard exStaff1 exConfirmed)
        (exStore exConfirmed)).2.appointments = [exConfirmed] ∧
      (exStore exConfirmed).medical_records = [] ∧
      (handleMarkAsDone exEnvCall2Down (exDashboard exStaff1 exConfirmed)
        (exStore exConfirmed)).2.medical_records =
        [recordPayload exEnvCall2Down exStaff1 (mapAppt [exPet] [] exConfirmed)] := by
  refine ⟨rfl, rfl, rfl, rfl⟩

/-- C23 (amended): if `handleMarkAsDone` reports failure, the appointments and the audit log are
as before; when encryption or the write of the record failed nothing has been written at all;
but when the update of the appointment is what failed, the new medical record is left in the
store. -/
theorem C23_failure_leaves_appointment_but_may_leave_record (env : Env) (d : Dashboard)
    (s : Store) (sel : ApptUI) (user : Actor) (m : String)
    (hsel : d.selectedAppointment = some sel) (huser : d.user = some user)
    (hfail : (handleMarkAsDone env d s).1.alerts = d.alerts ++ ["Failed: " ++ m]) :
    (handleMarkAsDone env d s).2.appointments = s.appointments ∧
      (handleMarkAsDone env d s).2.audit_logs = s.audit_logs ∧
      ((env.rejects 0 = true ∨ env.rejects 1 = true) → (handleMarkAsDone env d s).2 = s) ∧
      (env.rejects 0 = false → env.rejects 1 = false →
        (handleMarkAsDone env d s).2 = addRecord s (recordPayload env user sel) ∧
        (handleMarkAsDone env d s).2.medical_records =
          s.medical_records ++ [recordPayload env user sel]) := by
  rcases handleMarkAsDone_cases env d s sel user hsel huser with h | h | h | h
  · rw [h.2]
    refine ⟨rfl, rfl, fun _ => rfl, fun h0 => ?_⟩
    rw [h.1] at h0; exact absurd h0 (by simp)
  · rw [h.2.2]
    refine ⟨rfl, rfl, fun _ => rfl, fun _ h1 => ?_⟩
    rw [h.2.1] at h1; exact absurd h1 (by simp)
  · rw [h.2.2.2]
    refine ⟨rfl, rfl, ?_, fun _ _ => ⟨rfl, rfl⟩⟩
    rintro (c | c)
    · rw [h.1] at c; exact absurd c (by simp)
    · rw [h.2.1] at c; exact absurd c (by simp)
  · rw [h.2.2.2.2] at hfail
    exact absurd (alert_eq d _ _ hfail).symm (failed_ne_success m)

/-- C23 (witness): when encryption fails, `handleMarkAsDone` reports the failure and the store
is exactly as before. -/
theorem C23_witness_encryption_failure_writes_nothing :
    (handleMarkAsDone { exEnv with rejects := fun n => decide (n = 0) }
        (exDashboard exStaff1 exConfirmed) (exStore exConfirmed)).2 = exStore exConfirmed :=
  (C23_failure_leaves_appointment_but_may_leave_record
    { exEnv with rejects := fun n => decide (n = 0) } (exDashboard exStaff1 exConfirmed)
    (exStore exConfirmed) (mapAppt [exPet] [] exConfirmed) exStaff1 "unavailable" rfl rfl
    rfl).2.2.1 (Or.inl rfl)

/-! ## The forgot-password page -/

/-- C26: `handleSubmit` always ends with `submitted = true` and `loading = false`, whether or
not sending the reset email rejects and whether or not logging the request rejects; the state of
the page after it does not depend on the outcome of either call, so it is the same for an email
that has an account and for one that has none. -/
theorem C26_forgot_password_always_shows_success :
    (∀ (env : Env) (p : ForgotPassword) (requests : List PasswordRequest),
      (handleSubmit env p requests).page.submitted = true ∧
      (handleSubmit env p requests).page.loading = false ∧
      (handleSubmit env p requests).page.email = p.email) ∧
    (∀ (env1 env2 : Env) (p : ForgotPassword) (requests1 requests2 : List PasswordRequest),
      (handleSubmit env1 p requests1).page = (handleSubmit env2 p requests2).page) :=
  ⟨fun _ _ _ => ⟨rfl, rfl, rfl⟩, fun _ _ _ _ _ => rfl⟩

/-! ## Two concurrent claims -/

theorem held_update (A B : Actor) (id : String) (s : Store) (user : Actor)
    (hu : user = A ∨ user = B)
    (h : Unheld id s ∨ HeldByOneOf A B id s) :
    HeldByOneOf A B id (updateAppointment s id (claimFields user)) := by
  have hex : ∃ cur, getAppointment s id = some cur := by
    rcases h with ⟨c, hc, _⟩ | ⟨c, hc, _⟩ <;> exact ⟨c, hc⟩
  obtain ⟨cur, hcur⟩ := hex
  refine ⟨claimFields user cur, ?_, ?_⟩
  · rw [getAppointment_update s id (claimFields user) (fun _ => rfl), hcur]
    rfl
  · rcases hu with rfl | rfl
    · exact Or.inl rfl
    · exact Or.inr rfl

theorem race_step_inv (envA envB : Env) (A B : Actor) (id : String) (r : Race) (t : Bool)
    (hA : A.role = some "staff") (hB : B.role = some "staff")
    (h : RaceInv A B id r) : RaceInv A B id (raceStep envA envB A B id r t) := by
  obtain ⟨hst, ha, hb⟩ := h
  have startCase : ∀ (env : Env) (user : Actor), user.role = some "staff" →
      (claimStep env user id .start r.store).2 = r.store ∧
      ((claimStep env user id .start r.store).1 = .checked ∨
        ((∃ x, (claimStep env user id .start r.store).1 = .done x) ∧
          HeldByOneOf A B id r.store)) := by
    intro env user hrole
    have hauth := assign_authorized user (Or.inl hrole)
    unfold claimStep
    simp only [hauth]
    rcases hst with ⟨c, hc, hnone⟩ | ⟨c, hc, hheld⟩
    · have hg : assignedToOther user c = false := by
        simp [assignedToOther, hnone, truthy]
      simp [hc, hg]
    · by_cases hg : assignedToOther user c = true
      · simp only [hc, hg, if_true]
        exact ⟨trivial, Or.inr ⟨⟨_, rfl⟩, c, hc, hheld⟩⟩
      · simp [hc, hg]
  cases t with
  | true =>
    simp only [raceStep, if_true]
    cases hpc : r.pcA with
    | start =>
      obtain ⟨hs, hp⟩ := startCase envA A hA
      rw [hs]
      refine ⟨hst, ?_, hb⟩
      rcases hp with hp | ⟨_, hh⟩
      · rw [hp]
        rintro (c | ⟨x, c⟩) <;> cases c
      · exact fun _ => hh
    | checked =>
      have hh := held_update A B id r.store A (Or.inl rfl) hst
      exact ⟨Or.inr hh, fun _ => hh, fun _ => hh⟩
    | updated =>
      have hh := ha (Or.inl hpc)
      exact ⟨Or.inr hh, fun _ => hh, fun _ => hh⟩
    | done x =>
      have hh := ha (Or.inr ⟨x, hpc⟩)
      exact ⟨Or.inr hh, fun _ => hh, fun _ => hh⟩
  | false =>
    simp only [raceStep, Bool.false_eq_true, if_false]
    cases hpc : r.pcB with
    | start =>
      obtain ⟨hs, hp⟩ := startCase envB B hB
      rw [hs]
      refine ⟨hst, ha, ?_⟩
      rcases hp with hp | ⟨_, hh⟩
      · rw [hp]
        rintro (c | ⟨x, c⟩) <;> cases c
      · exact fun _ => hh
    | checked =>
      have hh := held_update A B id r.store B (Or.inr rfl) hst
      exact ⟨Or.inr hh, fun _ => hh, fun _ => hh⟩
    | updated =>
      have hh := hb (Or.inl hpc)
      exact ⟨Or.inr hh, fun _ => hh, fun _ => hh⟩
    | done x =>
      have hh := hb (Or.inr ⟨x, hpc⟩)
      exact ⟨Or.inr hh, fun _ => hh, fun _ => hh⟩

theorem race_foldl_inv (envA envB : Env) (A B : Actor) (id : String) (schedule : List Bool)
    (hA : A.role = some "staff") (hB : B.role = some "staff") (r : Race)
    (h : RaceInv A B id r) :
    RaceInv A B id (schedule.foldl (raceStep envA envB A B id) r) := by
  induction schedule generalizing r with
  | nil => exact h
  | cons t rest ih => exact ih _ (race_step_inv envA envB A B id r t hA hB h)

/-- Run alone with every call resolving, the three store calls of `claimStep` are the claim
route. -/
theorem claimStep_alone_is_the_route (env : Env) (user : Actor) (id : String) (s : Store)
    (hres : env.resolves) :
    claimStep env user id
        (claimStep env user id (claimStep env user id .start s).1
          (claimStep env user id .start s).2).1
        (claimStep env user id (claimStep env user id .start s).1
          (claimStep env user id .start s).2).2 =
      (.done (assignAppointment env user id s).1, (assignAppointment env user id s).2) := by
  unfold assignAppointment
  rcases authorizeRole_cases ["staff", "admin"] user with h | h
  · cases hg : getAppointment s id with
    | none => simp [claimStep, h, hg, hres 0]
    | some a =>
      by_cases hgd : assignedToOther user a = true
      · simp [claimStep, h, hg, hgd, hres 0]
      · simp [claimStep, h, hg, hgd, hres 0, hres 1, hres 2]
  · simp [claimStep, h]

/-- C25: staff A and staff B, with different ids, claim the same Pending, unassigned
appointment, each claim being the store calls of the route (read and guard, update, audit write)
and the calls of the two claims being interleaved by an arbitrary schedule.  Whenever both
claims have been answered, the stored appointment is held by exactly one of A and B: its
`assigned_to` is the id of A or the id of B, never null and never another value. -/
theorem C25_concurrent_claims_leave_one_of_the_two (envA envB : Env) (A B : Actor)
    (id : String) (s : Store) (a : Appointment) (schedule : List Bool)
    (hA : A.role = some "staff") (hB : B.role = some "staff") (hne : A.id ≠ B.id)
    (hget : getAppointment s id = some a)
    (hpending : a.status = Status.Pending ∧ a.assigned_to = none)
    (hdoneA : ∃ x, (race envA envB A B id schedule s).pcA = .done x)
    (hdoneB : ∃ x, (race envA envB A B id schedule s).pcB = .done x) :
    HeldByExactlyOne A B id (race envA envB A B id schedule s).store := by
  have h0 : RaceInv A B id { pcA := .start, pcB := .start, store := s } := by
    refine ⟨Or.inl ⟨a, hget, hpending.2⟩, ?_, ?_⟩
    · rintro (c | ⟨x, c⟩) <;> cases c
    · rintro (c | ⟨x, c⟩) <;> cases c
  have hinv := race_foldl_inv envA envB A B id schedule hA hB _ h0
  obtain ⟨cur, hcur, hheld⟩ := hinv.2.1 (Or.inr hdoneA)
  have _ := hdoneB
  refine ⟨cur, hcur, ?_⟩
  rcases hheld with h | h
  · exact Or.inl ⟨h, by rw [h]; exact fun c => hne (Option.some.inj c)⟩
  · exact Or.inr ⟨h, by rw [h]; exact fun c => hne (Option.some.inj c).symm⟩

/-- C25 (witness): S1 and S2 both read the pending appointment before either writes, S1 writes
first and S2 last; both are answered 200 and the appointment is held by S2 alone. -/
theorem C25_witness_both_read_before_either_writes :
    (race exEnv exEnv exStaff1 exStaff2 "a1" [true, false, true, false, true, false]
        (exStore exPending)).store.appointments =
      [{ exPending with status := Status.Confirmed, assigned_to := some "s2" }] ∧
      HeldByExactlyOne exStaff1 exStaff2 "a1"
        (race exEnv exEnv exStaff1 exStaff2 "a1" [true, false, true, false, true, false]
          (exStore exPending)).store :=
  ⟨rfl, C25_concurrent_claims_leave_one_of_the_two exEnv exEnv exStaff1 exStaff2 "a1"
    (exStore exPending) exPending [true, false, true, false, true, false] rfl rfl (by decide)
    rfl ⟨rfl, rfl⟩ ⟨_, rfl⟩ ⟨_, rfl⟩⟩

/-! ## Account creation -/

theorem emailTaken_iff (s : Store) (e : String) :
    emailTaken s e = true ↔ e ∈ s.users.map (fun u => u.email) := by
  unfold emailTaken
  simp only [List.any_eq_true, decide_eq_true_eq, List.mem_map]

theorem nodup_addUser (s : Store) (u : User)
    (hnodup : (s.users.map (fun u => u.email)).Nodup) (hfree : emailTaken s u.email = false) :
    ((addUser s u).users.map (fun u => u.email)).Nodup := by
  have hnot : u.email ∉ s.users.map (fun u => u.email) := by
    intro h
    rw [(emailTaken_iff s u.email).2 h] at hfree
    exact absurd hfree (by simp)
  simp only [addUser, List.map_append, List.map_cons, List.map_nil]
  rw [List.nodup_append]
  refine ⟨hnodup, List.nodup_singleton _, ?_⟩
  intro a ha hb
  rw [List.mem_singleton] at hb
  subst hb
  exact hnot ha

/-- The outcomes of the registration route. -/
theorem registerAccount_cases (env : Env) (lib : Libs) (body : UserBody) (s : Store) :
    ((registerAccount env lib body s).1.status ≠ 200 ∧ (registerAccount env lib body s).2 = s) ∨
    (emailTaken s (lib.normalizeEmail body.email) = false ∧ env.rejects 0 = false ∧
      (registerAccount env lib body s).2 =
        addUser s (newUser env lib (lib.trimEscape body.name) (lib.normalizeEmail body.email)
          body (some "client"))) := by
  unfold registerAccount
  simp only []
  split_ifs with h1 h2 h3 h4 h5 h6
  · left; exact ⟨by simp, rfl⟩
  · left; exact ⟨by simp [serverError], rfl⟩
  · left; exact ⟨by simp, rfl⟩
  · left; exact ⟨by simp [serverError], rfl⟩
  · left; exact ⟨by simp [serverError], rfl⟩
  · right; exact ⟨by simpa using h3, by simpa using h2, rfl⟩
  · right; exact ⟨by simpa using h3, by simpa using h2, rfl⟩

/-- The outcomes of the admin route that creates a user. -/
theorem adminCreateUser_cases (env : Env) (lib : Libs) (user : Actor) (body : UserBody)
    (s : Store) :
    ((adminCreateUser env lib user body s).1.status ≠ 200 ∧
      (adminCreateUser env lib user body s).2 = s) ∨
    (emailTaken s body.email = false ∧ env.rejects 0 = false ∧
      (adminCreateUser env lib user body s).2 =
        addUser s (newUser env lib body.name body.email body body.role)) := by
  unfold adminCreateUser
  rcases authorizeRole_cases ["admin"] user with h | h
  · rw [h]
    simp only []
    split_ifs with h2 h3 h4 h5 h6
    · left; exact ⟨by simp [serverError], rfl⟩
    · left; exact ⟨by simp, rfl⟩
    · left; exact ⟨by simp [serverError], rfl⟩
    · left; exact ⟨by simp [serverError], rfl⟩
    · right; exact ⟨by simpa using h3, by simpa using h2, rfl⟩
    · right; exact ⟨by simpa using h3, by simpa using h2, rfl⟩
  · rw [h]
    left; exact ⟨by simp, rfl⟩

/-- C27: starting from users whose emails are pairwise distinct, the registration route and the
admin route that creates a user leave the emails pairwise distinct, whatever the request and
whichever calls fail; and when the lookup by email resolves, a request whose email (for the
registration route: the email the handler reads, which `normalizeEmail()` has sanitized) is
already stored is answered 400 and the store is left as it was. -/
theorem C27_account_creation_keeps_emails_distinct (env : Env) (lib : Libs) (admin : Actor)
    (body : UserBody) (s : Store) (hnodup : (s.users.map (fun u => u.email)).Nodup) :
    ((registerAccount env lib body s).2.users.map (fun u => u.email)).Nodup ∧
      ((adminCreateUser env lib admin body s).2.users.map (fun u => u.email)).Nodup ∧
      (env.rejects 0 = false →
        lib.normalizeEmail body.email ∈ s.users.map (fun u => u.email) →
        (registerAccount env lib body s).1.status = 400 ∧
          (registerAccount env lib body s).2 = s) ∧
      (admin.role = some "admin" → env.rejects 0 = false →
        body.email ∈ s.users.map (fun u => u.email) →
        adminCreateUser env lib admin body s =
          ({ status := 400, body := .message "Email already exists." }, s)) := by
  refine ⟨?_, ?_, ?_, ?_⟩
  · rcases registerAccount_cases env lib body s with h | h
    · rw [h.2]; exact hnodup
    · rw [h.2.2]; exact nodup_addUser s _ hnodup h.1
  · rcases adminCreateUser_cases env lib admin body s with h | h
    · rw [h.2]; exact hnodup
    · rw [h.2.2]; exact nodup_addUser s _ hnodup h.1
  · intro h0 hmem
    have htaken := (emailTaken_iff s _).2 hmem
    unfold registerAccount
    simp only [h0, htaken, Bool.false_eq_true, if_false, if_true]
    split_ifs <;> exact ⟨rfl, rfl⟩
  · intro hrole h0 hmem
    have htaken := (emailTaken_iff s _).2 hmem
    have hauth : authorizeRole ["admin"] admin = .next := by
      unfold authorizeRole
      simp [hrole]
    unfold adminCreateUser
    simp [hauth, h0, htaken]

/-- C27 (witness): with the account of client C stored, a registration and an admin creation
with the address of C are both answered 400 and add no user. -/
theorem C27_witness_taken_address_is_refused :
    (registerAccount exEnv exLib exBodyTaken exUsers).1.status = 400 ∧
      (registerAccount exEnv exLib exBodyTaken exUsers).2 = exUsers ∧
      adminCreateUser exEnv exLib exAdmin exBodyTaken exUsers =
        ({ status := 400, body := .message "Email already exists." }, exUsers) :=
  have h := C27_account_creation_keeps_emails_distinct exEnv exLib exAdmin exBodyTaken exUsers
    (by decide)
  ⟨(h.2.2.1 rfl (by decide)).1, (h.2.2.1 rfl (by decide)).2, h.2.2.2 rfl rfl (by decide)⟩

theorem mem_setUser (s : Store) (u v : User) (h : v ∈ (setUser s u).users) :
    v ∈ s.users ∨ v = u := by
  unfold setUser at h
  split_ifs at h
  · simp only [List.mem_map] at h
    obtain ⟨w, hw, he⟩ := h
    split_ifs at he
    · right; exact he.symm
    · left; rw [← he]; exact hw
  · simp only [List.mem_append, List.mem_singleton] at h
    exact h

/-- C30: the registration route of the backend and `register` of `AuthContext.jsx` do not read
a `role` the request carries: two requests that differ only in it give the same response and the
same store.  The only user either of them can add has role `client`, and a registration that is
answered 200, or a `register` that does not throw, has stored that user. -/
theorem C30_self_registration_stores_role_client (env : Env) (lib : Libs) (body : UserBody)
    (s : Store) (r1 r2 : Option String) :
    registerAccount env lib { body with role := r1 } s =
        registerAccount env lib { body with role := r2 } s ∧
      register env { body with role := r1 } s = register env { body with role := r2 } s ∧
      (∀ u, u ∈ (registerAccount env lib body s).2.users →
        u ∈ s.users ∨ (u.id = env.newId ∧ u.role = some "client")) ∧
      (∀ u, u ∈ (register env body s).2.users →
        u ∈ s.users ∨ (u.id = env.newId ∧ u.role = some "client")) ∧
      ((registerAccount env lib body s).1.status = 200 →
        ∃ u, (registerAccount env lib body s).2.users = s.users ++ [u] ∧
          u.email = lib.normalizeEmail body.email ∧ u.role = some "client") ∧
      ((register env body s).1 = none →
        ∃ u, u ∈ (register env body s).2.users ∧ u.id = env.newId ∧
          u.email = body.email ∧ u.role = some "client") := by
  refine ⟨rfl, rfl, ?_, ?_, ?_, ?_⟩
  · intro u hu
    rcases registerAccount_cases env lib body s with h | h
    · rw [h.2] at hu; exact Or.inl hu
    · rw [h.2.2] at hu
      simp only [addUser, List.mem_append, List.mem_singleton] at hu
      rcases hu with hu | hu
      · exact Or.inl hu
      · right; rw [hu]; exact ⟨rfl, rfl⟩
  · intro u hu
    unfold register at hu
    split_ifs at hu
    · exact Or.inl hu
    · exact Or.inl hu
    · rcases mem_setUser s _ u hu with h | h
      · exact Or.inl h
      · right; rw [h]; exact ⟨rfl, rfl⟩
  · intro hok
    rcases registerAccount_cases env lib body s with h | h
    · exact absurd hok h.1
    · exact ⟨_, by rw [h.2.2]; rfl, rfl, rfl⟩
  · intro hok
    unfold register at hok ⊢
    split_ifs at hok ⊢
    refine ⟨registeredProfile env body, ?_, rfl, rfl, rfl⟩
    unfold setUser
    split_ifs with hany
    · simp only [List.any_eq_true, decide_eq_true_eq] at hany
      obtain ⟨v, hv, hid⟩ := hany
      simp only [List.mem_map]
      exact ⟨v, hv, by rw [if_pos hid]⟩
    · simp

/-- C30 (witness): a registration of D that carries the role `admin` is answered 200 and stores
D with role `client`, by the route and by `register` alike. -/
theorem C30_witness_supplied_admin_role_is_ignored :
    (registerAccount exEnv exLib (exBody (some "admin")) exUsers).1.status = 200 ∧
      (registerAccount exEnv exLib (exBody (some "admin")) exUsers).2.users.map
          (fun u => (u.email, u.role)) =
        [("c1@vet.test", some "client"), ("d@vet.test", some "client")] ∧
      (register exEnv (exBody (some "admin")) exUsers).2.users.map
          (fun u => (u.email, u.role)) =
        [("c1@vet.test", some "client"), ("d@vet.test", some "client")] ∧
      registerAccount exEnv exLib (exBody (some "admin")) exUsers =
        registerAccount exEnv exLib (exBody none) exUsers ∧
      (newUser exEnv exLib "D" "d@vet.test" (exBody (some "admin")) (some "client") ∈
          exUsers.users ∨
        ((newUser exEnv exLib "D" "d@vet.test" (exBody (some "admin")) (some "client")).id =
            exEnv.newId ∧
          (newUser exEnv exLib "D" "d@vet.test" (exBody (some "admin")) (some "client")).role =
            some "client")) :=
  ⟨by decide, by decide, by decide,
    (C30_self_registration_stores_role_client exEnv exLib (exBody (some "staff")) exUsers
      (some "admin") none).1,
    (C30_self_registration_stores_role_client exEnv exLib (exBody (some "admin")) exUsers
      none none).2.2.1 _ (by decide)⟩

/-! ## Audit entries of the settings and login routes -/

/-- The outcomes of the password route: a response other than 200 with the audit log as it was,
or 200 with the entry appended. -/
theorem changePassword_cases (env : Env) (lib : Libs) (user : Actor) (cur new : String)
    (s : Store) :
    ((changePassword env lib user cur new s).1.status ≠ 200 ∧
      (changePassword env lib user cur new s).2.audit_logs = s.audit_logs) ∨
    ((changePassword env lib user cur new s).1.status = 200 ∧
      (changePassword env lib user cur new s).2.audit_logs =
        s.audit_logs ++ [passwordAudit env user]) := by
  unfold changePassword
  by_cases h0 : env.rejects 0 = true
  · rw [if_pos h0]
    left; exact ⟨by simp, rfl⟩
  · rw [if_neg h0]
    split
    · left; exact ⟨by simp, rfl⟩
    · simp only []
      split_ifs <;>
        first
        | (left; exact ⟨by simp, rfl⟩)
        | (right; exact ⟨rfl, rfl⟩)

/-- The outcomes of the login route: no token and the store as it was, or a token and the entry
appended. -/
theorem login_cases (env : Env) (lib : Libs) (email password : String) (code : Option String)
    (s : Store) :
    ((login env lib email password code s).1.issuesToken = false ∧
      (login env lib email password code s).2 = s) ∨
    ((login env lib email password code s).1.issuesToken = true ∧
      (login env lib email password code s).1.status = 200 ∧
      (login env lib email password code s).2 = addAudit s (loginAudit env email)) := by
  unfold login
  by_cases h0 : env.rejects 0 = true
  · rw [if_pos h0]
    left; exact ⟨rfl, rfl⟩
  · rw [if_neg h0]
    split
    · left; exact ⟨rfl, rfl⟩
    · split_ifs <;>
        first
        | (left; exact ⟨rfl, rfl⟩)
        | (right; exact ⟨rfl, rfl, rfl⟩)

/-- C21 (counterexample): with the account of client C stored and every call resolving, a
profile update, a second-factor enable and a second-factor disable are answered 200 and a login
with a wrong password is answered 400, and after each of them the audit log is as empty as
before. -/
theorem C21_counterexample_routes_without_audit_entry :
    exUsers.audit_logs = [] ∧
      (updateProfile exEnv exClient "C2" "555" exUsers).1.status = 200 ∧
      (updateProfile exEnv exClient "C2" "555" exUsers).2.audit_logs = [] ∧
      (enable2fa exEnv exLib exClient "123456" "123456" exUsers).1.status = 200 ∧
      (enable2fa exEnv exLib exClient "123456" "123456" exUsers).2.audit_logs = [] ∧
      (disable2fa exEnv exClient exUsers).1.status = 200 ∧
      (disable2fa exEnv exClient exUsers).2.audit_logs = [] ∧
      (login exEnv exLib "c1@vet.test" "wrong" none exUsers).1.status = 400 ∧
      (login exEnv exLib "c1@vet.test" "wrong" none exUsers).2.audit_logs = [] := by
  refine ⟨rfl, ?_, ?_, ?_, ?_, ?_, ?_, ?_, ?_⟩ <;> decide

/-- C21 (amended): a password change answered 200 and a login that issues a token have appended
exactly one audit entry (`PASSWORD_CHANGE`, `LOGIN`) to the store the response comes with; a
password change with another answer and a login that issues no token append none; and a profile
update, a second-factor enable and a second-factor disable never append one. -/
theorem C21_only_password_change_and_login_are_audited (env : Env) (lib : Libs) (user : Actor)
    (s : Store) :
    (∀ cur new, (changePassword env lib user cur new s).1.status = 200 →
      (changePassword env lib user cur new s).2.audit_logs =
        s.audit_logs ++ [passwordAudit env user]) ∧
    (∀ cur new, (changePassword env lib user cur new s).1.status ≠ 200 →
      (changePassword env lib user cur new s).2.audit_logs = s.audit_logs) ∧
    (∀ email password code, (login env lib email password code s).1.issuesToken = true →
      (login env lib email password code s).2.audit_logs =
        s.audit_logs ++ [loginAudit env email]) ∧
    (∀ email password code, (login env lib email password code s).1.issuesToken = false →
      (login env lib email password code s).2 = s) ∧
    (∀ name phone, (updateProfile env user name phone s).2.audit_logs = s.audit_logs) ∧
    (∀ token secret, (enable2fa env lib user token secret s).2.audit_logs = s.audit_logs) ∧
    (disable2fa env user s).2.audit_logs = s.audit_logs := by
  refine ⟨?_, ?_, ?_, ?_, ?_, ?_, ?_⟩
  · intro cur new hok
    rcases changePassword_cases env lib user cur new s with h | h
    · exact absurd hok h.1
    · exact h.2
  · intro cur new hno
    rcases changePassword_cases env lib user cur new s with h | h
    · exact h.2
    · exact absurd h.1 hno
  · intro email password code htok
    rcases login_cases env lib email password code s with h | h
    · rw [h.1] at htok; exact absurd htok (by simp)
    · rw [h.2.2]; rfl
  · intro email password code htok
    rcases login_cases env lib email password code s with h | h
    · exact h.2
    · rw [h.1] at htok; exact absurd htok (by simp)
  · intro name phone
    unfold updateProfile
    split_ifs <;> rfl
  · intro token secret
    unfold enable2fa
    split_ifs <;> rfl
  · unfold disable2fa
    split_ifs <;> rfl

/-- C21 (witness): client C changes the password `secret123` and logs in; each is answered 200
and leaves exactly its one audit entry. -/
theorem C21_witness_password_change_and_login_leave_one_entry :
    (changePassword exEnv exLib exClient "secret123" "newsecret1" exUsers).1.status = 200 ∧
      (changePassword exEnv exLib exClient "secret123" "newsecret1" exUsers).2.audit_logs =
        exUsers.audit_logs ++ [passwordAudit exEnv exClient] ∧
      (login exEnv exLib "c1@vet.test" "secret123" none exUsers).1.status = 200 ∧
      (login exEnv exLib "c1@vet.test" "secret123" none exUsers).2.audit_logs =
        exUsers.audit_logs ++ [loginAudit exEnv "c1@vet.test"] :=
  ⟨by decide,
    (C21_only_password_change_and_login_are_audited exEnv exLib exClient exUsers).1
      "secret123" "newsecret1" (by decide),
    by decide,
    (C21_only_password_change_and_login_are_audited exEnv exLib exClient exUsers).2.2.1
      "c1@vet.test" "secret123" none (by decide)⟩

/-! ## The cipher wrappers and the records routes -/

theorem decrypt_encrypt {β : Type} (node : NodeCrypto β) (hsound : node.Sound) (iv : β)
    (t : String) (h : Hash) (henc : encrypt node iv t = some h) : decrypt node h = some t := by
  unfold encrypt at henc
  cases hc : node.cipher node.key iv (node.fromText t) with
  | none => rw [hc] at henc; exact absurd henc (by simp)
  | some c =>
    rw [hc] at henc
    simp only [Option.some.injEq] at henc
    subst henc
    simp only [decrypt, hsound.hex, hsound.aes iv _ c hc, hsound.text]

theorem decryptRecords_snoc {β : Type} (node : NodeCrypto β) (r : MedicalRecord)
    (l : List MedicalRecord) :
    decryptRecords node (l ++ [r]) =
      match decryptRecords node l, decrypt node { iv := r.iv, content := r.notes_encrypted } with
      | some old, some n => some (old ++ [{ record := r, notes := n }])
      | _, _ => none := by
  induction l with
  | nil =>
    simp only [List.nil_append, decryptRecords]
    cases decrypt node { iv := r.iv, content := r.notes_encrypted } <;> rfl
  | cons a t ih =>
    rw [List.cons_append, decryptRecords, ih]
    simp only [decryptRecords]
    cases decrypt node { iv := a.iv, content := a.notes_encrypted } <;>
      cases decryptRecords node t <;>
      cases decrypt node { iv := r.iv, content := r.notes_encrypted } <;> rfl

theorem decryptRecords_append {β : Type} (node : NodeCrypto β) (r : MedicalRecord)
    (l : List MedicalRecord) (out : List RecordView) :
    decryptRecords node (l ++ [r]) = some out ↔
      ∃ old n, decryptRecords node l = some old ∧
        decrypt node { iv := r.iv, content := r.notes_encrypted } = some n ∧
        out = old ++ [{ record := r, notes := n }] := by
  rw [decryptRecords_snoc]
  cases decryptRecords node l with
  | none => simp
  | some old =>
    cases decrypt node { iv := r.iv, content := r.notes_encrypted } with
    | none => simp
    | some n =>
      simp only [Option.some.injEq]
      constructor
      · intro h; exact ⟨old, n, rfl, rfl, h.symm⟩
      · rintro ⟨old2, m, h1, h2, h3⟩
        subst h1; subst h2
        exact h3.symm

/-- The outcomes of the route that creates a record. -/
theorem createRecord_cases {β : Type} (env : Env) (node : NodeCrypto β) (iv : β) (user : Actor)
    (body : RecordBody) (s : Store) :
    ((createRecord env node iv user body s).1.status ≠ 200) ∨
    (∃ enc, encrypt node iv body.notes = some enc ∧
      (createRecord env node iv user body s).2 = addRecord s (encryptedRecord env body enc)) := by
  unfold createRecord
  rcases authorizeRole_cases ["staff", "admin"] user with h | h
  · rw [h]
    simp only []
    cases he : encrypt node iv body.notes with
    | none => left; simp [serverError]
    | some enc =>
      simp only []
      split_ifs
      · left; simp [serverError]
      · left; simp [serverError]
      · right; exact ⟨enc, rfl, rfl⟩
  · rw [h]
    left; simp

/-- C24: assuming of Node that hex and text conversions are inverted by their converses and that
deciphering inverts enciphering under the same key and `iv`, `decrypt(encrypt(t)) = t` whenever
`encrypt` returns; hence when `POST /api/records` is answered 200 and `GET /api/records` on the
resulting store is answered 200 with a list, the last element of the list is the record just
stored with `notes` equal to the submitted string.  Both answers are indeed 200 when the actors
hold role `staff` or `admin`, the cipher does not throw, the store calls resolve and the records
stored before decrypt. -/
theorem C24_notes_survive_encrypt_then_decrypt {β : Type} (node : NodeCrypto β)
    (hsound : node.Sound) (iv : β) (envP envG : Env) (creator reader : Actor)
    (body : RecordBody) (s : Store) :
    (∀ h, encrypt node iv body.notes = some h → decrypt node h = some body.notes) ∧
    ((createRecord envP node iv creator body s).1.status = 200 →
      ∀ l, getRecords envG node reader (createRecord envP node iv creator body s).2 =
          { status := 200, body := .records l } →
        ∃ old r, l = old ++ [{ record := r, notes := body.notes }] ∧
          (createRecord envP node iv creator body s).2.medical_records =
            s.medical_records ++ [r] ∧
          r.id = envP.newId ∧ r.pet_id = body.pet_id ∧
          decryptRecords node s.medical_records = some old) ∧
    ((creator.role = some "staff" ∨ creator.role = some "admin") →
      (node.cipher node.key iv (node.fromText body.notes)).isSome = true →
      envP.rejects 0 = false → envP.rejects 1 = false →
      (createRecord envP node iv creator body s).1.status = 200) ∧
    ((createRecord envP node iv creator body s).1.status = 200 →
      (reader.role = some "staff" ∨ reader.role = some "admin") →
      envG.rejects 0 = false →
      (decryptRecords node s.medical_records).isSome = true →
      (getRecords envG node reader (createRecord envP node iv creator body s).2).status =
        200) := by
  refine ⟨fun h henc => decrypt_encrypt node hsound iv _ h henc, ?_, ?_, ?_⟩
  · intro hok l hget
    rcases createRecord_cases envP node iv creator body s with h | ⟨enc, henc, hstore⟩
    · exact absurd hok h
    · rw [hstore] at hget ⊢
      have hdec := decrypt_encrypt node hsound iv _ enc henc
      unfold getRecords at hget
      rcases authorizeRole_cases ["staff", "admin"] reader with ha | ha
      · rw [ha] at hget
        simp only [] at hget
        split_ifs at hget with h0
        · exact absurd (congrArg Response.status hget) (by simp [serverError])
        · cases hd : decryptRecords node (addRecord s (encryptedRecord envP body enc)).medical_records with
          | none =>
            rw [hd] at hget
            exact absurd (congrArg Response.status hget) (by simp [serverError])
          | some out =>
            rw [hd] at hget
            simp only [Response.mk.injEq, Body.records.injEq, true_and] at hget
            subst hget
            obtain ⟨old, n, hold, hn, hout⟩ :=
              (decryptRecords_append node (encryptedRecord envP body enc) s.medical_records
                out).1 hd
            have hn2 : n = body.notes := by
              have : decrypt node
                  { iv := (encryptedRecord envP body enc).iv,
                    content := (encryptedRecord envP body enc).notes_encrypted } =
                  some body.notes := hdec
              rw [this] at hn
              exact (Option.some.inj hn).symm
            subst hn2
            exact ⟨old, encryptedRecord envP body enc, hout, rfl, rfl, rfl, hold⟩
      · rw [ha] at hget
        exact absurd (congrArg Response.status hget) (by simp)
  · intro hrole hc h0 h1
    unfold createRecord
    rw [assign_authorized creator hrole]
    simp only [encrypt]
    cases hcc : node.cipher node.key iv (node.fromText body.notes) with
    | none => rw [hcc] at hc; exact absurd hc (by simp)
    | some c => simp [h0, h1]
  · intro hok hrole h0 hold
    rcases createRecord_cases envP node iv creator body s with h | ⟨enc, henc, hstore⟩
    · exact absurd hok h
    · rw [hstore]
      have hdec := decrypt_encrypt node hsound iv _ enc henc
      cases ho : decryptRecords node s.medical_records with
      | none => rw [ho] at hold; exact absurd hold (by simp)
      | some old =>
        have hd := (decryptRecords_append node (encryptedRecord envP body enc) s.medical_records
          (old ++ [{ record := encryptedRecord envP body enc, notes := body.notes }])).2
          ⟨old, body.notes, ho, hdec, rfl⟩
        unfold getRecords
        rw [assign_authorized reader hrole]
        simp only [h0, Bool.false_eq_true, if_false]
        have hd2 : decryptRecords node (addRecord s (encryptedRecord envP body enc)).medical_records
            = some (old ++ [{ record := encryptedRecord envP body enc, notes := body.notes }]) :=
          hd
        rw [hd2]

theorem exNode_sound : exNode.Sound :=
  { hex := fun _ => rfl
    text := fun _ => rfl
    aes := by
      intro iv p c h
      simp only [exNode, Option.some.injEq] at h ⊢
      subst h
      simp }

/-- C24 (witness): with stand-ins for Node that satisfy the assumption, S1 stores a record with
the notes `limping`; `encrypt` returns the reversed string, `decrypt` gives `limping` back, both
routes answer 200 and the list the admin reads holds the record with the notes `limping`. -/
theorem C24_witness_record_read_back_with_its_notes :
    encrypt exNode "iv0" "limping" = some { iv := some "iv0", content := some "gnipmil" } ∧
      decrypt exNode { iv := some "iv0", content := some "gnipmil" } = some "limping" ∧
      (createRecord exEnv exNode "iv0" exStaff1 exRecordBody Store.empty).1.status = 200 ∧
      (getRecords exEnv exNode exAdmin
          (createRecord exEnv exNode "iv0" exStaff1 exRecordBody Store.empty).2).status = 200 :=
  have h := C24_notes_survive_encrypt_then_decrypt exNode exNode_sound "iv0" exEnv exEnv exStaff1
    exAdmin exRecordBody Store.empty
  ⟨by decide, h.1 _ (by decide), h.2.2.1 (Or.inl rfl) rfl rfl rfl,
    h.2.2.2 (h.2.2.1 (Or.inl rfl) rfl rfl rfl) (Or.inr rfl) rfl rfl⟩

end VetClinic
